import Mathlib

/-!
# Slotted random-access wireless network

A shallow embedding of the protocol logic of the OMNeT++ modules `Channel`
(`Channel.cc`) and `Transmitter` (`Transmitter.cc`, `Transmitter.h`).

Conventions of the embedding

* A module handler becomes a function from the module state (and the
  handler's inputs) to the new state and the list of actions it performed, in
  program order: `send`, `emit`, `scheduleAt` and `delete` calls and, for the
  Transmitter, the random draws it made.
* Simulation time (`simtime_t`, a fixed-point integer) is an `Int`; an emitted
  time is recorded before its conversion to `double`.
* `std::vector::operator[]` outside the vector, and `front()`/`pop()` on an
  empty `std::queue`, are undefined behaviour in the source. The embedding
  returns `none` there, so a statement `f x = some r` also says that every
  access `f` made on `x` was in range.
* The members `maxBackoffTime` and `backoffTime` are C++ `int`s; the
  arithmetic on them is reduced to the 32-bit two's-complement range by
  `wrapInt32`.
* Random draws (`intuniform`, `uniform`, `exponential`) come from the
  simulation kernel; the handlers receive them as an argument of type `Draws`.
  The `double`s `sendProbability` and `uniform(0.0, 1.0)` are only compared
  with `<`; they are rationals here.
* `updateBufferCount` only accumulates a floating-point statistic
  (`meanPktInBuffer_`, `lastSimtime_`) that no protocol decision reads; it is
  left out.
-/

namespace SlottedAloha

/-! ## Messages -/

/-- Modelled from the spec: the generated header `PacketMsg_m.h` is not among
the sources. The fields are the attributes the spec lists for a Packet, with
the accessor names the code calls (`getCreationTime`, `getIdTransmitter`,
`getIdChannel`, `getIdGate`); the three indices are C++ `int`s. -/
structure PacketMsg where
  creationTime : Int
  idTransmitter : Int
  idChannel : Int
  idGate : Int
deriving DecidableEq, Repr

/-- The names of the feedback messages the Channel sends on `out_tx`
(`new cMessage("ACK")`, `"NACK"`, `"TRIGGER"`); the spec calls the last one
PROMPT. -/
inductive MsgName where
  | ACK
  | NACK
  | TRIGGER
deriving DecidableEq, Repr

/-! ## Vectors indexed by a C++ `int` -/

/-- Read `v[i]`; `none` when `i` is outside the vector. -/
def vecGet? {α : Type} (v : List α) (i : Int) : Option α :=
  if 0 ≤ i then v[i.toNat]? else none

/-- Write `v[i] = a`; `none` when `i` is outside the vector. -/
def vecSet? {α : Type} (v : List α) (i : Int) (a : α) : Option (List α) :=
  if 0 ≤ i ∧ i.toNat < v.length then some (v.set i.toNat a) else none

/-! ## Channel -/

/-- The actions of the Channel module, in the order the code performs them. -/
inductive ChannelOut where
  /-- The call `send(new cMessage(name), "out_tx", gate)`. -/
  | send_tx (name : MsgName) (gate : Int)
  /-- The call `send(pkt, "out_rx", gate)`. -/
  | send_rx (pkt : PacketMsg) (gate : Int)
  /-- The call `delete(pkt)` on a collided packet. -/
  | deletePkt (pkt : PacketMsg)
  /-- The call `emit(collisionSignal_, v)`. -/
  | emitCollision (v : Int)
  /-- The call `emit(wholeResponseTimeSignal_, t)`, before the conversion to double. -/
  | emitWholeResponseTime (t : Int)
  /-- The call `emit(throughputSignal_, v)`. -/
  | emitThroughput (v : Int)
  /-- The call `scheduleAt(t, timeSlotTrigger)`. -/
  | scheduleAt (t : Int)
deriving DecidableEq, Repr

/-- Modelled from the spec: the header `Channel.h` is not among the sources. The
two members are the ones `Channel.cc` reads and writes, which the spec describes
as the sub-channel collision flags and the in-slot attempt set. -/
structure Channel where
  isCollided_ : List Bool
  packetsOfSlot_ : List PacketMsg
deriving DecidableEq, Repr

/-- The parameters the Channel reads: `getAncestorPar("numChannels")`,
`getAncestorPar("numTransmitters")` (the number of stations, which is also the
size of the gate vectors `out_tx` and `out_rx`) and `par("timeSlotSize")`. -/
structure ChannelPar where
  numChannels : Int
  numTransmitters : Nat
  timeSlotSize : Int
deriving DecidableEq, Repr

/-- How `Channel::initialize` ends the run: the call `endSimulation()`, which
does not return. -/
inductive ChannelStop where
  | endSimulation
deriving DecidableEq, Repr

/-- What the Channel receives: its own slot-boundary timer, or a packet on the
input gate with index `arrivalGate`. -/
inductive ChannelMsg where
  | timeSlotTrigger
  | packet (pkt : PacketMsg) (arrivalGate : Int)
deriving DecidableEq, Repr

/-- The loop of `Channel::findCollisions` over `packetsOfSlot_`, with the local
vector `n_collisions` and the member `isCollided_` as accumulators. -/
def findCollisionsLoop :
    List PacketMsg → List Nat → List Bool → Option (List Bool × List ChannelOut)
  | [], _, isCollided => some (isCollided, [])
  | p :: rest, n_collisions, isCollided => do
    let ch := p.idChannel
    let c ← vecGet? n_collisions ch
    if c = 1 then
      let flags ← vecSet? isCollided ch true
      let n ← vecSet? n_collisions ch (c + 1)
      let (r, outs) ← findCollisionsLoop rest n flags
      pure (r, ChannelOut.emitCollision 1 :: outs)
    else
      let n ← vecSet? n_collisions ch (c + 1)
      findCollisionsLoop rest n isCollided

/-- The function `Channel::findCollisions`. -/
def findCollisions (st : Channel) : Option (Channel × List ChannelOut) := do
  let n_collisions := List.replicate st.isCollided_.length 0
  let (flags, outs) ← findCollisionsLoop st.packetsOfSlot_ n_collisions st.isCollided_
  pure ({ st with isCollided_ := flags }, outs)

/-- The first loop of `Channel::transmission`, with the local vector
`triggeredTx` and the counter `packetSent` as accumulators. -/
def transmissionLoop (now : Int) (isCollided : List Bool) :
    List PacketMsg → List Bool → Nat → Option (List Bool × Nat × List ChannelOut)
  | [], triggeredTx, packetSent => some (triggeredTx, packetSent, [])
  | p :: rest, triggeredTx, packetSent => do
    let idGate := p.idGate
    let trig ← vecSet? triggeredTx idGate true
    let collided ← vecGet? isCollided p.idChannel
    if collided then
      let (t, n, outs) ← transmissionLoop now isCollided rest trig packetSent
      pure (t, n, ChannelOut.send_tx MsgName.NACK idGate :: ChannelOut.deletePkt p :: outs)
    else
      let (t, n, outs) ← transmissionLoop now isCollided rest trig (packetSent + 1)
      pure (t, n, ChannelOut.send_tx MsgName.ACK idGate :: ChannelOut.send_rx p idGate ::
        ChannelOut.emitWholeResponseTime (now - p.creationTime) :: outs)

/-- The loop of `Channel::triggerOthers` from index `i` on. -/
def triggerOthersLoop : List Bool → Int → List ChannelOut
  | [], _ => []
  | b :: rest, i =>
    if b = false then ChannelOut.send_tx MsgName.TRIGGER i :: triggerOthersLoop rest (i + 1)
    else triggerOthersLoop rest (i + 1)

/-- The function `Channel::triggerOthers`. -/
def triggerOthers (triggeredTx : List Bool) : List ChannelOut :=
  triggerOthersLoop triggeredTx 0

/-- The function `Channel::transmission`. -/
def transmission (par : ChannelPar) (now : Int) (st : Channel) :
    Option (Channel × List ChannelOut) := do
  let numTx := par.numTransmitters
  let (triggeredTx, packetSent, outs) ←
    transmissionLoop now st.isCollided_ st.packetsOfSlot_ (List.replicate numTx false) 0
  let thr :=
    if st.isCollided_.length > 0 then ChannelOut.emitThroughput packetSent
    else ChannelOut.emitThroughput 0
  pure ({ isCollided_ := List.replicate st.isCollided_.length false, packetsOfSlot_ := [] },
    outs ++ thr :: triggerOthers triggeredTx)

/-- The function `Channel::scheduleTimeSlot`. -/
def scheduleTimeSlot (par : ChannelPar) (now : Int) : List ChannelOut :=
  [ChannelOut.scheduleAt (now + par.timeSlotSize)]

/-- The function `Channel::initialize`. -/
def Channel.initialize (par : ChannelPar) (now : Int) :
    Except ChannelStop (Channel × List ChannelOut) :=
  let numOfChannels := par.numChannels
  if numOfChannels = 0 then Except.error ChannelStop.endSimulation
  else
    Except.ok ({ isCollided_ := List.replicate numOfChannels.toNat false, packetsOfSlot_ := [] },
      scheduleTimeSlot par now)

/-- The function `Channel::handleMessage`. -/
def Channel.handleMessage (par : ChannelPar) (now : Int) (st : Channel) :
    ChannelMsg → Option (Channel × List ChannelOut)
  | ChannelMsg.timeSlotTrigger => do
    let (s1, o1) ← findCollisions st
    let (s2, o2) ← transmission par now s1
    pure (s2, o1 ++ o2 ++ scheduleTimeSlot par now)
  | ChannelMsg.packet pkt arrivalGate =>
    let newPkt := { pkt with idGate := arrivalGate }
    some ({ st with packetsOfSlot_ := st.packetsOfSlot_ ++ [newPkt] }, [])

/-- Deliver a sequence of messages to the Channel, each at its delivery time. -/
def Channel.run (par : ChannelPar) :
    Channel → List (Int × ChannelMsg) → Option (Channel × List ChannelOut)
  | st, [] => some (st, [])
  | st, (t, m) :: rest => do
    let (s1, o1) ← Channel.handleMessage par t st m
    let (s2, o2) ← Channel.run par s1 rest
    pure (s2, o1 ++ o2)

/-- An attempt on its way to the Channel: delivery time, packet as the station
sent it, and the index of the input gate it arrives on. -/
structure Arrival where
  time : Int
  pkt : PacketMsg
  gate : Int
deriving DecidableEq, Repr

/-- The message that delivers an arrival. -/
def Arrival.msg (a : Arrival) : Int × ChannelMsg := (a.time, ChannelMsg.packet a.pkt a.gate)

/-- The packet as `handleMessage` stores it: the arrival gate stamped in `idGate`. -/
def Arrival.stamped (a : Arrival) : PacketMsg := { a.pkt with idGate := a.gate }

/-! ## Transmitter -/

/-- The value a C++ `int` holds after an arithmetic result `x`: `x` reduced to
the 32-bit two's-complement range. -/
def wrapInt32 (x : Int) : Int := (x + 2147483648) % 4294967296 - 2147483648

/-- The parameters the Transmitter reads with `par(...)`, and the module id
(`getId()`). -/
structure TransmitterPar where
  id : Int
  sendProbability : Rat
  meanInterarrivalTime : Int
  numChannels : Int
  deterministicInterarrivalTime : Bool
  isBackoff : Bool
  changeOfChannelAfterCollision : Bool
deriving DecidableEq, Repr

/-- The members of `Transmitter` (`Transmitter.h`) that the protocol reads. -/
structure Transmitter where
  buffer : List PacketMsg
  maxBackoffTime : Int
  backoffTime : Int
  numChannels : Int
  meanInterarrivalTime : Int
  sendProbability : Rat
deriving DecidableEq, Repr

/-- What the kernel's random number streams return to one handler call. -/
structure Draws where
  /-- The value of `exponential(mean, 0)`, as a simulation time. -/
  exponential : Int → Int
  /-- The value of `intuniform(a, b, 1)`. -/
  backoff : Int → Int → Int
  /-- The value of `intuniform(a, b, 2)`. -/
  channel : Int → Int → Int
  /-- The value of `uniform(0.0, 1.0, 3)`. -/
  bernoulli : Rat

/-- The actions of the Transmitter module, in the order the code performs them. -/
inductive TransmitterOut where
  /-- The call `send(pkt->dup(), "out")`. -/
  | send (pkt : PacketMsg)
  /-- The call `scheduleAt(t, pkt)`. -/
  | scheduleAt (t : Int) (pkt : PacketMsg)
  /-- The call `delete(buffer.front())`. -/
  | deletePkt (pkt : PacketMsg)
  /-- The call `emit(numPacketCreatedSignal_, v)`. -/
  | emitNumPacketCreated (v : Int)
  /-- The call `emit(numPacketOnBufferSignal_, v)`. -/
  | emitNumPacketOnBuffer (v : Int)
  /-- A call `exponential(mean, rng)` that returned `r`. -/
  | drawExponential (mean : Int) (rng : Nat) (r : Int)
  /-- A call `intuniform(a, b, rng)` that returned `r`. -/
  | drawIntuniform (a b : Int) (rng : Nat) (r : Int)
  /-- A call `uniform(0.0, 1.0, rng)` that returned `r`. -/
  | drawUniform (rng : Nat) (r : Rat)
deriving DecidableEq, Repr

/-- What the Transmitter receives: its own arrival timer, carrying the packet
that `scheduleNextPacket` created, or a feedback message from the Channel. -/
inductive TransmitterMsg where
  | arrival (pkt : PacketMsg)
  | feedback (name : MsgName)
deriving DecidableEq, Repr

/-- Modelled from the spec: the constructor `PacketMsg("Packet")` is generated
code that is not among the sources; a new packet has no sub-channel, station or
gate assigned yet, which the generated constructor represents by zero fields. -/
def PacketMsg.fresh : PacketMsg :=
  { creationTime := 0, idTransmitter := 0, idChannel := 0, idGate := 0 }

/-- The function `Transmitter::scheduleNextPacket`. -/
def scheduleNextPacket (par : TransmitterPar) (now : Int) (d : Draws) (st : Transmitter) :
    List TransmitterOut :=
  let drawn := d.exponential st.meanInterarrivalTime
  let interArrivalTime :=
    if par.deterministicInterarrivalTime then st.meanInterarrivalTime else drawn
  let arrivalTime := interArrivalTime + now
  let pkt := { PacketMsg.fresh with creationTime := arrivalTime }
  [TransmitterOut.drawExponential st.meanInterarrivalTime 0 drawn,
    TransmitterOut.scheduleAt arrivalTime pkt]

/-- The function `Transmitter::initialize`. -/
def Transmitter.initialize (par : TransmitterPar) (now : Int) (d : Draws) :
    Transmitter × List TransmitterOut :=
  let st : Transmitter :=
    { buffer := [], maxBackoffTime := 2, backoffTime := 0,
      sendProbability := par.sendProbability,
      meanInterarrivalTime := par.meanInterarrivalTime,
      numChannels := par.numChannels }
  (st, scheduleNextPacket par now d st)

/-- The function `Transmitter::handleArrivedPacket`. -/
def handleArrivedPacket (par : TransmitterPar) (now : Int) (d : Draws) (st : Transmitter)
    (msg : PacketMsg) : Transmitter × List TransmitterOut :=
  let pkt := { msg with idTransmitter := par.id }
  if par.changeOfChannelAfterCollision then
    let st1 := { st with buffer := st.buffer ++ [pkt] }
    (st1, TransmitterOut.emitNumPacketCreated 1 :: scheduleNextPacket par now d st1)
  else
    let r := d.channel 0 (st.numChannels - 1)
    let st1 := { st with buffer := st.buffer ++ [{ pkt with idChannel := r }] }
    (st1, TransmitterOut.emitNumPacketCreated 1
      :: TransmitterOut.drawIntuniform 0 (st.numChannels - 1) 2 r
      :: scheduleNextPacket par now d st1)

/-- The last block of `Transmitter::handleChannelPacket`: the Bernoulli
experiment on a non-empty buffer. -/
def bernoulliAttempt (par : TransmitterPar) (d : Draws) (st : Transmitter) :
    Transmitter × List TransmitterOut :=
  match st.buffer with
  | [] => (st, [])
  | pkt :: rest =>
    let u := d.bernoulli
    if u < st.sendProbability then
      if par.changeOfChannelAfterCollision then
        let r := d.channel 0 (st.numChannels - 1)
        let pkt1 := { pkt with idChannel := r }
        ({ st with buffer := pkt1 :: rest },
          [TransmitterOut.drawUniform 3 u,
            TransmitterOut.drawIntuniform 0 (st.numChannels - 1) 2 r,
            TransmitterOut.send pkt1])
      else
        (st, [TransmitterOut.drawUniform 3 u, TransmitterOut.send pkt])
    else
      (st, [TransmitterOut.drawUniform 3 u])

/-- The function `Transmitter::handleChannelPacket`. -/
def handleChannelPacket (par : TransmitterPar) (d : Draws) (st : Transmitter)
    (name : MsgName) : Option (Transmitter × List TransmitterOut) :=
  if st.backoffTime > 0 ∧ par.isBackoff = true then
    some ({ st with backoffTime := st.backoffTime - 1 }, [])
  else if name = MsgName.NACK ∧ par.isBackoff = true then
    let m := wrapInt32 (st.maxBackoffTime * 2)
    let r := d.backoff 1 m
    some ({ st with maxBackoffTime := m, backoffTime := r },
      [TransmitterOut.drawIntuniform 1 m 1 r])
  else if name = MsgName.ACK then
    match st.buffer with
    | [] => none
    | pkt :: rest =>
      let st1 := { st with buffer := rest, maxBackoffTime := 2 }
      let (st2, outs) := bernoulliAttempt par d st1
      some (st2, TransmitterOut.deletePkt pkt :: outs)
  else
    some (bernoulliAttempt par d st)

/-- The function `Transmitter::handleMessage`. -/
def Transmitter.handleMessage (par : TransmitterPar) (now : Int) (d : Draws)
    (st : Transmitter) : TransmitterMsg → Option (Transmitter × List TransmitterOut)
  | TransmitterMsg.arrival pkt =>
    let (st1, outs) := handleArrivedPacket par now d st pkt
    some (st1, outs ++ [TransmitterOut.emitNumPacketOnBuffer st1.buffer.length])
  | TransmitterMsg.feedback name => handleChannelPacket par d st name

/-- One event delivered to the Transmitter: the simulation time, what the random
streams return during the handler, and the message. -/
structure TxEvent where
  now : Int
  draws : Draws
  msg : TransmitterMsg

/-- Deliver a sequence of events to the Transmitter. -/
def Transmitter.run (par : TransmitterPar) :
    Transmitter → List TxEvent → Option (Transmitter × List TransmitterOut)
  | st, [] => some (st, [])
  | st, e :: rest => do
    let (s1, o1) ← Transmitter.handleMessage par e.now e.draws st e.msg
    let (s2, o2) ← Transmitter.run par s1 rest
    pure (s2, o1 ++ o2)

/-- The station states the code reaches from `initialize` by handling messages. -/
inductive Reachable (par : TransmitterPar) : Transmitter → Prop where
  | init (now : Int) (d : Draws) : Reachable par ( Transmitter.initialize par now d).1
  | step (s s1 : Transmitter) (now : Int) (d : Draws) (msg : TransmitterMsg)
      (outs : List TransmitterOut) :
      Reachable par s → Transmitter.handleMessage par now d s msg = some (s1, outs) →
      Reachable par s1

/-- The packets an action list deletes from the buffer, in order. -/
def removedPackets : List TransmitterOut → List PacketMsg
  | [] => []
  | TransmitterOut.deletePkt p :: rest => p :: removedPackets rest
  | _ :: rest => removedPackets rest

/-- The packets a message appended to the buffer: what the buffer holds beyond
its previous length after an arrival. -/
def pushedPackets (before after : Transmitter) : TransmitterMsg → List PacketMsg
  | TransmitterMsg.arrival _ => after.buffer.drop before.buffer.length
  | TransmitterMsg.feedback _ => []

/-- Deliver a sequence of events, recording the packets pushed into the buffer
and the packets deleted from it, each in order. -/
def Transmitter.history (par : TransmitterPar) :
    Transmitter → List TxEvent → Option (Transmitter × List PacketMsg × List PacketMsg)
  | st, [] => some (st, [], [])
  | st, e :: rest => do
    let (s1, o1) ← Transmitter.handleMessage par e.now e.draws st e.msg
    let (s2, arrived, removed) ← Transmitter.history par s1 rest
    pure (s2, pushedPackets st s1 e.msg ++ arrived, removedPackets o1 ++ removed)

/-! ## Vocabulary of the statements: Channel -/

/-- The number of attempts of the slot that name sub-channel `c`. -/
def attemptsOn (pkts : List PacketMsg) (c : Int) : Nat :=
  pkts.countP (fun p => decide (p.idChannel = c))

/-- Every attempt names a sub-channel inside a vector of `N` flags. -/
def ChannelsInRange (N : Nat) (pkts : List PacketMsg) : Prop :=
  ∀ p ∈ pkts, 0 ≤ p.idChannel ∧ p.idChannel < N

instance (N : Nat) (pkts : List PacketMsg) : Decidable (ChannelsInRange N pkts) :=
  inferInstanceAs (Decidable (∀ p ∈ pkts, 0 ≤ p.idChannel ∧ p.idChannel < N))

/-- Every attempt carries a gate index inside a vector of `T` entries. -/
def GatesInRange (T : Nat) (pkts : List PacketMsg) : Prop :=
  ∀ p ∈ pkts, 0 ≤ p.idGate ∧ p.idGate < T

instance (T : Nat) (pkts : List PacketMsg) : Decidable (GatesInRange T pkts) :=
  inferInstanceAs (Decidable (∀ p ∈ pkts, 0 ≤ p.idGate ∧ p.idGate < T))

/-- Whether the sub-channel of `p` carries two or more attempts of `pkts`. -/
def collides (pkts : List PacketMsg) (p : PacketMsg) : Bool :=
  decide (2 ≤ attemptsOn pkts p.idChannel)

/-- The flag vector with `true` exactly at the sub-channels that carry two or
more attempts. -/
def collisionFlags (N : Nat) (pkts : List PacketMsg) : List Bool :=
  (List.range N).map (fun (c : Nat) => decide (2 ≤ attemptsOn pkts (c : Int)))

/-- The number of sub-channels among the first `N` that carry two or more attempts. -/
def collidedChannels (N : Nat) (pkts : List PacketMsg) : Nat :=
  (List.range N).countP (fun (c : Nat) => decide (2 ≤ attemptsOn pkts (c : Int)))

/-- The stations, by gate index, that have no attempt in `pkts`. -/
def silentGates (T : Nat) (pkts : List PacketMsg) : List Nat :=
  (List.range T).filter (fun (g : Nat) => !(pkts.any (fun p => decide (p.idGate = (g : Int)))))

/-- The value of the throughput observation of a slot with `N` flags. -/
def throughputOf (N : Nat) (pkts : List PacketMsg) : Int :=
  if N > 0 then ((pkts.countP (fun p => !(collides pkts p)) : Nat) : Int) else 0

/-- The flag the resolution reads for the attempt `p`. -/
def collidedAt (isCollided : List Bool) (p : PacketMsg) : Bool :=
  (vecGet? isCollided p.idChannel).getD false

/-- The actions of `Channel::transmission` for one attempt. -/
def replyBlock (now : Int) (collided : Bool) (p : PacketMsg) : List ChannelOut :=
  if collided then [ChannelOut.send_tx MsgName.NACK p.idGate, ChannelOut.deletePkt p]
  else [ChannelOut.send_tx MsgName.ACK p.idGate, ChannelOut.send_rx p p.idGate,
    ChannelOut.emitWholeResponseTime (now - p.creationTime)]

/-- Whether the loop of `findCollisions`, with counters `n` so far, still flags
sub-channel `c` while reading `rest`. -/
def flagsLater (n : List Nat) (rest : List PacketMsg) (c : Nat) : Bool :=
  decide (n[c]?.getD 0 ≤ 1 ∧ 2 ≤ n[c]?.getD 0 + attemptsOn rest c)

/-- Whether an action settles an attempt: an ACK or NACK on `out_tx`, a packet
forwarded on `out_rx`, or a collided packet deleted. -/
def ChannelOut.isOutcome : ChannelOut → Bool
  | ChannelOut.send_tx MsgName.ACK _ => true
  | ChannelOut.send_tx MsgName.NACK _ => true
  | ChannelOut.send_rx _ _ => true
  | ChannelOut.deletePkt _ => true
  | _ => false

/-- Whether an action is a throughput observation. -/
def ChannelOut.isThroughput : ChannelOut → Bool
  | ChannelOut.emitThroughput _ => true
  | _ => false

/-- Whether an action is an ACK on `out_tx`. -/
def ChannelOut.isAck : ChannelOut → Bool
  | ChannelOut.send_tx MsgName.ACK _ => true
  | _ => false

/-- Whether an action forwards a packet on `out_rx`. -/
def ChannelOut.isForward : ChannelOut → Bool
  | ChannelOut.send_rx _ _ => true
  | _ => false

/-- Whether an action is a feedback message on `out_tx` (ACK, NACK or TRIGGER). -/
def ChannelOut.isFeedback : ChannelOut → Bool
  | ChannelOut.send_tx _ _ => true
  | _ => false

/-- Whether an action is a feedback message on `out_tx` to gate `g`. -/
def ChannelOut.isFeedbackTo (g : Int) : ChannelOut → Bool
  | ChannelOut.send_tx _ gate => decide (gate = g)
  | _ => false

/-! ## Vocabulary of the statements: Transmitter -/

/-- Whether an action offers a packet to the Channel. -/
def TransmitterOut.isSend : TransmitterOut → Bool
  | TransmitterOut.send _ => true
  | _ => false

/-- The contract of the kernel's `intuniform(a, b)`: a value in `[a, b]`. -/
def Draws.BackoffInRange (d : Draws) : Prop :=
  ∀ a b : Int, a ≤ b → a ≤ d.backoff a b ∧ d.backoff a b ≤ b

/-- The buffer the Bernoulli experiment sees: after an ACK, without the
acknowledged head. -/
def bufferAfterAck (st : Transmitter) (name : MsgName) : List PacketMsg :=
  if name = MsgName.ACK then st.buffer.tail else st.buffer

/-- The packet without its sub-channel assignment. -/
def PacketMsg.withoutChannel (p : PacketMsg) : PacketMsg := { p with idChannel := 0 }

/-! ## Example data -/

/-- A Channel with two sub-channels, three stations and slots of 10 time units. -/
def demoChannelPar : ChannelPar :=
  { numChannels := 2, numTransmitters := 3, timeSlotSize := 10 }

/-- A slot with three attempts on sub-channel 1 and one on sub-channel 0. -/
def demoSlot : List PacketMsg :=
  [⟨0, 0, 1, 0⟩, ⟨0, 1, 1, 1⟩, ⟨0, 2, 1, 2⟩, ⟨0, 3, 0, 3⟩]

/-- Two stations attempting in the same slot on the same sub-channel 0. -/
def demoPair : List PacketMsg := [⟨0, 0, 0, 0⟩, ⟨0, 1, 0, 1⟩]

/-- Two stations attempting in the same slot, station A on sub-channel 0 and
station B on sub-channel 1. -/
def demoApart : List PacketMsg := [⟨0, 0, 0, 0⟩, ⟨0, 1, 1, 1⟩]

/-- The attempts of `demoApart` on their way to the Channel: created at times 3
and 4, delivered at time 90 on gates 0 and 1. -/
def demoArrivals : List Arrival :=
  [{ time := 90, pkt := ⟨3, 0, 0, 0⟩, gate := 0 },
   { time := 90, pkt := ⟨4, 1, 1, 0⟩, gate := 1 }]

/-- A station with back-off enabled that always attempts (send probability 1),
on one sub-channel, with the sub-channel assigned at arrival and a packet
arriving every 1000 time units. -/
def demoPar : TransmitterPar :=
  { id := 7, sendProbability := 1, meanInterarrivalTime := 1000, numChannels := 1,
    deterministicInterarrivalTime := true, isBackoff := true,
    changeOfChannelAfterCollision := false }

/-- Random streams that return the lower end of every range. -/
def demoDraws : Draws :=
  { exponential := fun m => m, backoff := fun a _ => a, channel := fun a _ => a,
    bernoulli := 0 }

/-- A feedback message delivered at time `t`. -/
def demoFeedback (t : Int) (name : MsgName) : TxEvent :=
  { now := t, draws := demoDraws, msg := TransmitterMsg.feedback name }

/-- The first packet arrives at time 1000 and is attempted at the slot boundary
1010. -/
def demoFirstAttempt : List TxEvent :=
  [{ now := 1000, draws := demoDraws,
     msg := TransmitterMsg.arrival { PacketMsg.fresh with creationTime := 1000 } },
   demoFeedback 1010 MsgName.TRIGGER]

/-- One collision cycle of three slots starting at time `t`: the attempt is
NACKed, the drawn back-off of one slot elapses, and the station attempts again. -/
def demoCycle (t : Int) : List TxEvent :=
  [demoFeedback t MsgName.NACK, demoFeedback (t + 10) MsgName.TRIGGER,
   demoFeedback (t + 20) MsgName.TRIGGER]

/-- A packet arrives and is attempted, and the attempt collides 29 times in a row. -/
def demoCollisions : List TxEvent :=
  demoFirstAttempt ++ (List.range 29).flatMap (fun k => demoCycle (1020 + 30 * (k : Int)))

/-- The station state after `demoFirstAttempt`. -/
def demoState : Transmitter :=
  { buffer := [{ creationTime := 1000, idTransmitter := 7, idChannel := 0, idGate := 0 }],
    maxBackoffTime := 2, backoffTime := 0, numChannels := 1, meanInterarrivalTime := 1000,
    sendProbability := 1 }

/-- The station state after `demoFirstAttempt` and one NACK: one slot of back-off. -/
def demoBackoffState : Transmitter :=
  { demoState with maxBackoffTime := 4, backoffTime := 1 }

/-- The station state after `demoCollisions`: window bound `2 ^ 30`, counter 0. -/
def demoOverflowState : Transmitter :=
  { demoState with maxBackoffTime := 1073741824 }

/-- The station of `demoPar` with back-off disabled. -/
def demoParNoBackoff : TransmitterPar := { demoPar with isBackoff := false }

/-- A station that always attempts and draws one of two sub-channels at each
attempt. -/
def demoParAtAttempt : TransmitterPar :=
  { demoPar with numChannels := 2, changeOfChannelAfterCollision := true }

/-- Random streams that return the upper end of every integer range. -/
def demoDrawsHigh : Draws :=
  { exponential := fun m => m, backoff := fun _ b => b, channel := fun _ b => b,
    bernoulli := 0 }

/-- The arrival of the first packet at time 1000, with `demoDrawsHigh`. -/
def demoArrivalHigh : List TxEvent :=
  [{ now := 1000, draws := demoDrawsHigh,
     msg := TransmitterMsg.arrival { PacketMsg.fresh with creationTime := 1000 } }]

/-- The station of `demoParAtAttempt` after `demoArrivalHigh`. -/
def demoStateAtAttempt : Transmitter :=
  { demoState with numChannels := 2 }

/-- The packet of `demoArrivalHigh` arrives, is attempted on the PROMPT of time
1010 and acknowledged at time 1020. -/
def demoDelivery : List TxEvent :=
  demoArrivalHigh ++
    [{ now := 1010, draws := demoDrawsHigh, msg := TransmitterMsg.feedback MsgName.TRIGGER },
     { now := 1020, draws := demoDrawsHigh, msg := TransmitterMsg.feedback MsgName.ACK }]

/-! ## Vocabulary of the statements: second part -/

/-- Whether an action is a collision observation. -/
def ChannelOut.isCollision : ChannelOut → Bool
  | ChannelOut.emitCollision _ => true
  | _ => false

/-- The attempts the Channel holds after the messages `msgs`, given that it held
`acc` before them: the stamped packets received since the last slot timer. -/
def pendingAttempts : List PacketMsg → List (Int × ChannelMsg) → List PacketMsg
  | acc, [] => acc
  | _, (_, ChannelMsg.timeSlotTrigger) :: rest => pendingAttempts [] rest
  | acc, (_, ChannelMsg.packet pkt arrivalGate) :: rest =>
    pendingAttempts (acc ++ [{ pkt with idGate := arrivalGate }]) rest

/-- Whether an action is a draw from the uniform stream (the Bernoulli trial). -/
def TransmitterOut.isUniformDraw : TransmitterOut → Bool
  | TransmitterOut.drawUniform _ _ => true
  | _ => false

/-- Whether an action schedules an arrival. -/
def TransmitterOut.isSchedule : TransmitterOut → Bool
  | TransmitterOut.scheduleAt _ _ => true
  | _ => false

/-- Whether an event delivers a feedback message. -/
def TxEvent.isFeedback (e : TxEvent) : Bool :=
  match e.msg with
  | TransmitterMsg.feedback _ => true
  | TransmitterMsg.arrival _ => false

/-- The contract of `intuniform(a, b, 2)`: on a non-empty range the value lies
in it. -/
def Draws.ChannelInRange (d : Draws) : Prop :=
  ∀ a b : Int, a ≤ b → a ≤ d.channel a b ∧ d.channel a b ≤ b

/-- The local `interArrivalTime` of `Transmitter::scheduleNextPacket`. -/
def interArrivalTime (par : TransmitterPar) (d : Draws) (st : Transmitter) : Int :=
  if par.deterministicInterarrivalTime then st.meanInterarrivalTime
  else d.exponential st.meanInterarrivalTime

/-- The arrival event `m` for time `t` is one that `scheduleNextPacket` scheduled:
at some time `now0`, for `now0` plus the inter-arrival time. -/
def ScheduledArrival (par : TransmitterPar) (t : Int) (m : PacketMsg) : Prop :=
  ∃ (now0 : Int) (d0 : Draws) (st0 : Transmitter),
    TransmitterOut.scheduleAt t m ∈ scheduleNextPacket par now0 d0 st0 ∧
    t = now0 + interArrivalTime par d0 st0

/-! ## Example data: second part -/

/-- The slot of `demoArrivals` is resolved at time 100, and in the next slot an
attempt arrives on gate 2. -/
def demoTwoSlots : List (Int × ChannelMsg) :=
  demoArrivals.map Arrival.msg ++
    [(100, ChannelMsg.timeSlotTrigger), (105, ChannelMsg.packet ⟨5, 2, 1, 0⟩ 2)]

/-- A configuration with no sub-channel. -/
def demoChannelParZero : ChannelPar := { demoChannelPar with numChannels := 0 }

/-- The collisions of `demoCollisions` followed by one more NACK: the thirtieth
collision in a row. -/
def demoThirtyCollisions : List TxEvent :=
  demoCollisions ++ [demoFeedback 1890 MsgName.NACK]

/-- The station state after `demoThirtyCollisions`. -/
def demoNegativeWindowState : Transmitter :=
  { demoState with maxBackoffTime := -2147483648, backoffTime := 1 }

/-- A station in back-off for two more slots. -/
def demoCountdownState : Transmitter :=
  { demoState with maxBackoffTime := 4, backoffTime := 2 }

/-- Two feedback signals: an ACK and then a NACK. -/
def demoTwoSignals : List TxEvent :=
  [demoFeedback 1030 MsgName.ACK, demoFeedback 1040 MsgName.NACK]

/-- The station of `demoParAtAttempt` with back-off disabled. -/
def demoParAtAttemptNoBackoff : TransmitterPar := { demoParAtAttempt with isBackoff := false }

/-- Three stations attempting in one slot: stations 0 and 1 on sub-channel 1,
station 2 on sub-channel 0. -/
def demoThree : List PacketMsg := [⟨0, 0, 1, 0⟩, ⟨0, 1, 1, 1⟩, ⟨0, 2, 0, 2⟩]

/-! ## The composed network -/

/-- Modelled from the spec: the network description that instantiates the
modules is not among the sources. A station is one Transmitter module: its
parameters and its state. -/
structure Station where
  par : TransmitterPar
  st : Transmitter
deriving DecidableEq, Repr

/-- Modelled from the spec: the network description and the event kernel are not
among the sources. The composed system is one Channel and the stations, the
station of index `i` wired to the gates of index `i` of the Channel (`in`,
`out_tx`). `inflight` holds the feedback messages the Channel has sent and the
stations have not handled yet, in sending order, and `lastOuts` the actions of
the last slot resolution. -/
structure Network where
  channel : Channel
  stations : List Station
  inflight : List (MsgName × Int)
  lastOuts : List ChannelOut
deriving DecidableEq, Repr

/-- The feedback messages among the actions of the Channel, in sending order:
name and index of the gate `out_tx`. -/
def feedbackOf : List ChannelOut → List (MsgName × Int)
  | [] => []
  | ChannelOut.send_tx name gate :: rest => (name, gate) :: feedbackOf rest
  | _ :: rest => feedbackOf rest

/-- The packets an action list of a station offers to the Channel, in order. -/
def sentPackets : List TransmitterOut → List PacketMsg
  | [] => []
  | TransmitterOut.send p :: rest => p :: sentPackets rest
  | _ :: rest => sentPackets rest

/-- Modelled from the spec: start of the composed system at time `now`.
`Channel::initialize` and, for each station, `Transmitter::initialize` with the
parameters and the random streams of that station. -/
def Network.start (cpar : ChannelPar) (now : Int) (inits : List (TransmitterPar × Draws)) :
    Except ChannelStop Network :=
  match Channel.initialize cpar now with
  | Except.error e => Except.error e
  | Except.ok (ch, _) =>
    Except.ok
      { channel := ch,
        stations := inits.map
          (fun x => { par := x.1, st := ( Transmitter.initialize x.1 now x.2).1 }),
        inflight := [],
        lastOuts := [] }

/-- Modelled from the spec: the slot timer fires. The Channel resolves the slot;
its feedback messages are now in flight to the stations. -/
def Network.resolve (cpar : ChannelPar) (now : Int) (net : Network) : Option Network := do
  let (ch1, outs) ← Channel.handleMessage cpar now net.channel ChannelMsg.timeSlotTrigger
  pure { net with channel := ch1, inflight := feedbackOf outs, lastOuts := outs }

/-- Modelled from the spec: the feedback message `name`, sent on `out_tx[gate]`,
is handled by the station wired to that gate, with `rest` still in flight. What
the station sends in reaction arrives at the Channel on `in[gate]`, within the
slot. -/
def Network.deliver (cpar : ChannelPar) (now : Int) (d : Draws) (net : Network)
    (name : MsgName) (gate : Int) (rest : List (MsgName × Int)) : Option Network := do
  let s ← vecGet? net.stations gate
  let (st1, outs) ← Transmitter.handleMessage s.par now d s.st (TransmitterMsg.feedback name)
  let (ch1, _) ← Channel.run cpar net.channel
    ((sentPackets outs).map (fun p => (now, ChannelMsg.packet p gate)))
  pure { net with channel := ch1,
                  stations := net.stations.set gate.toNat { s with st := st1 },
                  inflight := rest }

/-- Modelled from the spec: the arrival timer of the station of index `i` fires
with the packet `pkt`. -/
def Network.arrival (now : Int) (d : Draws) (net : Network) (i : Nat) (pkt : PacketMsg) :
    Option Network := do
  let s ← net.stations[i]?
  let (st1, _) ← Transmitter.handleMessage s.par now d s.st (TransmitterMsg.arrival pkt)
  pure { net with stations := net.stations.set i { s with st := st1 } }

/-- Modelled from the spec: the states of the composed system with stations of
parameters `pars`, one per gate of the Channel, under random streams that
satisfy `ok`. The stations are started by `initialize`; the Channel resolves
once per slot, when the feedback of the slot before has been handled; a station
sends only in reaction to feedback; arrivals come at any time. -/
inductive NetReachable (cpar : ChannelPar) (pars : List TransmitterPar) (ok : Draws → Prop) :
    Network → Prop where
  | start (now : Int) (inits : List (TransmitterPar × Draws)) (net : Network) :
      inits.map Prod.fst = pars → pars.length = cpar.numTransmitters →
      Network.start cpar now inits = Except.ok net → NetReachable cpar pars ok net
  | resolve (net net1 : Network) (now : Int) :
      NetReachable cpar pars ok net → net.inflight = [] →
      Network.resolve cpar now net = some net1 → NetReachable cpar pars ok net1
  | deliver (net net1 : Network) (now : Int) (d : Draws) (name : MsgName) (gate : Int)
      (rest : List (MsgName × Int)) :
      NetReachable cpar pars ok net → ok d → net.inflight = (name, gate) :: rest →
      Network.deliver cpar now d net name gate rest = some net1 → NetReachable cpar pars ok net1
  | arrival (net net1 : Network) (now : Int) (d : Draws) (i : Nat) (pkt : PacketMsg) :
      NetReachable cpar pars ok net → ok d →
      Network.arrival now d net i pkt = some net1 → NetReachable cpar pars ok net1

/-- The station is not counting down: the first branch of `handleChannelPacket`
is not taken. -/
def Station.Ready (s : Station) : Prop :=
  ¬ (s.st.backoffTime > 0 ∧ s.par.isBackoff = true)

/-- The station wired to gate `g` is not counting down and the head of its
buffer is `q` up to the gate stamp, which is `g`. -/
def Network.Holds (net : Network) (g : Int) (q : PacketMsg) : Prop :=
  ∃ (s : Station) (h : PacketMsg) (t : List PacketMsg),
    vecGet? net.stations g = some s ∧ s.st.buffer = h :: t ∧ q = { h with idGate := g } ∧
    s.Ready

/-- What holds of every reachable state of the composed system: the flags are
all false; every attempt the Channel holds is the head of the buffer of the
station on its gate, at most one per gate, and none for a station whose feedback
is still in flight; there is at most one feedback in flight per gate, to an
existing station; and an ACK in flight answers the head of the buffer of its
station, forwarded in the last resolution. -/
structure Network.Linked (cpar : ChannelPar) (pars : List TransmitterPar) (net : Network) :
    Prop where
  flags : net.channel.isCollided_ = List.replicate net.channel.isCollided_.length false
  pars_eq : net.stations.map Station.par = pars
  size : pars.length = cpar.numTransmitters
  held : ∀ q ∈ net.channel.packetsOfSlot_, net.Holds q.idGate q
  gates : (net.channel.packetsOfSlot_.map PacketMsg.idGate).Nodup
  flying : (net.inflight.map Prod.snd).Nodup
  apart : ∀ q ∈ net.channel.packetsOfSlot_, q.idGate ∉ net.inflight.map Prod.snd
  wired : ∀ x ∈ net.inflight, ∃ s, vecGet? net.stations x.2 = some s
  acked : ∀ g, (MsgName.ACK, g) ∈ net.inflight →
    ∃ q, net.Holds g q ∧ ChannelOut.send_rx q g ∈ net.lastOuts

/-- What holds in addition when the stations are configured with the
sub-channel count of the Channel and `intuniform` keeps its contract: every
station state still has that count, under the assign-at-arrival policy every
buffered packet carries a sub-channel index in range, and so does every attempt
the Channel holds; the Channel has one flag per sub-channel. -/
structure Network.Ranged (cpar : ChannelPar) (net : Network) : Prop where
  count : ∀ s ∈ net.stations, s.st.numChannels = cpar.numChannels
  buffered : ∀ s ∈ net.stations, s.par.changeOfChannelAfterCollision = false →
    ∀ p ∈ s.st.buffer, 0 ≤ p.idChannel ∧ p.idChannel < cpar.numChannels
  attempts : ∀ q ∈ net.channel.packetsOfSlot_, 0 ≤ q.idChannel ∧ q.idChannel < cpar.numChannels
  flagCount : ((net.channel.isCollided_.length : Nat) : Int) = cpar.numChannels

/-! ## Example data: the composed network -/

/-- A station that always attempts, with back-off enabled, configured with the
two sub-channels of `demoChannelPar` and the assign-at-arrival policy. -/
def demoStationPar : TransmitterPar := { demoPar with numChannels := 2 }

/-- Three stations for the Channel of `demoChannelPar`; the station on gate 1
draws its sub-channel at each attempt. -/
def demoStations : List TransmitterPar :=
  [demoStationPar, { demoParAtAttempt with id := 8 }, { demoStationPar with id := 9 }]

/-- The composed system of `demoChannelPar` and `demoStations` as started at
time 0. -/
def demoNetStart : Network :=
  { channel := { isCollided_ := [false, false], packetsOfSlot_ := [] },
    stations := demoStations.map
      (fun p => { par := p, st := ( Transmitter.initialize p 0 demoDraws).1 }),
    inflight := [],
    lastOuts := [] }

/-- A packet arrives at the station on gate 0 at time 3. -/
def demoNet1 : Network :=
  (Network.arrival 3 demoDraws demoNetStart 0
    { PacketMsg.fresh with creationTime := 3 }).getD demoNetStart

/-- A packet arrives at the station on gate 1 at time 4. -/
def demoNet2 : Network :=
  (Network.arrival 4 demoDrawsHigh demoNet1 1
    { PacketMsg.fresh with creationTime := 4 }).getD demoNet1

/-- The first slot boundary, at time 10: no attempt yet, a PROMPT to every
station. -/
def demoNet3 : Network := (Network.resolve demoChannelPar 10 demoNet2).getD demoNet2

/-- The station on gate 0 handles its PROMPT and attempts, on sub-channel 0. -/
def demoNet4 : Network :=
  (Network.deliver demoChannelPar 10 demoDraws demoNet3 MsgName.TRIGGER 0
    [(MsgName.TRIGGER, 1), (MsgName.TRIGGER, 2)]).getD demoNet3

/-- The station on gate 1 handles its PROMPT and attempts, on sub-channel 1. -/
def demoNet5 : Network :=
  (Network.deliver demoChannelPar 10 demoDrawsHigh demoNet4 MsgName.TRIGGER 1
    [(MsgName.TRIGGER, 2)]).getD demoNet4

/-- The station on gate 2 handles its PROMPT; its buffer is empty. The Channel
now holds the two attempts of the slot. -/
def demoNetAttempts : Network :=
  (Network.deliver demoChannelPar 10 demoDraws demoNet5 MsgName.TRIGGER 2 []).getD demoNet5

/-- The second slot boundary, at time 20: both attempts are acknowledged, and
the acknowledgments are in flight. -/
def demoNetAcked : Network :=
  (Network.resolve demoChannelPar 20 demoNetAttempts).getD demoNetAttempts

/-! ## Channel: the loops and the slot resolution -/

/-- Reading at a natural-number index is the list lookup. -/
theorem vecGet?_natCast {α : Type} (v : List α) (k : Nat) :
    vecGet? v (k : Int) = v[k]? := by
  simp [vecGet?]

/-- Writing at a natural-number index inside the vector succeeds. -/
theorem vecSet?_natCast {α : Type} (v : List α) (k : Nat) (a : α) (h : k < v.length) :
    vecSet? v (k : Int) a = some (v.set k a) := by
  simp [vecSet?, h]

/-- One more attempt adds one to the count of its own sub-channel only. -/
theorem attemptsOn_cons (p : PacketMsg) (rest : List PacketMsg) (c : Int) :
    attemptsOn (p :: rest) c = attemptsOn rest c + (if p.idChannel = c then 1 else 0) := by
  simp [attemptsOn, List.countP_cons]

/-- Two predicates that agree on `range N` except at `k` have counts that differ
by their values at `k`. -/
theorem countP_range_single (N k : Nat) (P Q : Nat → Bool) (hk : k < N)
    (h : ∀ c, c < N → c ≠ k → P c = Q c) :
    (List.range N).countP P + (if Q k then 1 else 0)
      = (List.range N).countP Q + (if P k then 1 else 0) := by
  induction N with
  | zero => omega
  | succ N ih =>
    rw [List.range_succ, List.countP_append, List.countP_append]
    simp only [List.countP_cons, List.countP_nil, Nat.zero_add]
    by_cases hkN : k = N
    · subst hkN
      have : (List.range k).countP P = (List.range k).countP Q := by
        apply List.countP_congr
        intro c hc
        have hc' : c < k := List.mem_range.mp hc
        rw [h c (by omega) (by omega)]
      rw [this]; omega
    · have hk' : k < N := by omega
      have ih' := ih hk' (fun c hc hne => h c (by omega) hne)
      have hN : P N = Q N := h N (by omega) (by omega)
      rw [hN]; omega

theorem flagsLater_nil (n : List Nat) (c : Nat) : flagsLater n [] c = false := by
  simp [flagsLater, attemptsOn]; omega

theorem flagsLater_cons_other (n : List Nat) (p : PacketMsg) (rest : List PacketMsg)
    (k m c : Nat) (hk : p.idChannel = k) (hc : c ≠ k) :
    flagsLater (n.set k m) rest c = flagsLater n (p :: rest) c := by
  have hne : ¬ ((k : Int) = (c : Int)) := by omega
  simp [flagsLater, attemptsOn_cons, hk, hne, List.getElem?_set, Ne.symm hc]

theorem flagsLater_cons_self (n : List Nat) (p : PacketMsg) (rest : List PacketMsg)
    (k m : Nat) (hk : p.idChannel = k) (hget : n[k]? = some m) :
    flagsLater n (p :: rest) k = (decide (m = 1) || flagsLater (n.set k (m + 1)) rest k) := by
  have hkn : k < n.length := by
    rcases Nat.lt_or_ge k n.length with h | h
    · exact h
    · rw [List.getElem?_eq_none h] at hget; cases hget
  have hnew : (n.set k (m + 1))[k]? = some (m + 1) := by
    simp [List.getElem?_set, hkn]
  simp only [flagsLater, hget, hnew, attemptsOn_cons, hk, Option.getD_some, if_true]
  rw [Bool.eq_iff_iff]
  simp only [Bool.or_eq_true, decide_eq_true_eq]
  omega

theorem flagsLater_after_second (n : List Nat) (rest : List PacketMsg) (k : Nat)
    (hkn : k < n.length) : flagsLater (n.set k 2) rest k = false := by
  have hnew : (n.set k 2)[k]? = some 2 := by simp [List.getElem?_set, hkn]
  simp only [flagsLater, hnew, Option.getD_some]
  simp

/-- The loop of `findCollisions`, started with counters `n` and flags `isC` of
length `N` on attempts in range: it returns, emits one collision observation per
sub-channel whose counter passes from 1 to 2 during the loop, and leaves a flag
true exactly if it was true or its counter passed from 1 to 2. -/
theorem findCollisionsLoop_spec (N : Nat) :
    ∀ (rest : List PacketMsg) (n : List Nat) (isC : List Bool),
      n.length = N → isC.length = N →
      (∀ p ∈ rest, 0 ≤ p.idChannel ∧ p.idChannel < N) →
      ∃ flags, findCollisionsLoop rest n isC = some (flags,
          List.replicate ((List.range N).countP (flagsLater n rest))
            (ChannelOut.emitCollision 1)) ∧
        flags.length = N ∧
        ∀ c, c < N → flags[c]? = some (isC[c]?.getD false || flagsLater n rest c) := by
  intro rest
  induction rest with
  | nil =>
    intro n isC _ hi _
    refine ⟨isC, ?_, hi, ?_⟩
    · have : (List.range N).countP (flagsLater n []) = 0 := by
        rw [List.countP_eq_zero]; intro c _; simp [flagsLater_nil]
      simp [findCollisionsLoop, this]
    · intro c hc
      have : c < isC.length := by omega
      simp [flagsLater_nil, this]
  | cons p rest ih =>
    intro n isC hn hi hr
    obtain ⟨h0, hlt⟩ := hr p (List.mem_cons_self _ _)
    obtain ⟨k, hk⟩ := Int.eq_ofNat_of_zero_le h0
    have hkN : k < N := by omega
    have hkn : k < n.length := by omega
    have hki : k < isC.length := by omega
    have hrest : ∀ q ∈ rest, 0 ≤ q.idChannel ∧ q.idChannel < N :=
      fun q hq => hr q (List.mem_cons_of_mem _ hq)
    obtain ⟨m, hget⟩ : ∃ m, n[k]? = some m := ⟨n[k], List.getElem?_eq_getElem hkn⟩
    have hself := flagsLater_cons_self n p rest k m hk hget
    have hcnt := countP_range_single N k (flagsLater n (p :: rest))
      (flagsLater (n.set k (m + 1)) rest) hkN
      (fun c _ hc => (flagsLater_cons_other n p rest k (m + 1) c hk hc).symm)
    by_cases h1 : m = 1
    · subst h1
      obtain ⟨flags, hrun, hlen, hfl⟩ :=
        ih (n.set k 2) (isC.set k true) (by simp [hn]) (by simp [hi]) hrest
      have hQ := flagsLater_after_second n rest k hkn
      refine ⟨flags, ?_, hlen, ?_⟩
      · have hcount : (List.range N).countP (flagsLater n (p :: rest))
            = (List.range N).countP (flagsLater (n.set k 2) rest) + 1 := by
          rw [hself, hQ] at hcnt
          simpa using hcnt
        simp [findCollisionsLoop, hk, vecGet?_natCast, hget, vecSet?_natCast, hki, hkn,
          hrun, hcount, List.replicate_succ]
      · intro c hc
        rw [hfl c hc]
        by_cases hck : c = k
        · subst hck
          simp [hself, hki]
        · rw [flagsLater_cons_other n p rest k 2 c hk hck]
          simp [List.getElem?_set, Ne.symm hck]
    · obtain ⟨flags, hrun, hlen, hfl⟩ :=
        ih (n.set k (m + 1)) isC (by simp [hn]) hi hrest
      have hself' : flagsLater n (p :: rest) k = flagsLater (n.set k (m + 1)) rest k := by
        rw [hself]; simp [h1]
      refine ⟨flags, ?_, hlen, ?_⟩
      · have hcount : (List.range N).countP (flagsLater n (p :: rest))
            = (List.range N).countP (flagsLater (n.set k (m + 1)) rest) := by
          rw [hself'] at hcnt
          omega
        simp [findCollisionsLoop, hk, vecGet?_natCast, hget, h1, vecSet?_natCast, hkn,
          hrun, hcount]
      · intro c hc
        rw [hfl c hc]
        by_cases hck : c = k
        · subst hck
          rw [hself']
        · rw [flagsLater_cons_other n p rest k (m + 1) c hk hck]

/-- The first loop of `transmission` on attempts in range: it returns, performs
the actions of `replyBlock` for each attempt in order, counts the non-collided
attempts in `packetSent`, and marks in `triggeredTx` exactly the gates that carry
an attempt. -/
theorem transmissionLoop_spec (now : Int) (isC : List Bool) (T : Nat) :
    ∀ (rest : List PacketMsg) (trig : List Bool) (sent : Nat),
      trig.length = T →
      (∀ p ∈ rest, 0 ≤ p.idChannel ∧ p.idChannel < isC.length) →
      (∀ p ∈ rest, 0 ≤ p.idGate ∧ p.idGate < T) →
      ∃ trig', transmissionLoop now isC rest trig sent = some (trig',
          sent + rest.countP (fun p => !(collidedAt isC p)),
          rest.flatMap (fun p => replyBlock now (collidedAt isC p) p)) ∧
        trig'.length = T ∧
        ∀ g : Nat, g < T → trig'[g]? = some (trig[g]?.getD false ||
          rest.any (fun p => decide (p.idGate = g))) := by
  intro rest
  induction rest with
  | nil =>
    intro trig sent ht _ _
    refine ⟨trig, by simp [transmissionLoop], ht, ?_⟩
    intro g hg
    have : g < trig.length := by omega
    simp [this]
  | cons p rest ih =>
    intro trig sent ht hc hg
    obtain ⟨hc0, hc1⟩ := hc p (List.mem_cons_self _ _)
    obtain ⟨hg0, hg1⟩ := hg p (List.mem_cons_self _ _)
    obtain ⟨k, hk⟩ := Int.eq_ofNat_of_zero_le hc0
    obtain ⟨j, hj⟩ := Int.eq_ofNat_of_zero_le hg0
    have hkN : k < isC.length := by omega
    have hjT : j < trig.length := by omega
    obtain ⟨b, hb⟩ : ∃ b, isC[k]? = some b := ⟨isC[k], List.getElem?_eq_getElem hkN⟩
    have hcol : collidedAt isC p = b := by
      simp [collidedAt, hk, vecGet?_natCast, hb]
    have hstep : ∀ g : Nat, g < T →
        ((trig.set j true)[g]?.getD false || rest.any (fun q => decide (q.idGate = g)))
          = (trig[g]?.getD false || (p :: rest).any (fun q => decide (q.idGate = g))) := by
      intro g hgT
      by_cases hgj : g = j
      · subst hgj
        simp [hj, hjT]
      · have hne : ¬ ((j : Int) = (g : Int)) := by omega
        simp [hj, hne, List.getElem?_set, Ne.symm hgj]
    cases b with
    | true =>
      obtain ⟨trig', hrun, hlen, htr⟩ := ih (trig.set j true) sent (by simp [ht])
        (fun q hq => hc q (List.mem_cons_of_mem _ hq))
        (fun q hq => hg q (List.mem_cons_of_mem _ hq))
      refine ⟨trig', ?_, hlen, ?_⟩
      · simp [transmissionLoop, hj, hk, vecSet?_natCast, hjT, vecGet?_natCast, hb, hrun,
          hcol, replyBlock]
      · intro g hgT
        rw [htr g hgT, hstep g hgT]
    | false =>
      obtain ⟨trig', hrun, hlen, htr⟩ := ih (trig.set j true) (sent + 1) (by simp [ht])
        (fun q hq => hc q (List.mem_cons_of_mem _ hq))
        (fun q hq => hg q (List.mem_cons_of_mem _ hq))
      refine ⟨trig', ?_, hlen, ?_⟩
      · simp [transmissionLoop, hj, hk, vecSet?_natCast, hjT, vecGet?_natCast, hb, hrun,
          hcol, replyBlock]
        omega
      · intro g hgT
        rw [htr g hgT, hstep g hgT]

/-- The loop of `triggerOthers` sends a TRIGGER to each index whose entry is false,
in increasing order. -/
theorem triggerOthersLoop_spec :
    ∀ (trig : List Bool) (i : Int),
      triggerOthersLoop trig i
        = ((List.range trig.length).filter (fun j => !(trig[j]?.getD true))).map
            (fun (j : Nat) => ChannelOut.send_tx MsgName.TRIGGER (i + (j : Int))) := by
  intro trig
  induction trig with
  | nil => intro i; simp [triggerOthersLoop]
  | cons b rest ih =>
    intro i
    rw [List.length_cons, List.range_succ_eq_map]
    cases b <;>
      simp [triggerOthersLoop, ih, List.filter_map, List.map_map, Function.comp_def,
        add_assoc, add_comm] <;>
      (intros; omega)

theorem flagsLater_replicate (N : Nat) (pkts : List PacketMsg) (c : Nat) (hc : c < N) :
    flagsLater (List.replicate N 0) pkts c = decide (2 ≤ attemptsOn pkts (c : Int)) := by
  simp [flagsLater, hc]

/-- The function `findCollisions` from all-false flags, on attempts in range. -/
theorem findCollisions_spec (N : Nat) (pkts : List PacketMsg)
    (hc : ChannelsInRange N pkts) :
    findCollisions { isCollided_ := List.replicate N false, packetsOfSlot_ := pkts }
      = some ({ isCollided_ := collisionFlags N pkts, packetsOfSlot_ := pkts },
          List.replicate (collidedChannels N pkts) (ChannelOut.emitCollision 1)) := by
  obtain ⟨flags, hrun, hlen, hfl⟩ := findCollisionsLoop_spec N pkts (List.replicate N 0)
    (List.replicate N false) (by simp) (by simp) hc
  have hflags : flags = collisionFlags N pkts := by
    apply List.ext_getElem?
    intro c
    by_cases hcN : c < N
    · rw [hfl c hcN, flagsLater_replicate N pkts c hcN]
      simp [collisionFlags, hcN]
    · have h1 : flags.length ≤ c := by omega
      have h2 : (collisionFlags N pkts).length ≤ c := by simp [collisionFlags]; omega
      rw [List.getElem?_eq_none h1, List.getElem?_eq_none h2]
  have hcount : (List.range N).countP (flagsLater (List.replicate N 0) pkts)
      = collidedChannels N pkts := by
    apply List.countP_congr
    intro c hcm
    rw [flagsLater_replicate N pkts c (List.mem_range.mp hcm)]
  simp [findCollisions, hrun, hflags, hcount]

theorem collidedAt_collisionFlags (N : Nat) (pkts : List PacketMsg) (p : PacketMsg)
    (h0 : 0 ≤ p.idChannel) (h1 : p.idChannel < N) :
    collidedAt (collisionFlags N pkts) p = collides pkts p := by
  obtain ⟨k, hk⟩ := Int.eq_ofNat_of_zero_le h0
  have hkN : k < N := by omega
  simp [collidedAt, collides, collisionFlags, hk, vecGet?_natCast, hkN]

theorem flatMap_congr_mem {α β : Type} (l : List α) (f g : α → List β)
    (h : ∀ x ∈ l, f x = g x) : l.flatMap f = l.flatMap g := by
  induction l with
  | nil => rfl
  | cons a l ih =>
    rw [List.flatMap_cons, List.flatMap_cons, h a (List.mem_cons_self _ _),
      ih (fun x hx => h x (List.mem_cons_of_mem _ hx))]

/-- The function `transmission` on the flags `findCollisions` leaves. -/
theorem transmission_spec (par : ChannelPar) (now : Int) (N : Nat) (pkts : List PacketMsg)
    (hc : ChannelsInRange N pkts) (hg : GatesInRange par.numTransmitters pkts) :
    transmission par now { isCollided_ := collisionFlags N pkts, packetsOfSlot_ := pkts }
      = some ({ isCollided_ := List.replicate N false, packetsOfSlot_ := [] },
          pkts.flatMap (fun p => replyBlock now (collides pkts p) p)
            ++ ChannelOut.emitThroughput (throughputOf N pkts)
            :: (silentGates par.numTransmitters pkts).map
                (fun (g : Nat) => ChannelOut.send_tx MsgName.TRIGGER (g : Int))) := by
  have hlenN : (collisionFlags N pkts).length = N := by simp [collisionFlags]
  obtain ⟨trig, hrun, hlen, htr⟩ := transmissionLoop_spec now (collisionFlags N pkts)
    par.numTransmitters pkts (List.replicate par.numTransmitters false) 0 (by simp)
    (by rw [hlenN]; exact hc) hg
  have hcnt : pkts.countP (fun p => !(collidedAt (collisionFlags N pkts) p))
      = pkts.countP (fun p => !(collides pkts p)) := by
    apply List.countP_congr
    intro p hp
    rw [collidedAt_collisionFlags N pkts p (hc p hp).1 (hc p hp).2]
  have hflat : pkts.flatMap (fun p => replyBlock now (collidedAt (collisionFlags N pkts) p) p)
      = pkts.flatMap (fun p => replyBlock now (collides pkts p) p) := by
    apply flatMap_congr_mem
    intro p hp
    rw [collidedAt_collisionFlags N pkts p (hc p hp).1 (hc p hp).2]
  have htrig : triggerOthers trig = (silentGates par.numTransmitters pkts).map
      (fun (g : Nat) => ChannelOut.send_tx MsgName.TRIGGER (g : Int)) := by
    rw [triggerOthers, triggerOthersLoop_spec, hlen]
    have hfil : (List.range par.numTransmitters).filter (fun j => !(trig[j]?.getD true))
        = silentGates par.numTransmitters pkts := by
      apply List.filter_congr
      intro g hgm
      have hgT : g < par.numTransmitters := List.mem_range.mp hgm
      rw [htr g hgT]
      simp [hgT]
    rw [hfil]
    simp
  rw [hcnt, hflat] at hrun
  simp only [transmission, hrun, htrig, hlenN, throughputOf]
  by_cases hN : N > 0 <;> simp [hN, htrig]

/-- The whole slot resolution: the state it leaves and every action, in order. -/
theorem resolve_spec (par : ChannelPar) (now : Int) (N : Nat) (pkts : List PacketMsg)
    (hc : ChannelsInRange N pkts) (hg : GatesInRange par.numTransmitters pkts) :
    Channel.handleMessage par now
        { isCollided_ := List.replicate N false, packetsOfSlot_ := pkts }
        ChannelMsg.timeSlotTrigger
      = some ({ isCollided_ := List.replicate N false, packetsOfSlot_ := [] },
          List.replicate (collidedChannels N pkts) (ChannelOut.emitCollision 1)
            ++ (pkts.flatMap (fun p => replyBlock now (collides pkts p) p)
              ++ ChannelOut.emitThroughput (throughputOf N pkts)
              :: (silentGates par.numTransmitters pkts).map
                  (fun (g : Nat) => ChannelOut.send_tx MsgName.TRIGGER (g : Int)))
            ++ [ChannelOut.scheduleAt (now + par.timeSlotSize)]) := by
  simp [Channel.handleMessage, findCollisions_spec N pkts hc,
    transmission_spec par now N pkts hc hg, scheduleTimeSlot]

/-- Delivering attempts only appends them, stamped, to the in-slot attempt set. -/
theorem run_arrivals (par : ChannelPar) (rest : List (Int × ChannelMsg)) :
    ∀ (arr : List Arrival) (st : Channel),
      Channel.run par st (arr.map Arrival.msg ++ rest)
        = Channel.run par
            { st with packetsOfSlot_ := st.packetsOfSlot_ ++ arr.map Arrival.stamped } rest := by
  intro arr
  induction arr with
  | nil => intro st; simp
  | cons a arr ih =>
    intro st
    simp only [List.map_cons, List.cons_append, Arrival.msg, Channel.run,
      Channel.handleMessage]
    have := ih { st with packetsOfSlot_ := st.packetsOfSlot_ ++ [Arrival.stamped a] }
    simp only [Arrival.msg] at this
    simp [Arrival.stamped] at this ⊢
    rw [this]

/-- One slot: the attempts arrive, then the slot timer fires. -/
theorem run_slot_spec (par : ChannelPar) (now : Int) (N : Nat) (arr : List Arrival)
    (hc : ChannelsInRange N (arr.map Arrival.stamped))
    (hg : GatesInRange par.numTransmitters (arr.map Arrival.stamped)) :
    Channel.run par { isCollided_ := List.replicate N false, packetsOfSlot_ := [] }
        (arr.map Arrival.msg ++ [(now, ChannelMsg.timeSlotTrigger)])
      = some ({ isCollided_ := List.replicate N false, packetsOfSlot_ := [] },
          List.replicate (collidedChannels N (arr.map Arrival.stamped))
              (ChannelOut.emitCollision 1)
            ++ ((arr.map Arrival.stamped).flatMap
                (fun p => replyBlock now (collides (arr.map Arrival.stamped) p) p)
              ++ ChannelOut.emitThroughput (throughputOf N (arr.map Arrival.stamped))
              :: (silentGates par.numTransmitters (arr.map Arrival.stamped)).map
                  (fun (g : Nat) => ChannelOut.send_tx MsgName.TRIGGER (g : Int)))
            ++ [ChannelOut.scheduleAt (now + par.timeSlotSize)]) := by
  have hrun := run_arrivals par [(now, ChannelMsg.timeSlotTrigger)] arr
    { isCollided_ := List.replicate N false, packetsOfSlot_ := [] }
  simp only [List.nil_append] at hrun
  have hres := resolve_spec par now N (arr.map Arrival.stamped) hc hg
  rw [hrun]
  simp [Channel.run, hres]

/-- With a positive sub-channel count `Channel::initialize` returns the state
the claims start from: that many flags, all false, and no attempt; and it
schedules the first slot boundary. -/
theorem Channel_initialize_ok (par : ChannelPar) (now : Int) (h : 0 < par.numChannels) :
    Channel.initialize par now
      = Except.ok ({ isCollided_ := List.replicate par.numChannels.toNat false,
                      packetsOfSlot_ := [] },
          [ChannelOut.scheduleAt (now + par.timeSlotSize)]) := by
  have h0 : par.numChannels ≠ 0 := by omega
  simp [ Channel.initialize, h0, scheduleTimeSlot]

/-! ## Channel: when the resolution is defined -/

theorem vecGet?_isSome_iff {α : Type} (v : List α) (i : Int) :
    (vecGet? v i).isSome ↔ 0 ≤ i ∧ i < v.length := by
  unfold vecGet?
  by_cases h : 0 ≤ i
  · obtain ⟨k, rfl⟩ := Int.eq_ofNat_of_zero_le h
    simp only [Option.isSome_iff_exists, h, if_true, Int.toNat_ofNat, Int.ofNat_lt,
      List.getElem?_eq_some_iff, true_and]
    constructor
    · rintro ⟨_, hk, _⟩; exact hk
    · intro hk; exact ⟨_, hk, rfl⟩
  · simp [h]

theorem vecSet?_isSome_iff {α : Type} (v : List α) (i : Int) (a : α) :
    (vecSet? v i a).isSome ↔ 0 ≤ i ∧ i < v.length := by
  unfold vecSet?
  by_cases h : 0 ≤ i
  · obtain ⟨k, rfl⟩ := Int.eq_ofNat_of_zero_le h
    by_cases hk : k < v.length <;> simp [hk]
  · simp [h]

theorem vecSet?_length {α : Type} (v w : List α) (i : Int) (a : α)
    (h : vecSet? v i a = some w) : w.length = v.length := by
  unfold vecSet? at h
  by_cases hc : 0 ≤ i ∧ i.toNat < v.length
  · rw [if_pos hc] at h
    simp only [Option.some.injEq] at h
    rw [← h]; simp
  · rw [if_neg hc] at h; cases h

/-- The loop of `findCollisions` returns only if every attempt it reads names a
sub-channel inside the vectors. -/
theorem findCollisionsLoop_defined (N : Nat) :
    ∀ (rest : List PacketMsg) (n : List Nat) (isC : List Bool),
      n.length = N → isC.length = N → (findCollisionsLoop rest n isC).isSome →
      ChannelsInRange N rest := by
  intro rest
  induction rest with
  | nil => intro n isC _ _ _ p hp; cases hp
  | cons p rest ih =>
    intro n isC hn hi hsome
    obtain ⟨r, hr⟩ := Option.isSome_iff_exists.mp hsome
    simp only [findCollisionsLoop, Option.bind_eq_bind, Option.bind_eq_some] at hr
    obtain ⟨c, hc, hr⟩ := hr
    have hp : 0 ≤ p.idChannel ∧ p.idChannel < N := by
      have := (vecGet?_isSome_iff n p.idChannel).mp (by rw [hc]; rfl)
      rw [hn] at this; exact this
    have hrest : ChannelsInRange N rest := by
      by_cases h1 : c = 1
      · rw [if_pos h1] at hr
        simp only [Option.bind_eq_bind, Option.bind_eq_some] at hr
        obtain ⟨flags, hflags, n1, hn1, hr⟩ := hr
        cases hl : findCollisionsLoop rest n1 flags with
        | none => rw [hl] at hr; obtain ⟨_, h, _⟩ := hr; cases h
        | some r1 =>
          exact ih n1 flags (by rw [vecSet?_length _ _ _ _ hn1, hn])
            (by rw [vecSet?_length _ _ _ _ hflags, hi]) (by rw [hl]; rfl)
      · rw [if_neg h1] at hr
        simp only [Option.bind_eq_bind, Option.bind_eq_some] at hr
        obtain ⟨n1, hn1, hr1⟩ := hr
        exact ih n1 isC (by rw [vecSet?_length _ _ _ _ hn1, hn]) hi (by rw [hr1]; rfl)
    intro q hq
    rcases List.mem_cons.mp hq with h | h
    · rw [h]; exact hp
    · exact hrest q h

/-- The first loop of `transmission` returns only if every attempt it reads
carries a sub-channel and a gate index inside the vectors. -/
theorem transmissionLoop_defined (now : Int) (isC : List Bool) (T : Nat) :
    ∀ (rest : List PacketMsg) (trig : List Bool) (sent : Nat),
      trig.length = T → (transmissionLoop now isC rest trig sent).isSome →
      ChannelsInRange isC.length rest ∧ GatesInRange T rest := by
  intro rest
  induction rest with
  | nil =>
    intro trig sent _ _
    exact ⟨fun p hp => (by cases hp), fun p hp => (by cases hp)⟩
  | cons p rest ih =>
    intro trig sent ht hsome
    obtain ⟨r, hr⟩ := Option.isSome_iff_exists.mp hsome
    simp only [transmissionLoop, Option.bind_eq_bind, Option.bind_eq_some] at hr
    obtain ⟨trig1, htrig1, b, hb, hr⟩ := hr
    have hg : 0 ≤ p.idGate ∧ p.idGate < T := by
      have := (vecSet?_isSome_iff trig p.idGate true).mp (by rw [htrig1]; rfl)
      rw [ht] at this; exact this
    have hc : 0 ≤ p.idChannel ∧ p.idChannel < isC.length :=
      (vecGet?_isSome_iff isC p.idChannel).mp (by rw [hb]; rfl)
    have hlen : trig1.length = T := by rw [vecSet?_length _ _ _ _ htrig1, ht]
    have hrest : ChannelsInRange isC.length rest ∧ GatesInRange T rest := by
      cases b with
      | true =>
        rw [if_pos rfl] at hr
        cases hl : transmissionLoop now isC rest trig1 sent with
        | none => rw [hl] at hr; cases hr
        | some r1 => exact ih trig1 sent hlen (by rw [hl]; rfl)
      | false =>
        rw [if_neg (by simp)] at hr
        cases hl : transmissionLoop now isC rest trig1 (sent + 1) with
        | none => rw [hl] at hr; cases hr
        | some r1 => exact ih trig1 (sent + 1) hlen (by rw [hl]; rfl)
    refine ⟨fun q hq => ?_, fun q hq => ?_⟩
    · rcases List.mem_cons.mp hq with h | h
      · rw [h]; exact hc
      · exact hrest.1 q h
    · rcases List.mem_cons.mp hq with h | h
      · rw [h]; exact hg
      · exact hrest.2 q h


/-- The slot resolution returns exactly on the attempt lists whose sub-channel
and gate indices are inside the vectors the code indexes. -/
theorem resolve_isSome_iff (par : ChannelPar) (now : Int) (N : Nat) (pkts : List PacketMsg) :
    (Channel.handleMessage par now
        { isCollided_ := List.replicate N false, packetsOfSlot_ := pkts }
        ChannelMsg.timeSlotTrigger).isSome
      ↔ ChannelsInRange N pkts ∧ GatesInRange par.numTransmitters pkts := by
  constructor
  · intro hsome
    have hc : ChannelsInRange N pkts := by
      apply findCollisionsLoop_defined N pkts (List.replicate N 0) (List.replicate N false)
        (by simp) (by simp)
      cases hl : findCollisionsLoop pkts (List.replicate N 0) (List.replicate N false) with
      | none => simp [Channel.handleMessage, findCollisions, hl] at hsome
      | some r => rfl
    refine ⟨hc, ?_⟩
    have hlen : (collisionFlags N pkts).length = N := by simp [collisionFlags]
    apply (transmissionLoop_defined now (collisionFlags N pkts) par.numTransmitters pkts
      (List.replicate par.numTransmitters false) 0 (by simp) ?_).2
    cases hl : transmissionLoop now (collisionFlags N pkts) pkts
        (List.replicate par.numTransmitters false) 0 with
    | none =>
      simp [Channel.handleMessage, findCollisions_spec N pkts hc, transmission, hl] at hsome
    | some r => rfl
  · rintro ⟨hc, hg⟩
    rw [resolve_spec par now N pkts hc hg]
    rfl

/-! ## Channel: counting lemmas -/

theorem filter_flatMap_eq {α β : Type} (l : List α) (f : α → List β) (q : β → Bool) :
    (l.flatMap f).filter q = l.flatMap (fun x => (f x).filter q) := by
  induction l with
  | nil => rfl
  | cons a l ih => simp [List.flatMap_cons, List.filter_append, ih]

theorem attemptsOn_pos (pkts : List PacketMsg) (p : PacketMsg) (hp : p ∈ pkts) :
    1 ≤ attemptsOn pkts p.idChannel := by
  have : 0 < attemptsOn pkts p.idChannel := by
    rw [attemptsOn, List.countP_pos_iff]
    exact ⟨p, hp, by simp⟩
  omega

theorem collides_eq_false_iff (pkts : List PacketMsg) (p : PacketMsg) (hp : p ∈ pkts) :
    collides pkts p = false ↔ attemptsOn pkts p.idChannel = 1 := by
  have := attemptsOn_pos pkts p hp
  simp only [collides, decide_eq_false_iff_not]
  omega

theorem sum_range_single (N k : Nat) (x : Nat) (hk : k < N) :
    ((List.range N).map (fun c => if c = k then x else 0)).sum = x := by
  induction N with
  | zero => omega
  | succ N ih =>
    rw [List.range_succ, List.map_append, List.sum_append]
    by_cases hkN : k = N
    · subst hkN
      have : ((List.range k).map (fun c => if c = k then x else 0)).sum = 0 := by
        apply List.sum_eq_zero
        intro y hy
        simp only [List.mem_map, List.mem_range] at hy
        obtain ⟨c, hc, rfl⟩ := hy
        simp [Nat.ne_of_lt hc]
      simp [this]
    · have hN : ¬ N = k := fun h => hkN h.symm
      simp [ih (by omega), hN]

/-- Counting a list of keys in `[0, N)` by key: the keys that satisfy `q` are, summed
over the indices `c < N` with `q c`, the occurrences of `c`. -/
theorem countP_keys_range (N : Nat) (q : Int → Bool) :
    ∀ keys : List Int, (∀ k ∈ keys, 0 ≤ k ∧ k < N) →
      keys.countP q
        = ((List.range N).map (fun (c : Nat) => if q c then keys.count (c : Int) else 0)).sum := by
  intro keys
  induction keys with
  | nil => intro _; simp
  | cons a keys ih =>
    intro h
    obtain ⟨h0, h1⟩ := h a (List.mem_cons_self _ _)
    obtain ⟨k, hk⟩ := Int.eq_ofNat_of_zero_le h0
    subst hk
    have hkN : k < N := by omega
    have ih' := ih (fun x hx => h x (List.mem_cons_of_mem _ hx))
    have hsplit : ∀ c : Nat,
        (if q c then (((k : Int) :: keys).count (c : Int)) else 0)
          = (if q c then keys.count (c : Int) else 0)
            + (if c = k then (if q (k : Int) then 1 else 0) else 0) := by
      intro c
      by_cases hck : c = k
      · subst hck
        by_cases hq : q (c : Int) = true <;> simp [hq]
      · have hne : ¬ ((k : Int) = (c : Int)) := by omega
        have hne' : ¬ ((c : Int) = (k : Int)) := by omega
        simp [hck, List.count_cons, hne, hne']
    rw [List.countP_cons, ih']
    have : (List.range N).map (fun (c : Nat) =>
          if q c then (((k : Int) :: keys).count (c : Int)) else 0)
        = (List.range N).map (fun (c : Nat) => (if q c then keys.count (c : Int) else 0)
            + (if c = k then (if q (k : Int) then 1 else 0) else 0)) := by
      apply List.map_congr_left
      intro c _
      exact hsplit c
    rw [this, List.sum_map_add, sum_range_single N k _ hkN]

theorem countP_eq_sum_ite {α : Type} (l : List α) (q : α → Bool) :
    l.countP q = (l.map (fun x => if q x then 1 else 0)).sum := by
  induction l with
  | nil => rfl
  | cons a l ih => rw [List.countP_cons, ih, List.map_cons, List.sum_cons]; omega

theorem attemptsOn_eq_count (pkts : List PacketMsg) (c : Int) :
    attemptsOn pkts c = (pkts.map (fun p => p.idChannel)).count c := by
  simp only [attemptsOn, List.count, List.countP_map, Function.comp_def]
  apply List.countP_congr
  intro p _
  simp

/-- Attempts alone on their sub-channel are as many as the sub-channels that
carry exactly one attempt. -/
theorem countP_alone_eq (N : Nat) (pkts : List PacketMsg) (hc : ChannelsInRange N pkts) :
    pkts.countP (fun p => decide (attemptsOn pkts p.idChannel = 1))
      = (List.range N).countP (fun (c : Nat) => decide (attemptsOn pkts (c : Int) = 1)) := by
  have h := countP_keys_range N (fun c => decide (attemptsOn pkts c = 1))
    (pkts.map (fun p => p.idChannel)) (by
      intro k hk
      simp only [List.mem_map] at hk
      obtain ⟨p, hp, rfl⟩ := hk
      exact hc p hp)
  rw [List.countP_map] at h
  have h' : pkts.countP (fun p => decide (attemptsOn pkts p.idChannel = 1))
      = pkts.countP ((fun c => decide (attemptsOn pkts c = 1)) ∘ fun p => p.idChannel) := rfl
  rw [h', h, countP_eq_sum_ite]
  congr 1
  apply List.map_congr_left
  intro c _
  rw [← attemptsOn_eq_count]
  by_cases h1 : attemptsOn pkts (c : Int) = 1 <;> simp [h1]

theorem countP_replyBlocks (now : Int) (f : PacketMsg → Bool) (q : ChannelOut → Bool)
    (a b : Nat)
    (hq : ∀ p, (replyBlock now true p).countP q = a ∧ (replyBlock now false p).countP q = b) :
    ∀ l : List PacketMsg,
      (l.flatMap (fun p => replyBlock now (f p) p)).countP q
        = a * l.countP f + b * l.countP (fun p => !(f p)) := by
  intro l
  induction l with
  | nil => simp
  | cons p l ih =>
    rw [List.flatMap_cons, List.countP_append, ih, List.countP_cons, List.countP_cons]
    cases hf : f p
    · rw [(hq p).2]; simp; ring
    · rw [(hq p).1]; simp; ring

theorem countP_alone_eq_not_collides (pkts : List PacketMsg) :
    pkts.countP (fun p => !(collides pkts p))
      = pkts.countP (fun p => decide (attemptsOn pkts p.idChannel = 1)) := by
  apply List.countP_congr
  intro p hp
  have := collides_eq_false_iff pkts p hp
  cases hcol : collides pkts p
  · simp [this.mp hcol]
  · have hne : ¬ attemptsOn pkts p.idChannel = 1 := fun h => by
      rw [this.mpr h] at hcol; cases hcol
    simp [hne]

theorem countP_flatMap_sum {α β : Type} (l : List α) (f : α → List β) (q : β → Bool) :
    (l.flatMap f).countP q = (l.map (fun x => (f x).countP q)).sum := by
  induction l with
  | nil => rfl
  | cons a l ih => rw [List.flatMap_cons, List.countP_append, ih, List.map_cons, List.sum_cons]

theorem silentGates_nodup (T : Nat) (pkts : List PacketMsg) : (silentGates T pkts).Nodup :=
  List.Nodup.filter _ (List.nodup_range T)

theorem mem_silentGates (T : Nat) (pkts : List PacketMsg) (g : Nat) :
    g ∈ silentGates T pkts ↔ g < T ∧ ¬ ∃ p ∈ pkts, p.idGate = (g : Int) := by
  simp [silentGates, List.mem_filter]

theorem countP_gate_of_nodup (pkts : List PacketMsg)
    (hnd : (pkts.map (fun p => p.idGate)).Nodup) (g : Int) :
    pkts.countP (fun p => decide (p.idGate = g)) = if ∃ p ∈ pkts, p.idGate = g then 1 else 0 := by
  have h1 : pkts.countP (fun p => decide (p.idGate = g))
      = (pkts.map (fun p => p.idGate)).count g := by
    simp only [List.count, List.countP_map, Function.comp_def]
    apply List.countP_congr
    intro p _
    simp
  rw [h1]
  by_cases h : ∃ p ∈ pkts, p.idGate = g
  · rw [if_pos h]
    apply List.count_eq_one_of_mem hnd
    obtain ⟨p, hp, hpg⟩ := h
    exact List.mem_map.mpr ⟨p, hp, hpg⟩
  · rw [if_neg h, List.count_eq_zero]
    intro hm
    obtain ⟨p, hp, hpg⟩ := List.mem_map.mp hm
    exact h ⟨p, hp, hpg⟩

/-- With at most one attempt per gate, the stations with an attempt and the
stations without one add up to all stations. -/
theorem length_add_silentGates (T : Nat) (pkts : List PacketMsg)
    (hg : GatesInRange T pkts) (hnd : (pkts.map (fun p => p.idGate)).Nodup) :
    pkts.length + (silentGates T pkts).length = T := by
  have h := countP_keys_range T (fun _ => true) (pkts.map (fun p => p.idGate)) (by
      intro k hk
      obtain ⟨p, hp, rfl⟩ := List.mem_map.mp hk
      exact hg p hp)
  have hlen : (pkts.map (fun p => p.idGate)).countP (fun _ => true) = pkts.length := by
    simp
  rw [hlen] at h
  have hsum : ((List.range T).map (fun (c : Nat) =>
        if (fun _ => true) (c : Int) then (pkts.map (fun p => p.idGate)).count (c : Int) else 0)).sum
      = (List.range T).countP (fun (g : Nat) => pkts.any (fun p => decide (p.idGate = (g : Int)))) := by
    rw [countP_eq_sum_ite]
    congr 1
    apply List.map_congr_left
    intro c _
    have h1 : (pkts.map (fun p => p.idGate)).count (c : Int)
        = pkts.countP (fun p => decide (p.idGate = (c : Int))) := by
      simp only [List.count, List.countP_map, Function.comp_def]
      apply List.countP_congr
      intro p _
      simp
    simp only [if_true, h1, countP_gate_of_nodup pkts hnd]
    by_cases hex : ∃ p ∈ pkts, p.idGate = (c : Int)
    · simp [hex]
    · simp [hex]
  rw [hsum] at h
  have hsil : (silentGates T pkts).length
      = (List.range T).countP (fun (g : Nat) => !(pkts.any (fun p => decide (p.idGate = (g : Int))))) := by
    rw [silentGates, List.countP_eq_length_filter]
  have htot := List.length_eq_countP_add_countP
    (fun (g : Nat) => pkts.any (fun p => decide (p.idGate = (g : Int)))) (List.range T)
  rw [List.length_range] at htot
  have hneg : (List.range T).countP
        (fun (a : Nat) => decide ¬(pkts.any (fun p => decide (p.idGate = (a : Int)))) = true)
      = (List.range T).countP
        (fun (g : Nat) => !(pkts.any (fun p => decide (p.idGate = (g : Int))))) := by
    apply List.countP_congr
    intro g _
    simp
  rw [hneg] at htot
  omega

theorem countP_feedbackTo_blocks (now : Int) (f : PacketMsg → Bool) (g : Int) :
    ∀ l : List PacketMsg,
      (l.flatMap (fun p => replyBlock now (f p) p)).countP (ChannelOut.isFeedbackTo g)
        = l.countP (fun p => decide (p.idGate = g)) := by
  intro l
  induction l with
  | nil => rfl
  | cons p l ih =>
    rw [List.flatMap_cons, List.countP_append, ih, List.countP_cons]
    cases f p <;> by_cases h : p.idGate = g <;>
      simp [replyBlock, ChannelOut.isFeedbackTo, List.countP_cons, h] <;> omega

theorem countP_feedback_blocks (now : Int) (f : PacketMsg → Bool) :
    ∀ l : List PacketMsg,
      (l.flatMap (fun p => replyBlock now (f p) p)).countP ChannelOut.isFeedback = l.length := by
  intro l
  induction l with
  | nil => rfl
  | cons p l ih =>
    rw [List.flatMap_cons, List.countP_append, ih, List.length_cons]
    cases f p <;> simp [replyBlock, ChannelOut.isFeedback, List.countP_cons] <;> omega

theorem countP_feedbackTo_triggers (l : List Nat) (hl : l.Nodup) (g : Nat) :
    (l.map (fun (j : Nat) => ChannelOut.send_tx MsgName.TRIGGER (j : Int))).countP
        (ChannelOut.isFeedbackTo (g : Int))
      = if g ∈ l then 1 else 0 := by
  rw [List.countP_map]
  have : l.countP (ChannelOut.isFeedbackTo (g : Int) ∘
      fun (j : Nat) => ChannelOut.send_tx MsgName.TRIGGER (j : Int)) = l.count g := by
    simp only [List.count]
    apply List.countP_congr
    intro j _
    simp [ChannelOut.isFeedbackTo]
  rw [this]
  by_cases h : g ∈ l
  · rw [if_pos h, List.count_eq_one_of_mem hl h]
  · rw [if_neg h, List.count_eq_zero.mpr h]

theorem count_forward_blocks (now : Int) (f : PacketMsg → Bool) (p : PacketMsg) (g : Int) :
    ∀ l : List PacketMsg,
      (l.flatMap (fun q => replyBlock now (f q) q)).count (ChannelOut.send_rx p g)
        = l.countP (fun q => !(f q) && decide (q = p) && decide (q.idGate = g)) := by
  intro l
  induction l with
  | nil => rfl
  | cons q l ih =>
    rw [List.flatMap_cons, List.count_append, ih, List.countP_cons]
    cases hf : f q
    · by_cases h1 : q = p
      · by_cases h2 : q.idGate = g
        · subst h1; subst h2
          simp [replyBlock, List.count_cons]
          omega
        · subst h1
          simp [replyBlock, List.count_cons, h2]
      · simp [replyBlock, List.count_cons, h1]
    · simp [replyBlock, List.count_cons]

theorem count_le_attemptsOn (pkts : List PacketMsg) (p : PacketMsg) :
    pkts.count p ≤ attemptsOn pkts p.idChannel := by
  rw [attemptsOn, List.count]
  apply List.countP_mono_left
  intro q _ hq
  have : q = p := by simpa using hq
  simp [this]

/-! ## Channel: the claims -/

/-- Claim C1. A slot resolution (`findCollisions`, then `transmission`) that
starts with all collision flags false, on attempts whose sub-channel and gate
indices are in range, returns, and settles every attempt by the number of
attempts on its sub-channel: the ACK, NACK, forward and delete actions of the
resolution are, in arrival order, an ACK and a forward on `out_rx` for each
attempt alone on its sub-channel, and a NACK and a delete for each attempt on a
sub-channel with two or more attempts (the first, the second and every later
one alike). So an attempt alone on its sub-channel is ACKed and forwarded and
not deleted, and an attempt on a shared sub-channel is NACKed, deleted and
forwarded on no gate. -/
theorem C1_slot_outcomes (par : ChannelPar) (now : Int) (N : Nat) (pkts : List PacketMsg)
    (hc : ChannelsInRange N pkts) (hg : GatesInRange par.numTransmitters pkts) :
    ∃ st' outs,
      Channel.handleMessage par now
          { isCollided_ := List.replicate N false, packetsOfSlot_ := pkts }
          ChannelMsg.timeSlotTrigger = some (st', outs) ∧
      outs.filter ChannelOut.isOutcome
        = pkts.flatMap (fun p =>
            if attemptsOn pkts p.idChannel = 1 then
              [ChannelOut.send_tx MsgName.ACK p.idGate, ChannelOut.send_rx p p.idGate]
            else [ChannelOut.send_tx MsgName.NACK p.idGate, ChannelOut.deletePkt p]) ∧
      ∀ p ∈ pkts,
        (attemptsOn pkts p.idChannel = 1 ∨ 2 ≤ attemptsOn pkts p.idChannel) ∧
        (attemptsOn pkts p.idChannel = 1 →
          ChannelOut.send_tx MsgName.ACK p.idGate ∈ outs ∧
          ChannelOut.send_rx p p.idGate ∈ outs ∧ ChannelOut.deletePkt p ∉ outs) ∧
        (2 ≤ attemptsOn pkts p.idChannel →
          ChannelOut.send_tx MsgName.NACK p.idGate ∈ outs ∧
          ChannelOut.deletePkt p ∈ outs ∧ ∀ g, ChannelOut.send_rx p g ∉ outs) := by
  refine ⟨_, _, resolve_spec par now N pkts hc hg, ?_, ?_⟩
  · simp only [List.filter_append, filter_flatMap_eq]
    have h1 : (List.replicate (collidedChannels N pkts) (ChannelOut.emitCollision 1)).filter
        ChannelOut.isOutcome = [] := by
      simp [List.filter_eq_nil_iff, ChannelOut.isOutcome]
    have h2 : (ChannelOut.emitThroughput (throughputOf N pkts)
        :: (silentGates par.numTransmitters pkts).map
          (fun (g : Nat) => ChannelOut.send_tx MsgName.TRIGGER (g : Int))).filter
        ChannelOut.isOutcome = [] := by
      simp [List.filter_eq_nil_iff, ChannelOut.isOutcome]
    have h3 : [ChannelOut.scheduleAt (now + par.timeSlotSize)].filter ChannelOut.isOutcome
        = [] := by
      simp [ChannelOut.isOutcome]
    rw [h1, h2, h3]
    simp only [List.nil_append, List.append_nil]
    apply flatMap_congr_mem
    intro p hp
    by_cases h : attemptsOn pkts p.idChannel = 1
    · simp [replyBlock, (collides_eq_false_iff pkts p hp).mpr h, h, ChannelOut.isOutcome]
    · have hcol : collides pkts p = true := by
        rw [← Bool.not_eq_false]; exact fun hf => h ((collides_eq_false_iff pkts p hp).mp hf)
      simp [replyBlock, hcol, h, ChannelOut.isOutcome]
  · intro p hp
    have hpos := attemptsOn_pos pkts p hp
    refine ⟨by omega, ?_, ?_⟩
    · intro h
      have hcol := (collides_eq_false_iff pkts p hp).mpr h
      refine ⟨?_, ?_, ?_⟩
      · simp only [List.mem_append, List.mem_flatMap]
        exact Or.inl (Or.inr (Or.inl ⟨p, hp, by simp [replyBlock, hcol]⟩))
      · simp only [List.mem_append, List.mem_flatMap]
        exact Or.inl (Or.inr (Or.inl ⟨p, hp, by simp [replyBlock, hcol]⟩))
      · simp only [List.mem_append, List.mem_flatMap, List.mem_replicate, List.mem_cons,
          List.mem_map, List.mem_singleton, not_or]
        refine ⟨⟨by simp, ?_, by simp⟩, by simp⟩
        rintro ⟨q, hq, hmem⟩
        by_cases hcq : collides pkts q = true
        · simp [replyBlock, hcq] at hmem
          subst hmem
          rw [hcol] at hcq
          cases hcq
        · simp [replyBlock, hcq] at hmem
    · intro h
      have hcol : collides pkts p = true := by simp [collides, h]
      refine ⟨?_, ?_, ?_⟩
      · simp only [List.mem_append, List.mem_flatMap]
        exact Or.inl (Or.inr (Or.inl ⟨p, hp, by simp [replyBlock, hcol]⟩))
      · simp only [List.mem_append, List.mem_flatMap]
        exact Or.inl (Or.inr (Or.inl ⟨p, hp, by simp [replyBlock, hcol]⟩))
      · intro g
        simp only [List.mem_append, List.mem_flatMap, List.mem_replicate, List.mem_cons,
          List.mem_map, List.mem_singleton, not_or]
        refine ⟨⟨by simp, ?_, by simp⟩, by simp⟩
        rintro ⟨q, hq, hmem⟩
        by_cases hcq : collides pkts q = true
        · simp [replyBlock, hcq] at hmem
        · simp [replyBlock, hcq] at hmem
          obtain ⟨h1, _⟩ := hmem
          subst h1
          exact hcq hcol

/-- Claim C2. In a slot resolution where every station contributes at most one
attempt and the gate indices are below `numTransmitters` (sub-channel indices in
range), the Channel sends `numTransmitters` feedback messages (ACK, NACK or
TRIGGER) in all, exactly one to every station: a station with an attempt in the
slot gets no TRIGGER (so its one message is the ACK or NACK), and every other
station gets the TRIGGER. -/
theorem C2_one_reply_per_station (par : ChannelPar) (now : Int) (N : Nat)
    (pkts : List PacketMsg) (hc : ChannelsInRange N pkts)
    (hg : GatesInRange par.numTransmitters pkts)
    (hnd : (pkts.map (fun p => p.idGate)).Nodup) :
    ∃ st' outs,
      Channel.handleMessage par now
          { isCollided_ := List.replicate N false, packetsOfSlot_ := pkts }
          ChannelMsg.timeSlotTrigger = some (st', outs) ∧
      outs.countP ChannelOut.isFeedback = par.numTransmitters ∧
      ∀ g : Nat, g < par.numTransmitters →
        outs.countP (ChannelOut.isFeedbackTo (g : Int)) = 1 ∧
        ((∃ p ∈ pkts, p.idGate = (g : Int)) →
          ChannelOut.send_tx MsgName.TRIGGER (g : Int) ∉ outs) ∧
        ((¬ ∃ p ∈ pkts, p.idGate = (g : Int)) →
          ChannelOut.send_tx MsgName.TRIGGER (g : Int) ∈ outs) := by
  refine ⟨_, _, resolve_spec par now N pkts hc hg, ?_, ?_⟩
  · rw [List.countP_append, List.countP_append, List.countP_append, List.countP_cons,
      countP_feedback_blocks]
    have e1 : (List.replicate (collidedChannels N pkts) (ChannelOut.emitCollision 1)).countP
        ChannelOut.isFeedback = 0 := by
      rw [List.countP_eq_zero]; intro o ho
      rw [(List.mem_replicate.mp ho).2]; simp [ChannelOut.isFeedback]
    have e2 : ((silentGates par.numTransmitters pkts).map
        (fun (g : Nat) => ChannelOut.send_tx MsgName.TRIGGER (g : Int))).countP
        ChannelOut.isFeedback = (silentGates par.numTransmitters pkts).length := by
      rw [List.countP_map, List.countP_eq_length]
      intro j _
      simp [ChannelOut.isFeedback]
    rw [e1, e2]
    have := length_add_silentGates par.numTransmitters pkts hg hnd
    simp [ChannelOut.isFeedback]
    omega
  · intro g hgT
    refine ⟨?_, ?_, ?_⟩
    · rw [List.countP_append, List.countP_append, List.countP_append, List.countP_cons,
        countP_feedbackTo_blocks, countP_feedbackTo_triggers _ (silentGates_nodup _ _),
        countP_gate_of_nodup pkts hnd]
      have e1 : (List.replicate (collidedChannels N pkts) (ChannelOut.emitCollision 1)).countP
          (ChannelOut.isFeedbackTo (g : Int)) = 0 := by
        rw [List.countP_eq_zero]; intro o ho
        rw [(List.mem_replicate.mp ho).2]; simp [ChannelOut.isFeedbackTo]
      rw [e1]
      by_cases hex : ∃ p ∈ pkts, p.idGate = (g : Int)
      · have hm : g ∉ silentGates par.numTransmitters pkts :=
          fun h => ((mem_silentGates _ _ _).mp h).2 hex
        rw [if_pos hex, if_neg hm]
        simp [ChannelOut.isFeedbackTo]
      · have hm : g ∈ silentGates par.numTransmitters pkts :=
          (mem_silentGates _ _ _).mpr ⟨hgT, hex⟩
        rw [if_neg hex, if_pos hm]
        simp [ChannelOut.isFeedbackTo]
    · intro hex hmem
      simp only [List.mem_append, List.mem_flatMap, List.mem_replicate, List.mem_cons,
        List.mem_map, List.mem_singleton] at hmem
      rcases hmem with (h | h | h | ⟨j, hj, hje⟩) | h
      · simp at h
      · obtain ⟨q, _, hq⟩ := h
        cases hcq : collides pkts q <;> simp [replyBlock, hcq] at hq
      · simp at h
      · have : j = g := by
          have := (ChannelOut.send_tx.inj hje).2
          omega
        subst this
        exact ((mem_silentGates _ _ _).mp hj).2 hex
      · simp at h
    · intro hex
      simp only [List.mem_append, List.mem_cons, List.mem_map]
      exact Or.inl (Or.inr (Or.inr (Or.inr ⟨g, (mem_silentGates _ _ _).mpr ⟨hgT, hex⟩, rfl⟩)))

/-- Witness for claim C2, at `demoPair`: three stations, two of them attempting. -/
theorem C2_witness :
    ChannelsInRange 1 demoPair ∧ GatesInRange demoChannelPar.numTransmitters demoPair ∧
    (demoPair.map (fun p => p.idGate)).Nodup ∧
    ∃ st' outs,
      Channel.handleMessage demoChannelPar 100
          { isCollided_ := List.replicate 1 false, packetsOfSlot_ := demoPair }
          ChannelMsg.timeSlotTrigger = some (st', outs) ∧
      outs.countP ChannelOut.isFeedback = demoChannelPar.numTransmitters ∧
      ∀ g : Nat, g < demoChannelPar.numTransmitters →
        outs.countP (ChannelOut.isFeedbackTo (g : Int)) = 1 ∧
        ((∃ p ∈ demoPair, p.idGate = (g : Int)) →
          ChannelOut.send_tx MsgName.TRIGGER (g : Int) ∉ outs) ∧
        ((¬ ∃ p ∈ demoPair, p.idGate = (g : Int)) →
          ChannelOut.send_tx MsgName.TRIGGER (g : Int) ∈ outs) :=
  ⟨by decide, by decide, by decide,
    C2_one_reply_per_station demoChannelPar 100 1 demoPair (by decide) (by decide) (by decide)⟩

/-- Claim C8. Attempts arrive at the Channel during a slot (each stamped with the
index of the gate it arrives on, its other fields untouched) and the slot is
resolved at time `now`. The packets forwarded on `out_rx` are, in arrival order,
exactly the non-collided attempts, each on the gate it arrived on. Each
non-collided attempt is forwarded exactly once, right after the ACK sent on
`out_tx` with the same gate index and right before the latency observation
`now - creationTime`. Nothing else is forwarded: every forwarded packet is a
non-collided attempt of the slot, on its own arrival gate. -/
theorem C8_forwarding (par : ChannelPar) (now : Int) (N : Nat) (arr : List Arrival)
    (hc : ChannelsInRange N (arr.map Arrival.stamped))
    (hg : GatesInRange par.numTransmitters (arr.map Arrival.stamped)) :
    ∃ st' outs,
      Channel.run par { isCollided_ := List.replicate N false, packetsOfSlot_ := [] }
          (arr.map Arrival.msg ++ [(now, ChannelMsg.timeSlotTrigger)]) = some (st', outs) ∧
      outs.filter ChannelOut.isForward
        = ((arr.map Arrival.stamped).filter
            (fun p => !(collides (arr.map Arrival.stamped) p))).map
            (fun p => ChannelOut.send_rx p p.idGate) ∧
      (∀ a ∈ arr, collides (arr.map Arrival.stamped) a.stamped = false →
        a.stamped.creationTime = a.pkt.creationTime ∧
        a.stamped.idTransmitter = a.pkt.idTransmitter ∧
        a.stamped.idChannel = a.pkt.idChannel ∧
        a.stamped.idGate = a.gate ∧
        outs.count (ChannelOut.send_rx a.stamped a.gate) = 1 ∧
        ∃ pre post, outs = pre ++ [ChannelOut.send_tx MsgName.ACK a.gate,
          ChannelOut.send_rx a.stamped a.gate,
          ChannelOut.emitWholeResponseTime (now - a.pkt.creationTime)] ++ post) ∧
      (∀ q g, ChannelOut.send_rx q g ∈ outs →
        ∃ a ∈ arr, q = a.stamped ∧ g = a.gate ∧
          collides (arr.map Arrival.stamped) q = false) := by
  refine ⟨_, _, run_slot_spec par now N arr hc hg, ?_, ?_, ?_⟩
  · simp only [List.append_nil, List.filter_append, filter_flatMap_eq]
    have h1 : (List.replicate (collidedChannels N (arr.map Arrival.stamped))
        (ChannelOut.emitCollision 1)).filter ChannelOut.isForward = [] := by
      simp [List.filter_eq_nil_iff, ChannelOut.isForward]
    have h2 : (ChannelOut.emitThroughput (throughputOf N (arr.map Arrival.stamped))
        :: (silentGates par.numTransmitters (arr.map Arrival.stamped)).map
          (fun (g : Nat) => ChannelOut.send_tx MsgName.TRIGGER (g : Int))).filter
        ChannelOut.isForward = [] := by
      simp [List.filter_eq_nil_iff, ChannelOut.isForward]
    have h3 : [ChannelOut.scheduleAt (now + par.timeSlotSize)].filter ChannelOut.isForward
        = [] := by
      simp [ChannelOut.isForward]
    rw [h1, h2, h3]
    simp only [List.nil_append, List.append_nil]
    generalize arr.map Arrival.stamped = pkts
    generalize collides pkts = f
    induction pkts with
    | nil => rfl
    | cons p l ih =>
      rw [List.flatMap_cons, ih, List.filter_cons]
      cases hf : f p <;> simp [replyBlock, ChannelOut.isForward, hf]
  · intro a ha hcol
    have hmem : a.stamped ∈ arr.map Arrival.stamped := List.mem_map.mpr ⟨a, ha, rfl⟩
    refine ⟨rfl, rfl, rfl, rfl, ?_, ?_⟩
    · simp only [List.append_nil, List.count_append, count_forward_blocks]
      have e1 : (List.replicate (collidedChannels N (arr.map Arrival.stamped))
          (ChannelOut.emitCollision 1)).count (ChannelOut.send_rx a.stamped a.gate) = 0 := by
        rw [List.count_eq_zero]; intro h
        have := (List.mem_replicate.mp h).2
        cases this
      have e2 : (ChannelOut.emitThroughput (throughputOf N (arr.map Arrival.stamped))
          :: (silentGates par.numTransmitters (arr.map Arrival.stamped)).map
            (fun (g : Nat) => ChannelOut.send_tx MsgName.TRIGGER (g : Int))).count
          (ChannelOut.send_rx a.stamped a.gate) = 0 := by
        rw [List.count_eq_zero]; intro h
        rcases List.mem_cons.mp h with h | h
        · cases h
        · obtain ⟨j, _, hj⟩ := List.mem_map.mp h
          cases hj
      have e3 : [ChannelOut.scheduleAt (now + par.timeSlotSize)].count
          (ChannelOut.send_rx a.stamped a.gate) = 0 := by
        rw [List.count_eq_zero]; intro h
        simp at h
      rw [e1, e2, e3]
      have e4 : (arr.map Arrival.stamped).countP (fun q =>
            !(collides (arr.map Arrival.stamped) q) && decide (q = a.stamped)
              && decide (q.idGate = a.gate))
          = (arr.map Arrival.stamped).count a.stamped := by
        rw [List.count]
        apply List.countP_congr
        intro q _
        by_cases hq : q = a.stamped
        · subst hq
          have hgate : a.stamped.idGate = a.gate := rfl
          simp [hcol, hgate]
        · simp [hq]
      rw [e4]
      have hle := count_le_attemptsOn (arr.map Arrival.stamped) a.stamped
      have hone := (collides_eq_false_iff _ _ hmem).mp hcol
      have hpos : 0 < (arr.map Arrival.stamped).count a.stamped := List.count_pos_iff.mpr hmem
      omega
    · obtain ⟨l1, l2, hl⟩ := List.append_of_mem hmem
      refine ⟨List.replicate (collidedChannels N (arr.map Arrival.stamped))
          (ChannelOut.emitCollision 1)
          ++ l1.flatMap (fun p => replyBlock now (collides (arr.map Arrival.stamped) p) p),
        l2.flatMap (fun p => replyBlock now (collides (arr.map Arrival.stamped) p) p)
          ++ ChannelOut.emitThroughput (throughputOf N (arr.map Arrival.stamped))
          :: (silentGates par.numTransmitters (arr.map Arrival.stamped)).map
              (fun (g : Nat) => ChannelOut.send_tx MsgName.TRIGGER (g : Int))
          ++ [ChannelOut.scheduleAt (now + par.timeSlotSize)], ?_⟩
      have hflat : (arr.map Arrival.stamped).flatMap
            (fun p => replyBlock now (collides (arr.map Arrival.stamped) p) p)
          = l1.flatMap (fun p => replyBlock now (collides (arr.map Arrival.stamped) p) p)
            ++ ([ChannelOut.send_tx MsgName.ACK a.gate, ChannelOut.send_rx a.stamped a.gate,
              ChannelOut.emitWholeResponseTime (now - a.pkt.creationTime)]
            ++ l2.flatMap (fun p => replyBlock now (collides (arr.map Arrival.stamped) p) p)) := by
        generalize collides (arr.map Arrival.stamped) = f at hcol ⊢
        have hgate : a.stamped.idGate = a.gate := rfl
        have htime : a.stamped.creationTime = a.pkt.creationTime := rfl
        rw [hl, List.flatMap_append, List.flatMap_cons]
        simp [replyBlock, hcol, hgate, htime]
      rw [hflat]
      simp only [List.append_assoc, List.append_nil, List.cons_append, List.nil_append]
  · intro q g hq
    simp only [List.append_nil, List.mem_append, List.mem_flatMap, List.mem_replicate,
      List.mem_cons, List.mem_map, List.mem_singleton] at hq
    rcases hq with (h | h | h | ⟨j, _, hje⟩) | h
    · simp at h
    · obtain ⟨p, ⟨a, ha, hap⟩, hp⟩ := h
      cases hcp : collides (arr.map Arrival.stamped) p
      · simp [replyBlock, hcp] at hp
        obtain ⟨h1, h2⟩ := hp
        subst h1
        refine ⟨a, ha, hap.symm, ?_, hcp⟩
        rw [h2, ← hap]
        rfl
      · simp [replyBlock, hcp] at hp
    · simp at h
    · cases hje
    · simp at h

/-- Claim C9. A slot resolution with at least one sub-channel emits exactly one
throughput observation; its value is the number of packets forwarded in the
slot, which is the number of ACKs sent, and equals the number of sub-channels
that carry exactly one attempt. -/
theorem C9_throughput (par : ChannelPar) (now : Int) (N : Nat) (pkts : List PacketMsg)
    (hN : 0 < N) (hc : ChannelsInRange N pkts) (hg : GatesInRange par.numTransmitters pkts) :
    ∃ st' outs,
      Channel.handleMessage par now
          { isCollided_ := List.replicate N false, packetsOfSlot_ := pkts }
          ChannelMsg.timeSlotTrigger = some (st', outs) ∧
      outs.filter ChannelOut.isThroughput
        = [ChannelOut.emitThroughput ((outs.countP ChannelOut.isForward : Nat) : Int)] ∧
      outs.countP ChannelOut.isForward = outs.countP ChannelOut.isAck ∧
      outs.countP ChannelOut.isForward
        = (List.range N).countP (fun (c : Nat) => decide (attemptsOn pkts (c : Int) = 1)) := by
  refine ⟨_, _, resolve_spec par now N pkts hc hg, ?_⟩
  have hfwd : ∀ outs1 outs2 : List ChannelOut,
      (∀ o ∈ outs1, ChannelOut.isForward o = false) →
      (∀ o ∈ outs2, ChannelOut.isForward o = false) →
      (outs1 ++ (pkts.flatMap (fun p => replyBlock now (collides pkts p) p) ++ outs2)
        ++ [ChannelOut.scheduleAt (now + par.timeSlotSize)]).countP ChannelOut.isForward
        = pkts.countP (fun p => !(collides pkts p)) := by
    intro outs1 outs2 h1 h2
    rw [List.countP_append, List.countP_append, List.countP_append,
      countP_replyBlocks now (collides pkts) ChannelOut.isForward 0 1
        (fun p => by simp [replyBlock, ChannelOut.isForward, List.countP_cons])]
    have e1 : outs1.countP ChannelOut.isForward = 0 := by
      rw [List.countP_eq_zero]; intro o ho; simp [h1 o ho]
    have e2 : outs2.countP ChannelOut.isForward = 0 := by
      rw [List.countP_eq_zero]; intro o ho; simp [h2 o ho]
    rw [e1, e2]
    simp [ChannelOut.isForward]
  have hack : ∀ outs1 outs2 : List ChannelOut,
      (∀ o ∈ outs1, ChannelOut.isAck o = false) →
      (∀ o ∈ outs2, ChannelOut.isAck o = false) →
      (outs1 ++ (pkts.flatMap (fun p => replyBlock now (collides pkts p) p) ++ outs2)
        ++ [ChannelOut.scheduleAt (now + par.timeSlotSize)]).countP ChannelOut.isAck
        = pkts.countP (fun p => !(collides pkts p)) := by
    intro outs1 outs2 h1 h2
    rw [List.countP_append, List.countP_append, List.countP_append,
      countP_replyBlocks now (collides pkts) ChannelOut.isAck 0 1
        (fun p => by simp [replyBlock, ChannelOut.isAck, List.countP_cons])]
    have e1 : outs1.countP ChannelOut.isAck = 0 := by
      rw [List.countP_eq_zero]; intro o ho; simp [h1 o ho]
    have e2 : outs2.countP ChannelOut.isAck = 0 := by
      rw [List.countP_eq_zero]; intro o ho; simp [h2 o ho]
    rw [e1, e2]
    simp [ChannelOut.isAck]
  have hpre : ∀ o ∈ List.replicate (collidedChannels N pkts) (ChannelOut.emitCollision 1),
      ChannelOut.isForward o = false ∧ ChannelOut.isAck o = false := by
    intro o ho
    rw [(List.mem_replicate.mp ho).2]
    exact ⟨rfl, rfl⟩
  have hpost : ∀ o ∈ ChannelOut.emitThroughput (throughputOf N pkts)
        :: (silentGates par.numTransmitters pkts).map
            (fun (g : Nat) => ChannelOut.send_tx MsgName.TRIGGER (g : Int)),
      ChannelOut.isForward o = false ∧ ChannelOut.isAck o = false := by
    intro o ho
    rcases List.mem_cons.mp ho with h | h
    · rw [h]; exact ⟨rfl, rfl⟩
    · obtain ⟨g, _, rfl⟩ := List.mem_map.mp h
      exact ⟨rfl, rfl⟩
  have hF := hfwd _ _ (fun o ho => (hpre o ho).1) (fun o ho => (hpost o ho).1)
  have hA := hack _ _ (fun o ho => (hpre o ho).2) (fun o ho => (hpost o ho).2)
  refine ⟨?_, by rw [hF, hA], by rw [hF, countP_alone_eq_not_collides, countP_alone_eq N pkts hc]⟩
  rw [hF]
  simp only [List.filter_append, filter_flatMap_eq]
  have h1 : (List.replicate (collidedChannels N pkts) (ChannelOut.emitCollision 1)).filter
      ChannelOut.isThroughput = [] := by
    simp [List.filter_eq_nil_iff, ChannelOut.isThroughput]
  have h2 : pkts.flatMap (fun p => (replyBlock now (collides pkts p) p).filter
      ChannelOut.isThroughput) = [] := by
    rw [List.flatMap_eq_nil_iff]
    intro p _
    cases collides pkts p <;> simp [replyBlock, ChannelOut.isThroughput]
  have h3 : ((silentGates par.numTransmitters pkts).map
      (fun (g : Nat) => ChannelOut.send_tx MsgName.TRIGGER (g : Int))).filter
      ChannelOut.isThroughput = [] := by
    simp [List.filter_eq_nil_iff, ChannelOut.isThroughput]
  rw [h1, h2, List.filter_cons, h3]
  simp [ChannelOut.isThroughput, throughputOf, hN]

/-- Claim C10. Started with all flags false on attempts whose sub-channel indices
are in range, `findCollisions` returns, keeps the attempt list and the number of
flags, leaves `isCollided_[c]` true exactly for the sub-channels `c` with two
or more attempts (and false exactly for those with fewer), and emits nothing but
collision observations, one per sub-channel with two or more attempts. -/
theorem C10_findCollisions_flags (N : Nat) (pkts : List PacketMsg)
    (hc : ChannelsInRange N pkts) :
    ∃ st' outs,
      findCollisions { isCollided_ := List.replicate N false, packetsOfSlot_ := pkts }
        = some (st', outs) ∧
      st'.packetsOfSlot_ = pkts ∧ st'.isCollided_.length = N ∧
      (∀ c : Int, 0 ≤ c → c < N →
        (vecGet? st'.isCollided_ c = some true ↔ 2 ≤ attemptsOn pkts c) ∧
        (vecGet? st'.isCollided_ c = some false ↔ attemptsOn pkts c < 2)) ∧
      outs = List.replicate
        ((List.range N).countP (fun (c : Nat) => decide (2 ≤ attemptsOn pkts (c : Int))))
        (ChannelOut.emitCollision 1) := by
  refine ⟨_, _, findCollisions_spec N pkts hc, rfl, by simp [collisionFlags], ?_, rfl⟩
  intro c h0 h1
  obtain ⟨k, hk⟩ := Int.eq_ofNat_of_zero_le h0
  subst hk
  have hkN : k < N := by omega
  simp [vecGet?_natCast, collisionFlags, hkN]

/-- Witness for claim C10, at `demoSlot`: three attempts on sub-channel 1 and one
on sub-channel 0. -/
theorem C10_witness :
    ChannelsInRange 2 demoSlot ∧
    ∃ st' outs,
      findCollisions { isCollided_ := List.replicate 2 false, packetsOfSlot_ := demoSlot }
        = some (st', outs) ∧
      st'.packetsOfSlot_ = demoSlot ∧ st'.isCollided_.length = 2 ∧
      (∀ c : Int, 0 ≤ c → c < (2 : Nat) →
        (vecGet? st'.isCollided_ c = some true ↔ 2 ≤ attemptsOn demoSlot c) ∧
        (vecGet? st'.isCollided_ c = some false ↔ attemptsOn demoSlot c < 2)) ∧
      outs = List.replicate
        ((List.range 2).countP (fun (c : Nat) => decide (2 ≤ attemptsOn demoSlot (c : Int))))
        (ChannelOut.emitCollision 1) :=
  ⟨by decide, C10_findCollisions_flags 2 demoSlot (by decide)⟩

/-- Witness for claim C1, at `demoPair`: two stations on the same sub-channel. -/
theorem C1_witness :
    ChannelsInRange 1 demoPair ∧ GatesInRange demoChannelPar.numTransmitters demoPair ∧
    ∃ st' outs,
      Channel.handleMessage demoChannelPar 100
          { isCollided_ := List.replicate 1 false, packetsOfSlot_ := demoPair }
          ChannelMsg.timeSlotTrigger = some (st', outs) ∧
      outs.filter ChannelOut.isOutcome
        = demoPair.flatMap (fun p =>
            if attemptsOn demoPair p.idChannel = 1 then
              [ChannelOut.send_tx MsgName.ACK p.idGate, ChannelOut.send_rx p p.idGate]
            else [ChannelOut.send_tx MsgName.NACK p.idGate, ChannelOut.deletePkt p]) ∧
      ∀ p ∈ demoPair,
        (attemptsOn demoPair p.idChannel = 1 ∨ 2 ≤ attemptsOn demoPair p.idChannel) ∧
        (attemptsOn demoPair p.idChannel = 1 →
          ChannelOut.send_tx MsgName.ACK p.idGate ∈ outs ∧
          ChannelOut.send_rx p p.idGate ∈ outs ∧ ChannelOut.deletePkt p ∉ outs) ∧
        (2 ≤ attemptsOn demoPair p.idChannel →
          ChannelOut.send_tx MsgName.NACK p.idGate ∈ outs ∧
          ChannelOut.deletePkt p ∈ outs ∧ ∀ g, ChannelOut.send_rx p g ∉ outs) :=
  ⟨by decide, by decide, C1_slot_outcomes demoChannelPar 100 1 demoPair (by decide) (by decide)⟩

/-- Witness for claim C8, at `demoArrivals`: two attempts on different
sub-channels, resolved at time 100. -/
theorem C8_witness :
    ChannelsInRange 2 (demoArrivals.map Arrival.stamped) ∧
    GatesInRange demoChannelPar.numTransmitters (demoArrivals.map Arrival.stamped) ∧
    ∃ st' outs,
      Channel.run demoChannelPar { isCollided_ := List.replicate 2 false, packetsOfSlot_ := [] }
          (demoArrivals.map Arrival.msg ++ [(100, ChannelMsg.timeSlotTrigger)])
        = some (st', outs) ∧
      outs.filter ChannelOut.isForward
        = ((demoArrivals.map Arrival.stamped).filter
            (fun p => !(collides (demoArrivals.map Arrival.stamped) p))).map
            (fun p => ChannelOut.send_rx p p.idGate) ∧
      (∀ a ∈ demoArrivals, collides (demoArrivals.map Arrival.stamped) a.stamped = false →
        a.stamped.creationTime = a.pkt.creationTime ∧
        a.stamped.idTransmitter = a.pkt.idTransmitter ∧
        a.stamped.idChannel = a.pkt.idChannel ∧
        a.stamped.idGate = a.gate ∧
        outs.count (ChannelOut.send_rx a.stamped a.gate) = 1 ∧
        ∃ pre post, outs = pre ++ [ChannelOut.send_tx MsgName.ACK a.gate,
          ChannelOut.send_rx a.stamped a.gate,
          ChannelOut.emitWholeResponseTime (100 - a.pkt.creationTime)] ++ post) ∧
      (∀ q g, ChannelOut.send_rx q g ∈ outs →
        ∃ a ∈ demoArrivals, q = a.stamped ∧ g = a.gate ∧
          collides (demoArrivals.map Arrival.stamped) q = false) :=
  ⟨by decide, by decide, C8_forwarding demoChannelPar 100 2 demoArrivals (by decide) (by decide)⟩

/-- Witness for claim C9, at `demoApart`: two sub-channels, one attempt on each. -/
theorem C9_witness :
    0 < 2 ∧ ChannelsInRange 2 demoApart ∧
    GatesInRange demoChannelPar.numTransmitters demoApart ∧
    ∃ st' outs,
      Channel.handleMessage demoChannelPar 100
          { isCollided_ := List.replicate 2 false, packetsOfSlot_ := demoApart }
          ChannelMsg.timeSlotTrigger = some (st', outs) ∧
      outs.filter ChannelOut.isThroughput
        = [ChannelOut.emitThroughput ((outs.countP ChannelOut.isForward : Nat) : Int)] ∧
      outs.countP ChannelOut.isForward = outs.countP ChannelOut.isAck ∧
      outs.countP ChannelOut.isForward
        = (List.range 2).countP (fun (c : Nat) => decide (attemptsOn demoApart (c : Int) = 1)) :=
  ⟨by decide, by decide, by decide,
    C9_throughput demoChannelPar 100 2 demoApart (by decide) (by decide) (by decide)⟩

/-- The scenario of the spec with one sub-channel and two stations attempting in
the same slot: both get a NACK, nothing is forwarded, the throughput observation
is 0 and there is one collision observation. -/
theorem scenario_same_subchannel :
    Channel.handleMessage demoChannelPar 100
        { isCollided_ := [false], packetsOfSlot_ := demoPair } ChannelMsg.timeSlotTrigger
      = some ({ isCollided_ := [false], packetsOfSlot_ := [] },
          [ChannelOut.emitCollision 1,
           ChannelOut.send_tx MsgName.NACK 0, ChannelOut.deletePkt ⟨0, 0, 0, 0⟩,
           ChannelOut.send_tx MsgName.NACK 1, ChannelOut.deletePkt ⟨0, 1, 0, 1⟩,
           ChannelOut.emitThroughput 0,
           ChannelOut.send_tx MsgName.TRIGGER 2,
           ChannelOut.scheduleAt 110]) := by
  decide

/-- The scenario of the spec with two sub-channels, station A on sub-channel 0
and station B on sub-channel 1: both get an ACK, both packets are forwarded and
the throughput observation is 2. -/
theorem scenario_two_subchannels :
    Channel.handleMessage demoChannelPar 100
        { isCollided_ := [false, false], packetsOfSlot_ := demoApart }
        ChannelMsg.timeSlotTrigger
      = some ({ isCollided_ := [false, false], packetsOfSlot_ := [] },
          [ChannelOut.send_tx MsgName.ACK 0, ChannelOut.send_rx ⟨0, 0, 0, 0⟩ 0,
           ChannelOut.emitWholeResponseTime 100,
           ChannelOut.send_tx MsgName.ACK 1, ChannelOut.send_rx ⟨0, 1, 1, 1⟩ 1,
           ChannelOut.emitWholeResponseTime 100,
           ChannelOut.emitThroughput 2,
           ChannelOut.send_tx MsgName.TRIGGER 2,
           ChannelOut.scheduleAt 110]) := by
  decide

/-! ## Transmitter: frame and buffer lemmas -/

/-- A value inside the 32-bit range is stored unchanged. -/
theorem wrapInt32_of_range (x : Int) (h0 : -2147483648 ≤ x) (h1 : x < 2147483648) :
    wrapInt32 x = x := by
  unfold wrapInt32
  omega

/-- The Bernoulli experiment changes nothing but the buffer. -/
theorem bernoulliAttempt_frame (par : TransmitterPar) (d : Draws) (st : Transmitter) :
    (bernoulliAttempt par d st).1.maxBackoffTime = st.maxBackoffTime ∧
    (bernoulliAttempt par d st).1.backoffTime = st.backoffTime ∧
    (bernoulliAttempt par d st).1.numChannels = st.numChannels ∧
    (bernoulliAttempt par d st).1.sendProbability = st.sendProbability ∧
    (bernoulliAttempt par d st).1.meanInterarrivalTime = st.meanInterarrivalTime := by
  unfold bernoulliAttempt
  cases st.buffer with
  | nil => simp
  | cons p rest =>
    by_cases hu : d.bernoulli < st.sendProbability <;>
      cases hc : par.changeOfChannelAfterCollision <;> simp [hu]

/-- An arrival changes neither the window bound nor the counter. -/
theorem handleArrivedPacket_frame (par : TransmitterPar) (now : Int) (d : Draws)
    (st : Transmitter) (msg : PacketMsg) :
    (handleArrivedPacket par now d st msg).1.maxBackoffTime = st.maxBackoffTime ∧
    (handleArrivedPacket par now d st msg).1.backoffTime = st.backoffTime := by
  unfold handleArrivedPacket
  cases par.changeOfChannelAfterCollision <;> simp

/-- With back-off disabled the counter stays at its initial value 0. -/
theorem backoffTime_zero_of_disabled (par : TransmitterPar) (s : Transmitter)
    (hr : Reachable par s) (hb : par.isBackoff = false) : s.backoffTime = 0 := by
  induction hr with
  | init now d => rfl
  | step s s1 now d msg outs _ hstep ih =>
    cases msg with
    | arrival pkt =>
      simp only [Transmitter.handleMessage, Option.some.injEq, Prod.mk.injEq] at hstep
      rw [← hstep.1, (handleArrivedPacket_frame par now d s pkt).2, ih]
    | feedback name =>
      simp only [Transmitter.handleMessage, handleChannelPacket, hb, ih] at hstep
      by_cases hack : name = MsgName.ACK
      · cases hbuf : s.buffer with
        | nil => simp [hack, hbuf] at hstep
        | cons p rest =>
          simp [hack, hbuf] at hstep
          rw [← hstep.1, (bernoulliAttempt_frame par d _).2.1]
      · simp [hack] at hstep
        have h1 : s1 = (bernoulliAttempt par d s).1 := by rw [hstep]
        rw [h1, (bernoulliAttempt_frame par d _).2.1]
        exact ih

/-- The Bernoulli experiment deletes nothing and keeps the buffer up to the
sub-channel index of its head, which changes only under the at-attempt policy. -/
theorem bernoulliAttempt_buffer (par : TransmitterPar) (d : Draws) (s0 : Transmitter) :
    (bernoulliAttempt par d s0).1.buffer.map PacketMsg.withoutChannel
        = s0.buffer.map PacketMsg.withoutChannel ∧
    (bernoulliAttempt par d s0).1.buffer.tail = s0.buffer.tail ∧
    (par.changeOfChannelAfterCollision = false → (bernoulliAttempt par d s0).1.buffer = s0.buffer) ∧
    removedPackets (bernoulliAttempt par d s0).2 = [] := by
  unfold bernoulliAttempt
  cases hb : s0.buffer with
  | nil => simp [hb, removedPackets]
  | cons h t =>
    by_cases hu : d.bernoulli < s0.sendProbability <;>
      cases hc : par.changeOfChannelAfterCollision <;>
      simp [hu, hb, removedPackets, PacketMsg.withoutChannel]

/-- An arrival appends one packet, stamped with the creation time of the arrival
message and the id of this station, and deletes nothing. -/
theorem handleArrivedPacket_buffer (par : TransmitterPar) (now : Int) (d : Draws)
    (st : Transmitter) (msg : PacketMsg) :
    ∃ pkt, (handleArrivedPacket par now d st msg).1.buffer = st.buffer ++ [pkt] ∧
      pkt.creationTime = msg.creationTime ∧ pkt.idTransmitter = par.id ∧
      removedPackets (handleArrivedPacket par now d st msg).2 = [] := by
  unfold handleArrivedPacket scheduleNextPacket
  cases par.changeOfChannelAfterCollision <;> simp [removedPackets]

/-- A NACK or TRIGGER deletes nothing and keeps the buffer up to the sub-channel
index of its head. -/
theorem feedback_not_ack_buffer (par : TransmitterPar) (d : Draws) (st s1 : Transmitter)
    (name : MsgName) (outs : List TransmitterOut) (hname : name ≠ MsgName.ACK)
    (h : handleChannelPacket par d st name = some (s1, outs)) :
    s1.buffer.map PacketMsg.withoutChannel = st.buffer.map PacketMsg.withoutChannel ∧
    s1.buffer.tail = st.buffer.tail ∧
    (par.changeOfChannelAfterCollision = false → s1.buffer = st.buffer) ∧
    removedPackets outs = [] := by
  unfold handleChannelPacket at h
  by_cases c1 : st.backoffTime > 0 ∧ par.isBackoff = true
  · rw [if_pos c1] at h
    simp only [Option.some.injEq, Prod.mk.injEq] at h
    obtain ⟨rfl, rfl⟩ := h
    simp [removedPackets]
  · by_cases c2 : name = MsgName.NACK ∧ par.isBackoff = true
    · rw [if_neg c1, if_pos c2] at h
      simp only [Option.some.injEq, Prod.mk.injEq] at h
      obtain ⟨rfl, rfl⟩ := h
      simp [removedPackets]
    · rw [if_neg c1, if_neg c2, if_neg hname] at h
      simp only [Option.some.injEq] at h
      have hb := bernoulliAttempt_buffer par d st
      rw [h] at hb
      exact hb

/-- An ACK handled with counter 0 deletes exactly the head of the buffer. -/
theorem feedback_ack_buffer (par : TransmitterPar) (d : Draws) (st s1 : Transmitter)
    (outs : List TransmitterOut) (h0 : st.backoffTime = 0)
    (h : handleChannelPacket par d st MsgName.ACK = some (s1, outs)) :
    ∃ p t, st.buffer = p :: t ∧ removedPackets outs = [p] ∧
      s1.buffer.map PacketMsg.withoutChannel = t.map PacketMsg.withoutChannel ∧
      s1.buffer.tail = t.tail ∧
      (par.changeOfChannelAfterCollision = false → s1.buffer = t) := by
  unfold handleChannelPacket at h
  have c1 : ¬ (st.backoffTime > 0 ∧ par.isBackoff = true) := by omega
  have c2 : ¬ (MsgName.ACK = MsgName.NACK ∧ par.isBackoff = true) := by simp
  rw [if_neg c1, if_neg c2, if_pos rfl] at h
  cases hb : st.buffer with
  | nil => simp [hb] at h
  | cons p t =>
    simp only [hb, Option.some.injEq, Prod.mk.injEq] at h
    obtain ⟨rfl, rfl⟩ := h
    have hba := bernoulliAttempt_buffer par d { st with buffer := t, maxBackoffTime := 2 }
    exact ⟨p, t, rfl, by simp [removedPackets, hba.2.2.2], hba.1, hba.2.1, hba.2.2.1⟩

/-- One handled message: the buffer before, followed by what was pushed, is what
was deleted followed by the buffer after, up to sub-channel indices. -/
theorem step_history (par : TransmitterPar) (now : Int) (d : Draws) (st s1 : Transmitter)
    (msg : TransmitterMsg) (outs : List TransmitterOut)
    (h : Transmitter.handleMessage par now d st msg = some (s1, outs)) :
    (st.buffer ++ pushedPackets st s1 msg).map PacketMsg.withoutChannel
        = (removedPackets outs ++ s1.buffer).map PacketMsg.withoutChannel ∧
    (par.changeOfChannelAfterCollision = false →
      st.buffer ++ pushedPackets st s1 msg = removedPackets outs ++ s1.buffer) := by
  cases msg with
  | arrival pkt =>
    simp only [Transmitter.handleMessage, Option.some.injEq, Prod.mk.injEq] at h
    obtain ⟨rfl, rfl⟩ := h
    obtain ⟨p, hp, _, _, hrem⟩ := handleArrivedPacket_buffer par now d st pkt
    have hrem' : removedPackets ((handleArrivedPacket par now d st pkt).2
        ++ [TransmitterOut.emitNumPacketOnBuffer
          ((handleArrivedPacket par now d st pkt).1.buffer.length : Nat)]) = [] := by
      revert hrem
      generalize (handleArrivedPacket par now d st pkt).2 = l
      intro hrem
      induction l with
      | nil => simp [removedPackets]
      | cons o l ih =>
        cases o <;> simp_all [removedPackets]
    rw [hrem']
    simp only [pushedPackets, hp, List.drop_left, List.nil_append]
    exact ⟨trivial, fun _ => trivial⟩
  | feedback name =>
    simp only [Transmitter.handleMessage] at h
    simp only [pushedPackets, List.append_nil]
    by_cases hname : name = MsgName.ACK
    · subst hname
      by_cases c1 : st.backoffTime > 0 ∧ par.isBackoff = true
      · unfold handleChannelPacket at h
        rw [if_pos c1] at h
        simp only [Option.some.injEq, Prod.mk.injEq] at h
        obtain ⟨rfl, rfl⟩ := h
        simp [removedPackets]
      · unfold handleChannelPacket at h
        have c2 : ¬ (MsgName.ACK = MsgName.NACK ∧ par.isBackoff = true) := by simp
        rw [if_neg c1, if_neg c2, if_pos rfl] at h
        cases hb : st.buffer with
        | nil => simp [hb] at h
        | cons p t =>
          simp only [hb, Option.some.injEq, Prod.mk.injEq] at h
          obtain ⟨rfl, rfl⟩ := h
          have hba := bernoulliAttempt_buffer par d { st with buffer := t, maxBackoffTime := 2 }
          refine ⟨?_, ?_⟩
          · simp only [removedPackets, hba.2.2.2, List.map_cons, List.cons_append,
              List.nil_append, hba.1]
          · intro hc
            simp only [removedPackets, hba.2.2.2, List.cons_append, List.nil_append,
              hba.2.2.1 hc]
    · obtain ⟨h1, _, h3, h4⟩ := feedback_not_ack_buffer par d st s1 name outs hname h
      rw [h4]
      exact ⟨by simpa using h1.symm, fun hc => by simpa using (h3 hc).symm⟩

/-- The same over a sequence of messages. -/
theorem history_invariant (par : TransmitterPar) :
    ∀ (events : List TxEvent) (st s : Transmitter) (arrived removed : List PacketMsg),
      Transmitter.history par st events = some (s, arrived, removed) →
      (st.buffer ++ arrived).map PacketMsg.withoutChannel
          = (removed ++ s.buffer).map PacketMsg.withoutChannel ∧
      (par.changeOfChannelAfterCollision = false →
        st.buffer ++ arrived = removed ++ s.buffer) := by
  intro events
  induction events with
  | nil =>
    intro st s arrived removed h
    simp only [Transmitter.history, Option.some.injEq, Prod.mk.injEq] at h
    obtain ⟨rfl, rfl, rfl⟩ := h
    simp
  | cons e rest ih =>
    intro st s arrived removed h
    simp only [Transmitter.history, Option.bind_eq_bind, Option.bind_eq_some, Option.pure_def,
      Option.some.injEq, Prod.mk.injEq, Prod.exists] at h
    obtain ⟨s1, o1, hstep, s2, arr2, rem2, hrest, rfl, rfl, rfl⟩ := h
    obtain ⟨hs1, hs2⟩ := step_history par e.now e.draws st s1 e.msg o1 hstep
    obtain ⟨hr1, hr2⟩ := ih s1 s2 arr2 rem2 hrest
    refine ⟨?_, ?_⟩
    · rw [← List.append_assoc, List.map_append, hs1, ← List.map_append, List.append_assoc,
        List.map_append, hr1, ← List.map_append, List.append_assoc]
    · intro hc
      rw [← List.append_assoc, hs2 hc, List.append_assoc, hr2 hc, List.append_assoc]

/-- The feedback handler fails exactly when it reaches `buffer.front()` and
`buffer.pop()` on an empty buffer: an ACK, outside the back-off countdown, with
nothing buffered. -/
theorem handleChannelPacket_eq_none_iff (par : TransmitterPar) (d : Draws) (st : Transmitter)
    (name : MsgName) :
    handleChannelPacket par d st name = none
      ↔ name = MsgName.ACK ∧ st.buffer = [] ∧ ¬ (st.backoffTime > 0 ∧ par.isBackoff = true) := by
  unfold handleChannelPacket
  by_cases c1 : st.backoffTime > 0 ∧ par.isBackoff = true
  · rw [if_pos c1]; simp [c1]
  · rw [if_neg c1]
    by_cases c2 : name = MsgName.NACK ∧ par.isBackoff = true
    · rw [if_pos c2]
      simp [c2.1]
    · rw [if_neg c2]
      by_cases c3 : name = MsgName.ACK
      · rw [if_pos c3]
        cases hb : st.buffer with
        | nil => simp [c3, c1]
        | cons p t => simp
      · rw [if_neg c3]; simp [c3]

/-! ## Transmitter: the claims -/

/-- The state a run from a reachable state ends in is reachable. -/
theorem reachable_of_run (par : TransmitterPar) :
    ∀ (events : List TxEvent) (st s : Transmitter),
      Reachable par st → (Transmitter.run par st events).map Prod.fst = some s →
      Reachable par s := by
  intro events
  induction events with
  | nil =>
    intro st s hr h
    simp only [Transmitter.run, Option.map_some', Option.some.injEq] at h
    rw [← h]; exact hr
  | cons e rest ih =>
    intro st s hr h
    cases hstep : Transmitter.handleMessage par e.now e.draws st e.msg with
    | none => simp [Transmitter.run, hstep] at h
    | some r =>
      obtain ⟨s1, o1⟩ := r
      have hr1 : Reachable par s1 := Reachable.step st s1 e.now e.draws e.msg o1 hr hstep
      apply ih s1 s hr1
      cases hrest : Transmitter.run par s1 rest with
      | none => simp [Transmitter.run, hstep, hrest] at h
      | some r2 =>
        simp only [Transmitter.run, hstep, hrest, Option.bind_eq_bind, Option.some_bind,
          Option.pure_def, Option.map_some', Option.some.injEq] at h ⊢
        exact h

/-- Where doubling cannot overflow (`0 ≤ maxBackoffTime < 2 ^ 30`), a feedback
step leaves the window bound unchanged, doubles it (only on NACK) or resets it
to 2 (only on ACK), and lowers it only by the reset. -/
theorem maxBackoffTime_step (par : TransmitterPar) (d : Draws) (st s1 : Transmitter)
    (name : MsgName) (outs : List TransmitterOut)
    (h0 : 0 ≤ st.maxBackoffTime) (h1 : st.maxBackoffTime < 1073741824)
    (h : handleChannelPacket par d st name = some (s1, outs)) :
    (s1.maxBackoffTime = st.maxBackoffTime ∨
      (s1.maxBackoffTime = 2 * st.maxBackoffTime ∧ name = MsgName.NACK) ∨
      (s1.maxBackoffTime = 2 ∧ name = MsgName.ACK)) ∧
    (s1.maxBackoffTime < st.maxBackoffTime → name = MsgName.ACK ∧ s1.maxBackoffTime = 2) := by
  unfold handleChannelPacket at h
  by_cases c1 : st.backoffTime > 0 ∧ par.isBackoff = true
  · rw [if_pos c1] at h
    simp only [Option.some.injEq, Prod.mk.injEq] at h
    obtain ⟨rfl, rfl⟩ := h
    exact ⟨Or.inl rfl, fun hlt => absurd hlt (lt_irrefl _)⟩
  · by_cases c2 : name = MsgName.NACK ∧ par.isBackoff = true
    · rw [if_neg c1, if_pos c2] at h
      simp only [Option.some.injEq, Prod.mk.injEq] at h
      obtain ⟨rfl, rfl⟩ := h
      have hw : wrapInt32 (st.maxBackoffTime * 2) = 2 * st.maxBackoffTime := by
        rw [wrapInt32_of_range _ (by omega) (by omega)]; ring
      refine ⟨Or.inr (Or.inl ⟨hw, c2.1⟩), fun hlt => ?_⟩
      have hlt1 : wrapInt32 (st.maxBackoffTime * 2) < st.maxBackoffTime := hlt
      rw [hw] at hlt1
      omega
    · by_cases c3 : name = MsgName.ACK
      · rw [if_neg c1, if_neg c2, if_pos c3] at h
        cases hb : st.buffer with
        | nil => simp [hb] at h
        | cons p t =>
          simp only [hb, Option.some.injEq, Prod.mk.injEq] at h
          obtain ⟨rfl, rfl⟩ := h
          have hf := (bernoulliAttempt_frame par d
            { st with buffer := t, maxBackoffTime := 2 }).1
          exact ⟨Or.inr (Or.inr ⟨hf, c3⟩), fun _ => ⟨c3, hf⟩⟩
      · rw [if_neg c1, if_neg c2, if_neg c3] at h
        simp only [Option.some.injEq] at h
        have hf : s1.maxBackoffTime = st.maxBackoffTime := by
          have := (bernoulliAttempt_frame par d st).1
          rw [h] at this
          exact this
        exact ⟨Or.inl hf, fun hlt => by omega⟩

set_option maxRecDepth 100000 in
/-- Claim C3, at the input where the code departs from it. The station of
`demoPar` reaches `demoOverflowState` (window bound `2 ^ 30`, counter 0) from
`initialize` by one arrival, one attempt and 29 collisions in a row. There a
NACK turns the window bound into `-2 ^ 31`, the 32-bit wrap of `2 ^ 31`: the new
bound is not the old one, not twice the old one, not 2, and it is smaller than
the old one although the signal is a NACK. -/
theorem C3_window_overflow :
    (Transmitter.run demoPar ( Transmitter.initialize demoPar 0 demoDraws).1 demoCollisions).map
        Prod.fst = some demoOverflowState ∧
    demoOverflowState.maxBackoffTime = 1073741824 ∧
    demoOverflowState.backoffTime = 0 ∧
    ∃ s1 outs,
      handleChannelPacket demoPar demoDraws demoOverflowState MsgName.NACK = some (s1, outs) ∧
      s1.maxBackoffTime = -2147483648 ∧
      s1.maxBackoffTime ≠ demoOverflowState.maxBackoffTime ∧
      s1.maxBackoffTime ≠ 2 * demoOverflowState.maxBackoffTime ∧
      s1.maxBackoffTime ≠ 2 ∧
      s1.maxBackoffTime < demoOverflowState.maxBackoffTime := by
  refine ⟨by decide, rfl, rfl,
    { demoOverflowState with maxBackoffTime := -2147483648, backoffTime := 1 },
    [TransmitterOut.drawIntuniform 1 (-2147483648) 1 1], by decide, rfl, by decide,
    by decide, by decide, by decide⟩

/-- Claim C4. In every station state reached from `initialize` by any messages
(arrivals and feedback) with any random draws, under either value of `isBackoff`,
a feedback step that starts with `backoffTime > 0` returns, performs no action at
all (so it sends no packet, whatever the buffer holds), keeps the buffer and
lowers the counter by one. -/
theorem C4_no_attempt_during_backoff (par : TransmitterPar) (s : Transmitter)
    (hr : Reachable par s) (hpos : 0 < s.backoffTime) (d : Draws) (name : MsgName) :
    ∃ s1 outs, handleChannelPacket par d s name = some (s1, outs) ∧
      (∀ o ∈ outs, TransmitterOut.isSend o = false) ∧
      outs = [] ∧ s1.buffer = s.buffer ∧ s1.backoffTime = s.backoffTime - 1 := by
  have hb : par.isBackoff = true := by
    cases h : par.isBackoff
    · have := backoffTime_zero_of_disabled par s hr h
      omega
    · rfl
  refine ⟨{ s with backoffTime := s.backoffTime - 1 }, [], ?_, by simp, rfl, rfl, rfl⟩
  simp [handleChannelPacket, hpos, hb]

/-- Witness for claim C4, at `demoBackoffState`: the state after the first attempt
of the station was NACKed, with a packet in the buffer. -/
theorem C4_witness :
    Reachable demoPar demoBackoffState ∧ 0 < demoBackoffState.backoffTime ∧
    ∃ s1 outs, handleChannelPacket demoPar demoDraws demoBackoffState MsgName.ACK
        = some (s1, outs) ∧
      (∀ o ∈ outs, TransmitterOut.isSend o = false) ∧
      outs = [] ∧ s1.buffer = demoBackoffState.buffer ∧
      s1.backoffTime = demoBackoffState.backoffTime - 1 :=
  have hr : Reachable demoPar demoBackoffState :=
    reachable_of_run demoPar (demoFirstAttempt ++ [demoFeedback 1020 MsgName.NACK]) _ _
      (Reachable.init 0 demoDraws) (by decide)
  ⟨hr, by decide,
    C4_no_attempt_during_backoff demoPar demoBackoffState hr (by decide) demoDraws MsgName.ACK⟩

/-- Claim C5, amended. With back-off enabled, in a station state with counter 0
and window bound `w`, `1 ≤ w < 2 ^ 30`, and with `intuniform` keeping its
contract, handling a NACK returns, doubles the window bound, makes one draw
`intuniform(1, 2 * w)` and stores it as the counter, which lies in `[1, 2 * w]`,
leaves the buffer unchanged and offers no attempt. -/
theorem C5_nack_starts_backoff (par : TransmitterPar) (d : Draws) (st : Transmitter)
    (hb : par.isBackoff = true) (h0 : st.backoffTime = 0)
    (h1 : 1 ≤ st.maxBackoffTime) (h2 : st.maxBackoffTime < 1073741824)
    (hd : d.BackoffInRange) :
    ∃ s1 outs, handleChannelPacket par d st MsgName.NACK = some (s1, outs) ∧
      s1.maxBackoffTime = 2 * st.maxBackoffTime ∧
      s1.backoffTime = d.backoff 1 s1.maxBackoffTime ∧
      outs = [TransmitterOut.drawIntuniform 1 s1.maxBackoffTime 1 s1.backoffTime] ∧
      1 ≤ s1.backoffTime ∧ s1.backoffTime ≤ s1.maxBackoffTime ∧
      s1.buffer = st.buffer ∧
      (∀ o ∈ outs, TransmitterOut.isSend o = false) := by
  have hw : wrapInt32 (st.maxBackoffTime * 2) = 2 * st.maxBackoffTime := by
    rw [wrapInt32_of_range _ (by omega) (by omega)]; ring
  have hr := hd 1 (2 * st.maxBackoffTime) (by omega)
  refine ⟨{ st with maxBackoffTime := 2 * st.maxBackoffTime
                    backoffTime := d.backoff 1 (2 * st.maxBackoffTime) },
    _, ?_, rfl, rfl, rfl, hr.1, hr.2, rfl, ?_⟩
  · simp [handleChannelPacket, h0, hb, hw]
  · intro o ho
    rw [List.mem_singleton.mp ho]
    rfl

/-- Counterexample to claim C5 as stated. With back-off disabled, the station of `demoState`
(counter 0, window bound 2, one packet buffered) handles a NACK like a PROMPT:
the state is unchanged, so the window bound is not doubled and the counter is
not in `[1, 4]`, and the station offers its head packet again in that very slot.
With back-off enabled, at window bound `2 ^ 30` the new bound is `-2 ^ 31`, not
`2 ^ 31`. -/
theorem C5_counterexample :
    demoParNoBackoff.isBackoff = false ∧ demoState.backoffTime = 0 ∧
    handleChannelPacket demoParNoBackoff demoDraws demoState MsgName.NACK
      = some (demoState, [TransmitterOut.drawUniform 3 0,
          TransmitterOut.send { creationTime := 1000, idTransmitter := 7, idChannel := 0,
                                idGate := 0 }]) ∧
    demoState.maxBackoffTime ≠ 2 * demoState.maxBackoffTime ∧
    ¬ (1 ≤ demoState.backoffTime) ∧
    demoPar.isBackoff = true ∧ demoOverflowState.backoffTime = 0 ∧
    (handleChannelPacket demoPar demoDraws demoOverflowState MsgName.NACK).map
      (fun r => r.1.maxBackoffTime) = some (-2147483648) ∧
    (-2147483648 : Int) ≠ 2 * demoOverflowState.maxBackoffTime := by
  decide

/-- Witness for claim C5 as amended, at `demoState` with back-off enabled. -/
theorem C5_witness :
    demoPar.isBackoff = true ∧ demoState.backoffTime = 0 ∧
    1 ≤ demoState.maxBackoffTime ∧ demoState.maxBackoffTime < 1073741824 ∧
    demoDraws.BackoffInRange ∧
    ∃ s1 outs, handleChannelPacket demoPar demoDraws demoState MsgName.NACK
        = some (s1, outs) ∧
      s1.maxBackoffTime = 2 * demoState.maxBackoffTime ∧
      s1.backoffTime = demoDraws.backoff 1 s1.maxBackoffTime ∧
      outs = [TransmitterOut.drawIntuniform 1 s1.maxBackoffTime 1 s1.backoffTime] ∧
      1 ≤ s1.backoffTime ∧ s1.backoffTime ≤ s1.maxBackoffTime ∧
      s1.buffer = demoState.buffer ∧
      (∀ o ∈ outs, TransmitterOut.isSend o = false) :=
  have hd : demoDraws.BackoffInRange := fun a _ h => ⟨le_refl a, h⟩
  ⟨rfl, rfl, by decide, by decide, hd,
    C5_nack_starts_backoff demoPar demoDraws demoState rfl rfl (by decide) (by decide) hd⟩

/-- Claim C6. In a station state with counter 0, handling an ACK (on a non-empty
buffer) or a PROMPT returns, and the station offers an attempt exactly when the
buffer, after the head was removed on ACK, is non-empty and the uniform draw is
strictly below `sendProbability`. When it offers one, it is the only packet
sent in the step and it equals the head of the buffer as the step leaves it:
the head of the buffer after the ACK removal (so, after an ACK, the packet behind
the acknowledged one), which stays in the buffer in front of the same tail; the
copy and the head carry the sub-channel drawn just before under the at-attempt
policy and are otherwise the packet as buffered. -/
theorem C6_attempt_iff (par : TransmitterPar) (d : Draws) (st : Transmitter)
    (name : MsgName) (h0 : st.backoffTime = 0)
    (hname : name = MsgName.ACK ∨ name = MsgName.TRIGGER)
    (hbuf : name = MsgName.ACK → st.buffer ≠ []) :
    ∃ s1 outs, handleChannelPacket par d st name = some (s1, outs) ∧
      ((∃ p, TransmitterOut.send p ∈ outs) ↔
        (bufferAfterAck st name ≠ [] ∧ d.bernoulli < st.sendProbability)) ∧
      (∀ p, TransmitterOut.send p ∈ outs →
        outs.countP TransmitterOut.isSend = 1 ∧
        ∃ h t, bufferAfterAck st name = h :: t ∧ s1.buffer = p :: t ∧
          p.creationTime = h.creationTime ∧ p.idTransmitter = h.idTransmitter ∧
          p.idGate = h.idGate ∧
          (par.changeOfChannelAfterCollision = false → p = h) ∧
          (par.changeOfChannelAfterCollision = true →
            p.idChannel = d.channel 0 (st.numChannels - 1))) := by
  have key : ∀ s0 : Transmitter, s0.sendProbability = st.sendProbability →
      s0.numChannels = st.numChannels →
      ((∃ p, TransmitterOut.send p ∈ (bernoulliAttempt par d s0).2) ↔
        (s0.buffer ≠ [] ∧ d.bernoulli < st.sendProbability)) ∧
      (∀ p, TransmitterOut.send p ∈ (bernoulliAttempt par d s0).2 →
        (bernoulliAttempt par d s0).2.countP TransmitterOut.isSend = 1 ∧
        ∃ h t, s0.buffer = h :: t ∧ (bernoulliAttempt par d s0).1.buffer = p :: t ∧
          p.creationTime = h.creationTime ∧ p.idTransmitter = h.idTransmitter ∧
          p.idGate = h.idGate ∧
          (par.changeOfChannelAfterCollision = false → p = h) ∧
          (par.changeOfChannelAfterCollision = true →
            p.idChannel = d.channel 0 (st.numChannels - 1))) := by
    intro s0 hsp hnc
    unfold bernoulliAttempt
    cases hb : s0.buffer with
    | nil => simp
    | cons h t =>
      by_cases hu : d.bernoulli < st.sendProbability
      · cases hc : par.changeOfChannelAfterCollision
        · simp [hsp, hnc, hu, TransmitterOut.isSend, List.countP_cons]
          exact ⟨h, t, ⟨rfl, rfl⟩, hb, rfl, rfl, rfl, rfl⟩
        · simp [hsp, hnc, hu, TransmitterOut.isSend, List.countP_cons]
          exact ⟨h, t, ⟨rfl, rfl⟩, rfl, rfl, rfl, rfl⟩
      · simp [hsp, hu]
  rcases hname with h | h
  · subst h
    cases hb : st.buffer with
    | nil => exact absurd hb (hbuf rfl)
    | cons p0 rest =>
      have k := key { st with buffer := rest, maxBackoffTime := 2 } rfl rfl
      refine ⟨(bernoulliAttempt par d { st with buffer := rest, maxBackoffTime := 2 }).1,
        TransmitterOut.deletePkt p0
          :: (bernoulliAttempt par d { st with buffer := rest, maxBackoffTime := 2 }).2, ?_, ?_, ?_⟩
      · simp [handleChannelPacket, h0, hb]
      · simpa [bufferAfterAck, hb] using k.1
      · intro p hp
        have hp' : TransmitterOut.send p ∈
            (bernoulliAttempt par d { st with buffer := rest, maxBackoffTime := 2 }).2 := by
          simpa using hp
        have := k.2 p hp'
        simpa [bufferAfterAck, hb, List.countP_cons, TransmitterOut.isSend] using this
  · subst h
    have k := key st rfl rfl
    refine ⟨(bernoulliAttempt par d st).1, (bernoulliAttempt par d st).2, ?_, ?_, ?_⟩
    · simp [handleChannelPacket, h0]
    · simpa [bufferAfterAck] using k.1
    · intro p hp
      simpa [bufferAfterAck] using k.2 p hp

/-- Witness for claim C6, at `demoState` and a PROMPT. -/
theorem C6_witness :
    demoState.backoffTime = 0 ∧
    (MsgName.TRIGGER = MsgName.ACK ∨ MsgName.TRIGGER = MsgName.TRIGGER) ∧
    (MsgName.TRIGGER = MsgName.ACK → demoState.buffer ≠ []) ∧
    ∃ s1 outs, handleChannelPacket demoPar demoDraws demoState MsgName.TRIGGER
        = some (s1, outs) ∧
      ((∃ p, TransmitterOut.send p ∈ outs) ↔
        (bufferAfterAck demoState MsgName.TRIGGER ≠ [] ∧
          demoDraws.bernoulli < demoState.sendProbability)) ∧
      (∀ p, TransmitterOut.send p ∈ outs →
        outs.countP TransmitterOut.isSend = 1 ∧
        ∃ h t, bufferAfterAck demoState MsgName.TRIGGER = h :: t ∧ s1.buffer = p :: t ∧
          p.creationTime = h.creationTime ∧ p.idTransmitter = h.idTransmitter ∧
          p.idGate = h.idGate ∧
          (demoPar.changeOfChannelAfterCollision = false → p = h) ∧
          (demoPar.changeOfChannelAfterCollision = true →
            p.idChannel = demoDraws.channel 0 (demoState.numChannels - 1))) :=
  ⟨rfl, Or.inr rfl, (fun h => by cases h),
    C6_attempt_iff demoPar demoDraws demoState MsgName.TRIGGER rfl (Or.inr rfl)
      (fun h => by cases h)⟩

/-- Claim C7, amended. The buffer is a FIFO queue that shrinks only on ACK.
(1) An arrival appends one packet at the tail, leaves the packets already
buffered as they are and deletes nothing. (2) A NACK or PROMPT deletes nothing
and keeps the buffered packets and their order; the tail is untouched and the
head changes at most in its sub-channel index, and not at all under the
at-arrival policy. (3) An ACK handled with counter 0 deletes exactly the head;
what remains is the former tail, again up to the sub-channel index of its head.
(4) Over every sequence of messages handled from `initialize`, the packets
arrived so far are the packets deleted so far followed by the buffer, up to
sub-channel indices, so the deleted packets are the first of the arrived ones in
arrival order; under the at-arrival policy this holds with the packets exactly
as they arrived. -/
theorem C7_buffer_fifo (par : TransmitterPar) :
    (∀ (now : Int) (d : Draws) (st : Transmitter) (msg : PacketMsg),
      ∃ pkt, (handleArrivedPacket par now d st msg).1.buffer = st.buffer ++ [pkt] ∧
        removedPackets (handleArrivedPacket par now d st msg).2 = []) ∧
    (∀ (d : Draws) (st s1 : Transmitter) (name : MsgName) (outs : List TransmitterOut),
      name ≠ MsgName.ACK → handleChannelPacket par d st name = some (s1, outs) →
      removedPackets outs = [] ∧
      s1.buffer.map PacketMsg.withoutChannel = st.buffer.map PacketMsg.withoutChannel ∧
      s1.buffer.tail = st.buffer.tail ∧
      (par.changeOfChannelAfterCollision = false → s1.buffer = st.buffer)) ∧
    (∀ (d : Draws) (st s1 : Transmitter) (outs : List TransmitterOut),
      st.backoffTime = 0 → handleChannelPacket par d st MsgName.ACK = some (s1, outs) →
      ∃ p t, st.buffer = p :: t ∧ removedPackets outs = [p] ∧
        s1.buffer.map PacketMsg.withoutChannel = t.map PacketMsg.withoutChannel ∧
        s1.buffer.tail = t.tail ∧
        (par.changeOfChannelAfterCollision = false → s1.buffer = t)) ∧
    (∀ (now : Int) (d : Draws) (events : List TxEvent) (s : Transmitter)
        (arrived removed : List PacketMsg),
      Transmitter.history par ( Transmitter.initialize par now d).1 events
        = some (s, arrived, removed) →
      arrived.map PacketMsg.withoutChannel
        = (removed ++ s.buffer).map PacketMsg.withoutChannel ∧
      removed.map PacketMsg.withoutChannel <+: arrived.map PacketMsg.withoutChannel ∧
      (par.changeOfChannelAfterCollision = false →
        arrived = removed ++ s.buffer ∧ removed <+: arrived)) := by
  refine ⟨?_, ?_, ?_, ?_⟩
  · intro now d st msg
    obtain ⟨p, hp, _, _, hrem⟩ := handleArrivedPacket_buffer par now d st msg
    exact ⟨p, hp, hrem⟩
  · intro d st s1 name outs hname h
    obtain ⟨h1, h2, h3, h4⟩ := feedback_not_ack_buffer par d st s1 name outs hname h
    exact ⟨h4, h1, h2, h3⟩
  · intro d st s1 outs h0 h
    exact feedback_ack_buffer par d st s1 outs h0 h
  · intro now d events s arrived removed h
    obtain ⟨h1, h2⟩ := history_invariant par events _ s arrived removed h
    have hinit : ( Transmitter.initialize par now d).1.buffer = [] := rfl
    rw [hinit, List.nil_append] at h1 h2
    refine ⟨h1, ?_, ?_⟩
    · rw [h1, List.map_append]
      exact List.prefix_append _ _
    · intro hc
      refine ⟨h2 hc, ?_⟩
      rw [h2 hc]
      exact List.prefix_append _ _

/-- Counterexample to claim C7 as stated. Under the at-attempt policy the station of
`demoParAtAttempt`, holding the packet that arrived at time 1000 with sub-channel 0,
handles a PROMPT by drawing sub-channel 1 for the buffered head before sending
its copy: the buffer after the PROMPT differs from the buffer before. -/
theorem C7_counterexample :
    (Transmitter.run demoParAtAttempt ( Transmitter.initialize demoParAtAttempt 0 demoDrawsHigh).1
        demoArrivalHigh).map Prod.fst = some demoStateAtAttempt ∧
    (handleChannelPacket demoParAtAttempt demoDrawsHigh demoStateAtAttempt MsgName.TRIGGER).map
      (fun r => r.1.buffer)
        = some [{ creationTime := 1000, idTransmitter := 7, idChannel := 1, idGate := 0 }] ∧
    [({ creationTime := 1000, idTransmitter := 7, idChannel := 1, idGate := 0 } : PacketMsg)]
      ≠ demoStateAtAttempt.buffer := by
  decide

/-- Witness for claim C7 as amended, on a run of the station of
`demoParAtAttempt`: the packet
arrives, is attempted on a PROMPT and removed on the ACK. -/
theorem C7_witness :
    Transmitter.history demoParAtAttempt ( Transmitter.initialize demoParAtAttempt 0 demoDrawsHigh).1
        demoDelivery
      = some ({ demoStateAtAttempt with buffer := [] },
          [{ creationTime := 1000, idTransmitter := 7, idChannel := 0, idGate := 0 }],
          [{ creationTime := 1000, idTransmitter := 7, idChannel := 1, idGate := 0 }]) ∧
    List.map PacketMsg.withoutChannel
        [{ creationTime := 1000, idTransmitter := 7, idChannel := 1, idGate := 0 }]
      <+: List.map PacketMsg.withoutChannel
        [{ creationTime := 1000, idTransmitter := 7, idChannel := 0, idGate := 0 }] :=
  ⟨by decide,
    ((C7_buffer_fifo demoParAtAttempt).2.2.2 0 demoDrawsHigh demoDelivery
      { demoStateAtAttempt with buffer := [] }
      [{ creationTime := 1000, idTransmitter := 7, idChannel := 0, idGate := 0 }]
      [{ creationTime := 1000, idTransmitter := 7, idChannel := 1, idGate := 0 }]
      (by decide)).2.1⟩

/-! ## Channel: the claims, second part -/

/-- Claim C14. With a sub-channel count of 0, `Channel::initialize` ends the run
by `endSimulation()` and returns nothing: no state, no scheduled slot boundary,
hence no action at all. With a positive count it returns a state with
`numChannels` flags, all false, an empty attempt set, and exactly one action,
the slot boundary scheduled at `now + timeSlotSize`. -/
theorem C14_initialize_outcomes (par : ChannelPar) (now : Int) :
    (par.numChannels = 0 →
      Channel.initialize par now = Except.error ChannelStop.endSimulation) ∧
    (0 < par.numChannels →
      ∃ st outs, Channel.initialize par now = Except.ok (st, outs) ∧
        st.isCollided_.length = par.numChannels.toNat ∧
        ((st.isCollided_.length : Nat) : Int) = par.numChannels ∧
        (∀ b ∈ st.isCollided_, b = false) ∧
        st.packetsOfSlot_ = [] ∧
        outs = [ChannelOut.scheduleAt (now + par.timeSlotSize)]) := by
  constructor
  · intro h
    simp [ Channel.initialize, h]
  · intro h
    refine ⟨_, _, Channel_initialize_ok par now h, by simp, ?_, ?_, rfl, rfl⟩
    · simp; omega
    · intro b hb
      exact (List.mem_replicate.mp hb).2

/-- Witness for claim C14: the configuration `demoChannelParZero` ends the run,
and `demoChannelPar` (two sub-channels) starts with two false flags and the first
slot boundary at time 10. -/
theorem C14_witness :
    demoChannelParZero.numChannels = 0 ∧ 0 < demoChannelPar.numChannels ∧
    Channel.initialize demoChannelParZero 0 = Except.error ChannelStop.endSimulation ∧
    ∃ st outs, Channel.initialize demoChannelPar 0 = Except.ok (st, outs) ∧
      st.isCollided_.length = demoChannelPar.numChannels.toNat ∧
      ((st.isCollided_.length : Nat) : Int) = demoChannelPar.numChannels ∧
      (∀ b ∈ st.isCollided_, b = false) ∧
      st.packetsOfSlot_ = [] ∧
      outs = [ChannelOut.scheduleAt (0 + demoChannelPar.timeSlotSize)] :=
  ⟨rfl, by decide, (C14_initialize_outcomes demoChannelParZero 0).1 rfl,
    (C14_initialize_outcomes demoChannelPar 0).2 (by decide)⟩

/-- The number of attempts on a sub-channel does not depend on their order. -/
theorem attemptsOn_perm (pkts pkts1 : List PacketMsg) (h : pkts.Perm pkts1) (c : Int) :
    attemptsOn pkts c = attemptsOn pkts1 c :=
  List.Perm.countP_eq _ h

/-- Whether an attempt collides does not depend on the order of the attempts. -/
theorem collides_perm (pkts pkts1 : List PacketMsg) (h : pkts.Perm pkts1) (p : PacketMsg) :
    collides pkts p = collides pkts1 p := by
  simp [collides, attemptsOn_perm pkts pkts1 h]

/-- The number of collided sub-channels does not depend on the order of the
attempts. -/
theorem collidedChannels_perm (N : Nat) (pkts pkts1 : List PacketMsg) (h : pkts.Perm pkts1) :
    collidedChannels N pkts = collidedChannels N pkts1 := by
  simp [collidedChannels, attemptsOn_perm pkts pkts1 h]

/-- The throughput of a slot does not depend on the order of the attempts. -/
theorem throughputOf_perm (N : Nat) (pkts pkts1 : List PacketMsg) (h : pkts.Perm pkts1) :
    throughputOf N pkts = throughputOf N pkts1 := by
  have hf : (fun p => !(collides pkts p)) = (fun p => !(collides pkts1 p)) := by
    funext p; rw [collides_perm pkts pkts1 h]
  simp only [throughputOf, hf, List.Perm.countP_eq _ h]

/-- The gates without an attempt do not depend on the order of the attempts. -/
theorem silentGates_perm (T : Nat) (pkts pkts1 : List PacketMsg) (h : pkts.Perm pkts1) :
    silentGates T pkts = silentGates T pkts1 := by
  unfold silentGates
  apply List.filter_congr
  intro g _
  have : pkts.any (fun p => decide (p.idGate = (g : Int)))
      = pkts1.any (fun p => decide (p.idGate = (g : Int))) := by
    rw [Bool.eq_iff_iff]
    simp only [List.any_eq_true]
    exact ⟨fun ⟨p, hp, hq⟩ => ⟨p, h.mem_iff.mp hp, hq⟩, fun ⟨p, hp, hq⟩ => ⟨p, h.mem_iff.mpr hp, hq⟩⟩
  rw [this]

/-- Claim C16. Resolving a slot on an attempt list and on any permutation of it
(sub-channels and gates in range) returns in both orders, with the same final
state; an attempt collides in one order exactly when it does in the other, and
the actions are, in both orders, the same actions `before`, then for each
attempt in the order given its reply block (NACK and discard when its
sub-channel carries two or more attempts, ACK, forwarding and latency
observation otherwise), then the same actions `after`. So each attempt receives
the same outcome, the throughput observation and the number of collision
observations are equal, and the outcome actions of the two orders are a
permutation of one another. -/
theorem C16_order_independent (par : ChannelPar) (now : Int) (N : Nat)
    (pkts pkts1 : List PacketMsg) (hperm : pkts.Perm pkts1)
    (hc : ChannelsInRange N pkts) (hg : GatesInRange par.numTransmitters pkts) :
    ∃ st outs outs1 before after,
      Channel.handleMessage par now
          { isCollided_ := List.replicate N false, packetsOfSlot_ := pkts }
          ChannelMsg.timeSlotTrigger = some (st, outs) ∧
      Channel.handleMessage par now
          { isCollided_ := List.replicate N false, packetsOfSlot_ := pkts1 }
          ChannelMsg.timeSlotTrigger = some (st, outs1) ∧
      outs = before ++ pkts.flatMap (fun p => replyBlock now (collides pkts p) p) ++ after ∧
      outs1 = before ++ pkts1.flatMap (fun p => replyBlock now (collides pkts p) p) ++ after ∧
      (∀ p, collides pkts1 p = collides pkts p) ∧
      (∀ o ∈ before ++ after, ChannelOut.isOutcome o = false) ∧
      outs.filter ChannelOut.isThroughput = outs1.filter ChannelOut.isThroughput ∧
      outs.countP ChannelOut.isCollision = outs1.countP ChannelOut.isCollision ∧
      (outs.filter ChannelOut.isOutcome).Perm (outs1.filter ChannelOut.isOutcome) := by
  have hc1 : ChannelsInRange N pkts1 := fun p hp => hc p (hperm.mem_iff.mpr hp)
  have hg1 : GatesInRange par.numTransmitters pkts1 := fun p hp => hg p (hperm.mem_iff.mpr hp)
  have h1 := resolve_spec par now N pkts hc hg
  have h2 := resolve_spec par now N pkts1 hc1 hg1
  have hf : (fun p => replyBlock now (collides pkts1 p) p)
      = (fun p => replyBlock now (collides pkts p) p) := by
    funext p; rw [collides_perm pkts pkts1 hperm]
  rw [← collidedChannels_perm N pkts pkts1 hperm, ← throughputOf_perm N pkts pkts1 hperm,
    ← silentGates_perm par.numTransmitters pkts pkts1 hperm, hf] at h2
  have hside : ∀ o ∈ List.replicate (collidedChannels N pkts) (ChannelOut.emitCollision 1)
      ++ (ChannelOut.emitThroughput (throughputOf N pkts)
        :: (silentGates par.numTransmitters pkts).map
            (fun (g : Nat) => ChannelOut.send_tx MsgName.TRIGGER (g : Int))
        ++ [ChannelOut.scheduleAt (now + par.timeSlotSize)]),
      ChannelOut.isOutcome o = false ∧ ChannelOut.isThroughput o
        = decide (o = ChannelOut.emitThroughput (throughputOf N pkts)) := by
    intro o ho
    simp only [List.mem_append, List.mem_replicate, List.mem_cons, List.mem_map,
      List.mem_singleton, List.not_mem_nil, or_false] at ho
    rcases ho with ⟨_, h⟩ | (h | ⟨g, _, h⟩) | h
    · rw [h]; exact ⟨rfl, by simp [ChannelOut.isThroughput]⟩
    · rw [h]; exact ⟨rfl, by simp [ChannelOut.isThroughput]⟩
    · rw [← h]; exact ⟨rfl, by simp [ChannelOut.isThroughput]⟩
    · rw [h]; exact ⟨rfl, by simp [ChannelOut.isThroughput]⟩
  have hblock : ∀ (l : List PacketMsg) (q : ChannelOut → Bool),
      (∀ b p, ∀ o ∈ replyBlock now b p, q o = false) →
      (l.flatMap (fun p => replyBlock now (collides pkts p) p)).filter q = [] := by
    intro l q hq
    rw [List.filter_eq_nil_iff]
    intro o ho
    obtain ⟨p, _, hp⟩ := List.mem_flatMap.mp ho
    simp [hq _ p o hp]
  have hthr : ∀ b p, ∀ o ∈ replyBlock now b p, ChannelOut.isThroughput o = false := by
    intro b p o ho
    cases b
    · simp only [replyBlock, Bool.false_eq_true, if_false, List.mem_cons, List.not_mem_nil,
        or_false] at ho
      rcases ho with h | h | h <;> rw [h] <;> rfl
    · simp only [replyBlock, if_true, List.mem_cons, List.not_mem_nil, or_false] at ho
      rcases ho with h | h <;> rw [h] <;> rfl
  have hcol : ∀ b p, ∀ o ∈ replyBlock now b p, ChannelOut.isCollision o = false := by
    intro b p o ho
    cases b
    · simp only [replyBlock, Bool.false_eq_true, if_false, List.mem_cons, List.not_mem_nil,
        or_false] at ho
      rcases ho with h | h | h <;> rw [h] <;> rfl
    · simp only [replyBlock, if_true, List.mem_cons, List.not_mem_nil, or_false] at ho
      rcases ho with h | h <;> rw [h] <;> rfl
  refine ⟨_, _, _, List.replicate (collidedChannels N pkts) (ChannelOut.emitCollision 1),
    ChannelOut.emitThroughput (throughputOf N pkts)
      :: (silentGates par.numTransmitters pkts).map
          (fun (g : Nat) => ChannelOut.send_tx MsgName.TRIGGER (g : Int))
      ++ [ChannelOut.scheduleAt (now + par.timeSlotSize)],
    h1, h2, by simp, by simp, fun p => (collides_perm pkts pkts1 hperm p).symm,
    fun o ho => (hside o ho).1, ?_, ?_, ?_⟩
  · simp only [List.filter_append, hblock _ _ hthr]
  · simp only [List.countP_eq_length_filter, List.filter_append, hblock _ _ hcol]
  · simp only [List.filter_append]
    apply List.Perm.append_right
    apply List.Perm.append_left
    apply List.Perm.append_right
    exact List.Perm.filter _ (List.Perm.flatMap_right _ hperm)

/-- Witness for claim C16, at `demoThree` and its reversal. -/
theorem C16_witness :
    demoThree.Perm demoThree.reverse ∧ ChannelsInRange 2 demoThree ∧
    GatesInRange demoChannelPar.numTransmitters demoThree ∧
    ∃ st outs outs1 before after,
      Channel.handleMessage demoChannelPar 100
          { isCollided_ := List.replicate 2 false, packetsOfSlot_ := demoThree }
          ChannelMsg.timeSlotTrigger = some (st, outs) ∧
      Channel.handleMessage demoChannelPar 100
          { isCollided_ := List.replicate 2 false, packetsOfSlot_ := demoThree.reverse }
          ChannelMsg.timeSlotTrigger = some (st, outs1) ∧
      outs = before
        ++ demoThree.flatMap (fun p => replyBlock 100 (collides demoThree p) p) ++ after ∧
      outs1 = before
        ++ demoThree.reverse.flatMap (fun p => replyBlock 100 (collides demoThree p) p)
        ++ after ∧
      (∀ p, collides demoThree.reverse p = collides demoThree p) ∧
      (∀ o ∈ before ++ after, ChannelOut.isOutcome o = false) ∧
      outs.filter ChannelOut.isThroughput = outs1.filter ChannelOut.isThroughput ∧
      outs.countP ChannelOut.isCollision = outs1.countP ChannelOut.isCollision ∧
      (outs.filter ChannelOut.isOutcome).Perm (outs1.filter ChannelOut.isOutcome) :=
  ⟨(List.reverse_perm demoThree).symm, by decide, by decide,
    C16_order_independent demoChannelPar 100 2 demoThree demoThree.reverse
      (List.reverse_perm demoThree).symm (by decide) (by decide)⟩

/-- The loop of `findCollisions` returns as many flags as it was given. -/
theorem findCollisionsLoop_length :
    ∀ (pkts : List PacketMsg) (n : List Nat) (flags r : List Bool) (outs : List ChannelOut),
      findCollisionsLoop pkts n flags = some (r, outs) → r.length = flags.length := by
  intro pkts
  induction pkts with
  | nil =>
    intro n flags r outs h
    simp only [findCollisionsLoop, Option.some.injEq, Prod.mk.injEq] at h
    rw [← h.1]
  | cons p rest ih =>
    intro n flags r outs h
    simp only [findCollisionsLoop, Option.bind_eq_bind, Option.bind_eq_some] at h
    obtain ⟨c, _, h⟩ := h
    by_cases hc : c = 1
    · rw [if_pos hc] at h
      simp only [Option.bind_eq_bind, Option.bind_eq_some, Option.pure_def, Option.some.injEq,
        Prod.mk.injEq] at h
      obtain ⟨fl, hfl, n1, _, ⟨r1, o1⟩, hrec, hr, _⟩ := h
      rw [← hr, ih n1 fl r1 o1 hrec, vecSet?_length _ _ _ _ hfl]
    · rw [if_neg hc] at h
      simp only [Option.bind_eq_bind, Option.bind_eq_some] at h
      obtain ⟨n1, _, hrec⟩ := h
      exact ih n1 flags r outs hrec

/-- Whatever the state before, a slot resolution that returns leaves no attempt
and as many flags as before, all false. -/
theorem resolve_clears (par : ChannelPar) (now : Int) (st s1 : Channel)
    (outs : List ChannelOut)
    (h : Channel.handleMessage par now st ChannelMsg.timeSlotTrigger = some (s1, outs)) :
    s1 = { isCollided_ := List.replicate st.isCollided_.length false, packetsOfSlot_ := [] } := by
  simp only [Channel.handleMessage, Option.bind_eq_bind, Option.bind_eq_some, Option.pure_def,
    Option.some.injEq, Prod.mk.injEq] at h
  obtain ⟨⟨a, oa⟩, hf, ⟨b, ob⟩, ht, hb, _⟩ := h
  simp only [findCollisions, Option.bind_eq_bind, Option.bind_eq_some, Option.pure_def,
    Option.some.injEq, Prod.mk.injEq] at hf
  obtain ⟨⟨fl, o⟩, hloop, ha, _⟩ := hf
  simp only [transmission, Option.bind_eq_bind, Option.bind_eq_some, Option.pure_def,
    Option.some.injEq, Prod.mk.injEq] at ht
  obtain ⟨⟨tr, n, o2⟩, _, hb2, _⟩ := ht
  rw [← hb, ← hb2, ← ha]
  simp only
  rw [findCollisionsLoop_length _ _ _ _ _ hloop]

/-- Along any run from a state with all flags false, the flags stay all false
and the attempt set is the list of attempts received since the last timer. -/
theorem run_invariant (par : ChannelPar) (N : Nat) :
    ∀ (msgs : List (Int × ChannelMsg)) (acc : List PacketMsg) (st : Channel)
      (outs : List ChannelOut),
      Channel.run par { isCollided_ := List.replicate N false, packetsOfSlot_ := acc } msgs
          = some (st, outs) →
        st = { isCollided_ := List.replicate N false,
               packetsOfSlot_ := pendingAttempts acc msgs } := by
  intro msgs
  induction msgs with
  | nil =>
    intro acc st outs h
    simp only [Channel.run, Option.some.injEq, Prod.mk.injEq] at h
    rw [← h.1]; rfl
  | cons m rest ih =>
    intro acc st outs h
    obtain ⟨t, m⟩ := m
    simp only [Channel.run, Option.bind_eq_bind, Option.bind_eq_some, Option.pure_def,
      Option.some.injEq, Prod.mk.injEq] at h
    obtain ⟨⟨s1, o1⟩, hstep, ⟨s2, o2⟩, hrun, hs, _⟩ := h
    cases m with
    | timeSlotTrigger =>
      have hc := resolve_clears par t _ s1 o1 hstep
      simp only [List.length_replicate] at hc
      rw [hc] at hrun
      rw [← hs, ih [] s2 o2 hrun]; rfl
    | packet pkt g =>
      simp only [Channel.handleMessage, Option.some.injEq, Prod.mk.injEq] at hstep
      rw [← hstep.1] at hrun
      rw [← hs, ih _ s2 o2 hrun]; rfl

/-- Claim C17. A slot resolution that returns, from whatever state, leaves the
attempt set empty, every flag false and the number of flags unchanged. With a
positive sub-channel count `Channel::initialize` returns, and after any sequence
of slot timers and attempts handled from there, every flag is false, the number
of flags is the configured sub-channel count, and the attempt set holds exactly
the attempts received since the last slot timer; and the resolution of the next
slot is the resolution of that attempt list from fresh flags, whatever happened
in the slots before. -/
theorem C17_reset_each_slot (par : ChannelPar) (now0 : Int) (h : 0 < par.numChannels) :
    (∀ (now : Int) (st s1 : Channel) (outs : List ChannelOut),
      Channel.handleMessage par now st ChannelMsg.timeSlotTrigger = some (s1, outs) →
        s1.packetsOfSlot_ = [] ∧ (∀ b ∈ s1.isCollided_, b = false) ∧
        s1.isCollided_.length = st.isCollided_.length) ∧
    (∃ st0 outs0, Channel.initialize par now0 = Except.ok (st0, outs0)) ∧
    ∀ (st0 : Channel) (outs0 : List ChannelOut),
      Channel.initialize par now0 = Except.ok (st0, outs0) →
      ∀ (msgs : List (Int × ChannelMsg)) (st : Channel) (outs : List ChannelOut),
        Channel.run par st0 msgs = some (st, outs) →
          (∀ b ∈ st.isCollided_, b = false) ∧
          ((st.isCollided_.length : Nat) : Int) = par.numChannels ∧
          st.packetsOfSlot_ = pendingAttempts [] msgs ∧
          ∀ now : Int,
            Channel.handleMessage par now st ChannelMsg.timeSlotTrigger
              = Channel.handleMessage par now
                  { isCollided_ := List.replicate par.numChannels.toNat false,
                    packetsOfSlot_ := pendingAttempts [] msgs }
                  ChannelMsg.timeSlotTrigger := by
  refine ⟨?_, ⟨_, _, Channel_initialize_ok par now0 h⟩, ?_⟩
  · intro now st s1 outs hs
    rw [resolve_clears par now st s1 outs hs]
    exact ⟨rfl, fun b hb => (List.mem_replicate.mp hb).2, by simp⟩
  · intro st0 outs0 hinit msgs st outs hrun
    rw [Channel_initialize_ok par now0 h] at hinit
    simp only [Except.ok.injEq, Prod.mk.injEq] at hinit
    rw [← hinit.1] at hrun
    have hst := run_invariant par par.numChannels.toNat msgs [] st outs hrun
    rw [hst]
    refine ⟨fun b hb => (List.mem_replicate.mp hb).2, ?_, rfl, fun _ => rfl⟩
    simp only [List.length_replicate]
    omega

/-- Witness for claim C17, at `demoTwoSlots`: after a resolved slot and one new
attempt the Channel of `demoChannelPar` holds that attempt only, under two false
flags. -/
theorem C17_witness :
    0 < demoChannelPar.numChannels ∧
    Channel.initialize demoChannelPar 0
      = Except.ok (⟨[false, false], []⟩, [ChannelOut.scheduleAt 10]) ∧
    Channel.run demoChannelPar ⟨[false, false], []⟩ demoTwoSlots
      = some (⟨[false, false], [⟨5, 2, 1, 2⟩]⟩,
          [ChannelOut.send_tx MsgName.ACK 0, ChannelOut.send_rx ⟨3, 0, 0, 0⟩ 0,
           ChannelOut.emitWholeResponseTime 97,
           ChannelOut.send_tx MsgName.ACK 1, ChannelOut.send_rx ⟨4, 1, 1, 1⟩ 1,
           ChannelOut.emitWholeResponseTime 96,
           ChannelOut.emitThroughput 2, ChannelOut.send_tx MsgName.TRIGGER 2,
           ChannelOut.scheduleAt 110]) ∧
    (∀ b ∈ [false, false], b = false) ∧
    (([false, false].length : Nat) : Int) = demoChannelPar.numChannels ∧
    [(⟨5, 2, 1, 2⟩ : PacketMsg)] = pendingAttempts [] demoTwoSlots ∧
    ∀ now : Int,
      Channel.handleMessage demoChannelPar now ⟨[false, false], [⟨5, 2, 1, 2⟩]⟩
          ChannelMsg.timeSlotTrigger
        = Channel.handleMessage demoChannelPar now
            { isCollided_ := List.replicate demoChannelPar.numChannels.toNat false,
              packetsOfSlot_ := pendingAttempts [] demoTwoSlots }
            ChannelMsg.timeSlotTrigger :=
  ⟨by decide, rfl, by decide,
    (C17_reset_each_slot demoChannelPar 0 (by decide)).2.2 ⟨[false, false], []⟩
      [ChannelOut.scheduleAt 10] rfl demoTwoSlots ⟨[false, false], [⟨5, 2, 1, 2⟩]⟩
      [ChannelOut.send_tx MsgName.ACK 0, ChannelOut.send_rx ⟨3, 0, 0, 0⟩ 0,
       ChannelOut.emitWholeResponseTime 97,
       ChannelOut.send_tx MsgName.ACK 1, ChannelOut.send_rx ⟨4, 1, 1, 1⟩ 1,
       ChannelOut.emitWholeResponseTime 96,
       ChannelOut.emitThroughput 2, ChannelOut.send_tx MsgName.TRIGGER 2,
       ChannelOut.scheduleAt 110] (by decide)⟩

/-! ## Transmitter: the claims, second part -/

/-- Where doubling cannot overflow, a feedback step keeps the counter at 0 or
above and the window bound at 2 or above, and a freshly drawn counter lies in
`[1, maxBackoffTime]`. -/
theorem backoff_bounds_step (par : TransmitterPar) (d : Draws) (st s1 : Transmitter)
    (name : MsgName) (outs : List TransmitterOut) (hd : d.BackoffInRange)
    (h0 : 0 ≤ st.backoffTime) (h2 : 2 ≤ st.maxBackoffTime)
    (hlt : st.maxBackoffTime < 1073741824)
    (h : handleChannelPacket par d st name = some (s1, outs)) :
    0 ≤ s1.backoffTime ∧ 2 ≤ s1.maxBackoffTime ∧
    (∀ a b rng r, TransmitterOut.drawIntuniform a b rng r ∈ outs → rng = 1 →
      s1.backoffTime = r ∧ 1 ≤ r ∧ r ≤ s1.maxBackoffTime) := by
  unfold handleChannelPacket at h
  by_cases c1 : st.backoffTime > 0 ∧ par.isBackoff = true
  · rw [if_pos c1] at h
    simp only [Option.some.injEq, Prod.mk.injEq] at h
    obtain ⟨rfl, rfl⟩ := h
    refine ⟨?_, h2, ?_⟩
    · show 0 ≤ st.backoffTime - 1
      omega
    · intro a b rng r hm; cases hm
  · by_cases c2 : name = MsgName.NACK ∧ par.isBackoff = true
    · rw [if_neg c1, if_pos c2] at h
      simp only [Option.some.injEq, Prod.mk.injEq] at h
      obtain ⟨rfl, rfl⟩ := h
      have hw : wrapInt32 (st.maxBackoffTime * 2) = 2 * st.maxBackoffTime := by
        rw [wrapInt32_of_range _ (by omega) (by omega)]; ring
      have hr := hd 1 (2 * st.maxBackoffTime) (by omega)
      refine ⟨?_, ?_, ?_⟩
      · show 0 ≤ d.backoff 1 (wrapInt32 (st.maxBackoffTime * 2))
        rw [hw]; omega
      · show 2 ≤ wrapInt32 (st.maxBackoffTime * 2)
        rw [hw]; omega
      · intro a b rng r hm _
        simp only [List.mem_singleton, TransmitterOut.drawIntuniform.injEq] at hm
        obtain ⟨_, _, _, hr4⟩ := hm
        subst hr4
        refine ⟨rfl, ?_, ?_⟩
        · rw [hw]; exact hr.1
        · show d.backoff 1 (wrapInt32 (st.maxBackoffTime * 2)) ≤ wrapInt32 (st.maxBackoffTime * 2)
          rw [hw]; exact hr.2
    · have hnodraw : ∀ s0 : Transmitter, ∀ a b rng r,
          TransmitterOut.drawIntuniform a b rng r ∈ (bernoulliAttempt par d s0).2 → rng ≠ 1 := by
        intro s0 a b rng r hm
        unfold bernoulliAttempt at hm
        cases hb : s0.buffer with
        | nil => simp [hb] at hm
        | cons p t =>
          by_cases hu : d.bernoulli < s0.sendProbability
          · cases hc : par.changeOfChannelAfterCollision <;> simp [hb, hu, hc] at hm
            omega
          · simp [hb, hu] at hm
      by_cases c3 : name = MsgName.ACK
      · rw [if_neg c1, if_neg c2, if_pos c3] at h
        cases hb : st.buffer with
        | nil => simp [hb] at h
        | cons p t =>
          simp only [hb, Option.some.injEq, Prod.mk.injEq] at h
          obtain ⟨rfl, rfl⟩ := h
          obtain ⟨f1, f2, _⟩ := bernoulliAttempt_frame par d
            { st with buffer := t, maxBackoffTime := 2 }
          refine ⟨by rw [f2]; exact h0, by rw [f1], ?_⟩
          intro a b rng r hm hrng
          rcases List.mem_cons.mp hm with h | h
          · cases h
          · exact absurd hrng (hnodraw _ a b rng r h)
      · rw [if_neg c1, if_neg c2, if_neg c3] at h
        simp only [Option.some.injEq] at h
        obtain ⟨f1, f2, _⟩ := bernoulliAttempt_frame par d st
        rw [h] at f1 f2
        refine ⟨by rw [f2]; exact h0, by rw [f1]; exact h2, ?_⟩
        intro a b rng r hm hrng
        have := hnodraw st a b rng r (by rw [h]; exact hm)
        exact absurd hrng this

set_option maxRecDepth 100000 in
/-- Claim C12, at the input where the code departs from it. The station of
`demoPar`, started by `Transmitter::initialize`, receives one arrival and then
collides thirty times in a row (`demoThirtyCollisions`). The state it reaches has
window bound `-2147483648`, which is not `≥ 2`: the thirtieth NACK finds the bound
`2 ^ 30` and the 32-bit doubling wraps. The counter drawn by that NACK, here the
lower end 1 of the requested range `[1, -2147483648]`, is not `≤` the window
bound. -/
theorem C12_window_negative :
    (Transmitter.run demoPar ( Transmitter.initialize demoPar 0 demoDraws).1
        demoThirtyCollisions).map Prod.fst = some demoNegativeWindowState ∧
    Reachable demoPar demoNegativeWindowState ∧
    demoNegativeWindowState.maxBackoffTime = -2147483648 ∧
    ¬ (2 ≤ demoNegativeWindowState.maxBackoffTime) ∧
    handleChannelPacket demoPar demoDraws demoOverflowState MsgName.NACK
      = some (demoNegativeWindowState,
          [TransmitterOut.drawIntuniform 1 (-2147483648) 1 1]) ∧
    ¬ (demoNegativeWindowState.backoffTime ≤ demoNegativeWindowState.maxBackoffTime) := by
  have hrun : (Transmitter.run demoPar ( Transmitter.initialize demoPar 0 demoDraws).1
      demoThirtyCollisions).map Prod.fst = some demoNegativeWindowState := by decide
  exact ⟨hrun, reachable_of_run demoPar demoThirtyCollisions _ _ (Reachable.init 0 demoDraws) hrun,
    rfl, by decide, by decide, by decide⟩

/-- Claim C13. In every station state with an empty buffer, handling a PROMPT
(the message named TRIGGER) returns with no action at all: in particular no draw
from the uniform stream, so no Bernoulli trial, and nothing sent; the buffer
stays empty and the window bound is unchanged. -/
theorem C13_prompt_on_empty_buffer (par : TransmitterPar) (d : Draws) (st : Transmitter)
    (hbuf : st.buffer = []) :
    ∃ s1 outs, handleChannelPacket par d st MsgName.TRIGGER = some (s1, outs) ∧
      outs = [] ∧
      (∀ o ∈ outs, TransmitterOut.isUniformDraw o = false ∧ TransmitterOut.isSend o = false) ∧
      s1.buffer = [] ∧ s1.maxBackoffTime = st.maxBackoffTime := by
  unfold handleChannelPacket
  by_cases c1 : st.backoffTime > 0 ∧ par.isBackoff = true
  · rw [if_pos c1]
    exact ⟨_, _, rfl, rfl, by simp, hbuf, rfl⟩
  · have c2 : ¬ (MsgName.TRIGGER = MsgName.NACK ∧ par.isBackoff = true) := by simp
    have c3 : ¬ (MsgName.TRIGGER = MsgName.ACK) := by simp
    rw [if_neg c1, if_neg c2, if_neg c3]
    have hb : bernoulliAttempt par d st = (st, []) := by
      unfold bernoulliAttempt
      rw [hbuf]
    rw [hb]
    exact ⟨_, _, rfl, rfl, by simp, hbuf, rfl⟩

/-- Witness for claim C13, at the initial state of the station of `demoPar`. -/
theorem C13_witness :
    ({ demoState with buffer := [] } : Transmitter).buffer = [] ∧
    ∃ s1 outs,
      handleChannelPacket demoPar demoDraws { demoState with buffer := [] } MsgName.TRIGGER
        = some (s1, outs) ∧
      outs = [] ∧
      (∀ o ∈ outs, TransmitterOut.isUniformDraw o = false ∧ TransmitterOut.isSend o = false) ∧
      s1.buffer = [] ∧
      s1.maxBackoffTime = ({ demoState with buffer := [] } : Transmitter).maxBackoffTime :=
  ⟨rfl, C13_prompt_on_empty_buffer demoPar demoDraws { demoState with buffer := [] } rfl⟩

/-- The two actions of `scheduleNextPacket`, with the arrival time written as
`now + interArrivalTime`. -/
theorem scheduleNextPacket_eq (par : TransmitterPar) (now : Int) (d : Draws) (st : Transmitter) :
    scheduleNextPacket par now d st
      = [TransmitterOut.drawExponential st.meanInterarrivalTime 0
            (d.exponential st.meanInterarrivalTime),
          TransmitterOut.scheduleAt (now + interArrivalTime par d st)
            { PacketMsg.fresh with creationTime := now + interArrivalTime par d st }] := by
  simp [scheduleNextPacket, interArrivalTime, add_comm]

/-- Claim C15. Let the arrival event `m` be delivered at time `t`, the time
`scheduleNextPacket` scheduled it for (the time of that call plus the
inter-arrival time). In every station state, handling it returns and appends
exactly one packet `pkt` to the buffer, the packets already there unchanged: the
buffer length grows by one, the creation time of `pkt` is `t`, its station
identifier is the id of this station and, under the assign-at-arrival policy,
its sub-channel index is the value of `intuniform(0, numChannels - 1, 2)`, which
lies in `[0, numChannels - 1]` when that range is not empty and the stream keeps
its contract. Counter and window bound are unchanged, nothing is sent to the
Channel, and exactly one next arrival is scheduled, for `t` plus the
inter-arrival time. -/
theorem C15_arrival_event (par : TransmitterPar) (t : Int) (m : PacketMsg)
    (hs : ScheduledArrival par t m) (d : Draws) (st : Transmitter) :
    ∃ pkt s1 outs,
      Transmitter.handleMessage par t d st (TransmitterMsg.arrival m) = some (s1, outs) ∧
      s1.buffer = st.buffer ++ [pkt] ∧
      s1.buffer.length = st.buffer.length + 1 ∧
      pkt.creationTime = t ∧ pkt.idTransmitter = par.id ∧
      (par.changeOfChannelAfterCollision = false →
        pkt.idChannel = d.channel 0 (st.numChannels - 1) ∧
        (1 ≤ st.numChannels → d.ChannelInRange →
          0 ≤ pkt.idChannel ∧ pkt.idChannel ≤ st.numChannels - 1)) ∧
      s1.backoffTime = st.backoffTime ∧ s1.maxBackoffTime = st.maxBackoffTime ∧
      (∀ o ∈ outs, TransmitterOut.isSend o = false) ∧
      outs.filter TransmitterOut.isSchedule
        = [TransmitterOut.scheduleAt (t + interArrivalTime par d st)
            { PacketMsg.fresh with creationTime := t + interArrivalTime par d st }] := by
  obtain ⟨now0, d0, st0, hmem, ht⟩ := hs
  have hm : m.creationTime = t := by
    rw [scheduleNextPacket_eq] at hmem
    simp only [List.mem_cons, List.mem_singleton, TransmitterOut.scheduleAt.injEq,
      List.not_mem_nil, or_false] at hmem
    rcases hmem with h | h
    · cases h
    · rw [h.2, ht]
  cases hc : par.changeOfChannelAfterCollision
  · refine ⟨{ m with idTransmitter := par.id, idChannel := d.channel 0 (st.numChannels - 1) },
      (handleArrivedPacket par t d st m).1,
      (handleArrivedPacket par t d st m).2 ++ [TransmitterOut.emitNumPacketOnBuffer
        ((handleArrivedPacket par t d st m).1.buffer.length : Nat)],
      rfl, ?_, ?_, hm, rfl, ?_, ?_, ?_, ?_, ?_⟩
    · simp [handleArrivedPacket, hc]
    · simp [handleArrivedPacket, hc]
    · intro _
      exact ⟨rfl, fun h1 hd => hd 0 (st.numChannels - 1) (by omega)⟩
    · simp [handleArrivedPacket, hc]
    · simp [handleArrivedPacket, hc]
    · intro o ho
      simp only [handleArrivedPacket, hc, scheduleNextPacket_eq, List.mem_append, List.mem_cons,
        List.mem_singleton, List.not_mem_nil, or_false, Bool.false_eq_true, if_false] at ho
      rcases ho with (h | h | h | h) | h <;> rw [h] <;> rfl
    · simp [handleArrivedPacket, hc, scheduleNextPacket_eq, TransmitterOut.isSchedule,
        interArrivalTime]
  · refine ⟨{ m with idTransmitter := par.id },
      (handleArrivedPacket par t d st m).1,
      (handleArrivedPacket par t d st m).2 ++ [TransmitterOut.emitNumPacketOnBuffer
        ((handleArrivedPacket par t d st m).1.buffer.length : Nat)],
      rfl, ?_, ?_, hm, rfl, ?_, ?_, ?_, ?_, ?_⟩
    · simp [handleArrivedPacket, hc]
    · simp [handleArrivedPacket, hc]
    · intro h; cases h
    · simp [handleArrivedPacket, hc]
    · simp [handleArrivedPacket, hc]
    · intro o ho
      simp only [handleArrivedPacket, hc, scheduleNextPacket_eq, List.mem_append, List.mem_cons,
        List.mem_singleton, List.not_mem_nil, or_false, if_true] at ho
      rcases ho with (h | h | h) | h <;> rw [h] <;> rfl
    · simp [handleArrivedPacket, hc, scheduleNextPacket_eq, TransmitterOut.isSchedule,
        interArrivalTime]

/-- Witness for claim C15: the first arrival of the station of `demoPar`, scheduled
at time 0 for time 1000 and handled in the initial state. -/
theorem C15_witness :
    ScheduledArrival demoPar 1000 { PacketMsg.fresh with creationTime := 1000 } ∧
    ∃ pkt s1 outs,
      Transmitter.handleMessage demoPar 1000 demoDraws { demoState with buffer := [] }
          (TransmitterMsg.arrival { PacketMsg.fresh with creationTime := 1000 })
        = some (s1, outs) ∧
      s1.buffer = ({ demoState with buffer := [] } : Transmitter).buffer ++ [pkt] ∧
      s1.buffer.length = ({ demoState with buffer := [] } : Transmitter).buffer.length + 1 ∧
      pkt.creationTime = 1000 ∧ pkt.idTransmitter = demoPar.id ∧
      (demoPar.changeOfChannelAfterCollision = false →
        pkt.idChannel
          = demoDraws.channel 0 (({ demoState with buffer := [] } : Transmitter).numChannels - 1) ∧
        (1 ≤ ({ demoState with buffer := [] } : Transmitter).numChannels →
          demoDraws.ChannelInRange →
          0 ≤ pkt.idChannel ∧
          pkt.idChannel ≤ ({ demoState with buffer := [] } : Transmitter).numChannels - 1)) ∧
      s1.backoffTime = ({ demoState with buffer := [] } : Transmitter).backoffTime ∧
      s1.maxBackoffTime = ({ demoState with buffer := [] } : Transmitter).maxBackoffTime ∧
      (∀ o ∈ outs, TransmitterOut.isSend o = false) ∧
      outs.filter TransmitterOut.isSchedule
        = [TransmitterOut.scheduleAt
            (1000 + interArrivalTime demoPar demoDraws { demoState with buffer := [] })
            { PacketMsg.fresh with
              creationTime :=
                1000 + interArrivalTime demoPar demoDraws { demoState with buffer := [] } }] :=
  have hs : ScheduledArrival demoPar 1000 { PacketMsg.fresh with creationTime := 1000 } :=
    ⟨0, demoDraws, { demoState with buffer := [] }, by decide, by decide⟩
  ⟨hs, C15_arrival_event demoPar 1000 { PacketMsg.fresh with creationTime := 1000 } hs
    demoDraws { demoState with buffer := [] }⟩

/-- During the countdown a feedback signal of any kind only decrements the
counter. -/
theorem countdown_step (par : TransmitterPar) (d : Draws) (st : Transmitter) (name : MsgName)
    (hb : par.isBackoff = true) (hpos : 0 < st.backoffTime) :
    handleChannelPacket par d st name
      = some ({ st with backoffTime := st.backoffTime - 1 }, []) := by
  simp [handleChannelPacket, hpos, hb]

/-- As many feedback signals as the counter allows only decrement the counter,
one each. -/
theorem countdown_run (par : TransmitterPar) (hb : par.isBackoff = true) :
    ∀ (events : List TxEvent) (st : Transmitter),
      (∀ e ∈ events, e.isFeedback = true) →
      (events.length : Int) ≤ st.backoffTime →
      Transmitter.run par st events
        = some ({ st with backoffTime := st.backoffTime - (events.length : Int) }, []) := by
  intro events
  induction events with
  | nil => intro st _ _; simp [Transmitter.run]
  | cons e rest ih =>
    intro st hfb hlen
    have he : e.isFeedback = true := hfb e (List.mem_cons_self _ _)
    simp only [List.length_cons, Nat.cast_add, Nat.cast_one] at hlen
    have hpos : 0 < st.backoffTime := by omega
    cases hm : e.msg with
    | arrival pkt => simp [TxEvent.isFeedback, hm] at he
    | feedback name =>
      have hrest := ih { st with backoffTime := st.backoffTime - 1 }
        (fun x hx => hfb x (List.mem_cons_of_mem _ hx)) (by simp; omega)
      simp only [Transmitter.run, hm, Transmitter.handleMessage,
        countdown_step par e.draws st name hb hpos, Option.bind_eq_bind, Option.some_bind, hrest,
        Option.pure_def, List.nil_append, List.length_cons, Nat.cast_add, Nat.cast_one]
      congr 3
      omega

/-- Claim C18. With back-off enabled, from a station state with counter `k > 0`,
let `k` feedback signals of any kinds be handled. After the first `j` of them
(`j ≤ k`) the state is the initial one with the counter lowered by exactly `j`,
and no action was performed: no attempt, no removal from the buffer, no change
of the window bound, no random draw. So the counter is still positive after
fewer than `k` signals and is exactly 0 after the `k`-th. -/
theorem C18_countdown (par : TransmitterPar) (st : Transmitter) (events : List TxEvent)
    (hb : par.isBackoff = true) (hpos : 0 < st.backoffTime)
    (hfb : ∀ e ∈ events, e.isFeedback = true)
    (hlen : (events.length : Int) = st.backoffTime) :
    0 < events.length ∧
    (∀ j : Nat, j ≤ events.length →
      Transmitter.run par st (events.take j)
        = some ({ st with backoffTime := st.backoffTime - (j : Int) }, [])) ∧
    (∀ j : Nat, j < events.length → 0 < st.backoffTime - (j : Int)) ∧
    Transmitter.run par st events = some ({ st with backoffTime := 0 }, []) := by
  refine ⟨by omega, ?_, ?_, ?_⟩
  · intro j hj
    have := countdown_run par hb (events.take j) st
      (fun e he => hfb e (List.mem_of_mem_take he))
      (by rw [List.length_take, Nat.min_eq_left hj]; omega)
    rw [this, List.length_take, Nat.min_eq_left hj]
  · intro j hj
    omega
  · have := countdown_run par hb events st hfb (by omega)
    rw [this, hlen]
    simp

/-- Witness for claim C18, at `demoCountdownState` (counter 2) and the signals
ACK, NACK. -/
theorem C18_witness :
    demoPar.isBackoff = true ∧ 0 < demoCountdownState.backoffTime ∧
    (∀ e ∈ demoTwoSignals, e.isFeedback = true) ∧
    ((demoTwoSignals.length : Nat) : Int) = demoCountdownState.backoffTime ∧
    0 < demoTwoSignals.length ∧
    (∀ j : Nat, j ≤ demoTwoSignals.length →
      Transmitter.run demoPar demoCountdownState (demoTwoSignals.take j)
        = some ({ demoCountdownState with
                  backoffTime := demoCountdownState.backoffTime - (j : Int) }, [])) ∧
    (∀ j : Nat, j < demoTwoSignals.length → 0 < demoCountdownState.backoffTime - (j : Int)) ∧
    Transmitter.run demoPar demoCountdownState demoTwoSignals
      = some ({ demoCountdownState with backoffTime := 0 }, []) :=
  ⟨rfl, by decide, by decide, by decide,
    C18_countdown demoPar demoCountdownState demoTwoSignals rfl (by decide) (by decide)
      (by decide)⟩

/-- With back-off disabled the window bound stays at its initial value 2. -/
theorem maxBackoffTime_two_of_disabled (par : TransmitterPar) (s : Transmitter)
    (hr : Reachable par s) (hb : par.isBackoff = false) : s.maxBackoffTime = 2 := by
  induction hr with
  | init now d => rfl
  | step s s1 now d msg outs _ hstep ih =>
    cases msg with
    | arrival pkt =>
      simp only [Transmitter.handleMessage, Option.some.injEq, Prod.mk.injEq] at hstep
      rw [← hstep.1, (handleArrivedPacket_frame par now d s pkt).1, ih]
    | feedback name =>
      simp only [Transmitter.handleMessage] at hstep
      unfold handleChannelPacket at hstep
      have c1 : ¬ (s.backoffTime > 0 ∧ par.isBackoff = true) := by simp [hb]
      have c2 : ¬ (name = MsgName.NACK ∧ par.isBackoff = true) := by simp [hb]
      rw [if_neg c1, if_neg c2] at hstep
      by_cases c3 : name = MsgName.ACK
      · rw [if_pos c3] at hstep
        cases hbuf : s.buffer with
        | nil => simp [hbuf] at hstep
        | cons p t =>
          simp only [hbuf, Option.some.injEq, Prod.mk.injEq] at hstep
          rw [← hstep.1, (bernoulliAttempt_frame par d _).1]
      · rw [if_neg c3] at hstep
        simp only [Option.some.injEq] at hstep
        have h1 : s1 = (bernoulliAttempt par d s).1 := by rw [hstep]
        rw [h1, (bernoulliAttempt_frame par d _).1]
        exact ih

/-- With back-off disabled a NACK and a PROMPT run the same code: the Bernoulli
experiment on the buffer as it is. -/
theorem nack_eq_prompt_of_disabled (par : TransmitterPar) (d : Draws) (st : Transmitter)
    (hb : par.isBackoff = false) :
    handleChannelPacket par d st MsgName.NACK = some (bernoulliAttempt par d st) ∧
    handleChannelPacket par d st MsgName.TRIGGER = some (bernoulliAttempt par d st) := by
  unfold handleChannelPacket
  have c1 : ¬ (st.backoffTime > 0 ∧ par.isBackoff = true) := by simp [hb]
  constructor
  · have c2 : ¬ (MsgName.NACK = MsgName.NACK ∧ par.isBackoff = true) := by simp [hb]
    have c3 : ¬ (MsgName.NACK = MsgName.ACK) := by simp
    rw [if_neg c1, if_neg c2, if_neg c3]
  · have c2 : ¬ (MsgName.TRIGGER = MsgName.NACK ∧ par.isBackoff = true) := by simp
    have c3 : ¬ (MsgName.TRIGGER = MsgName.ACK) := by simp
    rw [if_neg c1, if_neg c2, if_neg c3]

/-- The Bernoulli block sends exactly when the buffer is not empty and the draw is
below the send probability, and what it sends is the head of the buffer it
leaves. -/
theorem bernoulliAttempt_sends (par : TransmitterPar) (d : Draws) (st : Transmitter) :
    ((∃ p, TransmitterOut.send p ∈ (bernoulliAttempt par d st).2) ↔
      (st.buffer ≠ [] ∧ d.bernoulli < st.sendProbability)) ∧
    (∀ p, TransmitterOut.send p ∈ (bernoulliAttempt par d st).2 →
      (bernoulliAttempt par d st).1.buffer.head? = some p ∧
      ((bernoulliAttempt par d st).2.filter TransmitterOut.isSend = [TransmitterOut.send p])) := by
  unfold bernoulliAttempt
  cases hb : st.buffer with
  | nil => simp
  | cons h t =>
    by_cases hu : d.bernoulli < st.sendProbability
    · cases hc : par.changeOfChannelAfterCollision <;>
        simp [hu, hb, TransmitterOut.isSend]
    · simp [hu, TransmitterOut.isSend]

/-- Claim C20, amended. With the back-off flag disabled: in every station state
reachable from `Transmitter::initialize` the counter is 0 and the window bound
is 2; in every state a NACK is handled exactly like a PROMPT (same resulting
state, same actions); handling it returns, removes nothing from the buffer and
leaves the buffered packets and their order unchanged, except that under the
assign-at-attempt policy an attempt re-draws the sub-channel index of the head
packet in place (under the assign-at-arrival policy the buffer is unchanged);
counter and window bound are unchanged, and the station proceeds to the
Bernoulli trial on the same head packet: it attempts, in that very slot, exactly
when the buffer is not empty and the draw is below the send probability, and
what it sends is the head of its buffer. -/
theorem C20_backoff_disabled (par : TransmitterPar) (hb : par.isBackoff = false) :
    (∀ s, Reachable par s → s.backoffTime = 0 ∧ s.maxBackoffTime = 2) ∧
    (∀ (d : Draws) (st : Transmitter),
      handleChannelPacket par d st MsgName.NACK
        = handleChannelPacket par d st MsgName.TRIGGER) ∧
    (∀ (d : Draws) (st : Transmitter),
      ∃ s1 outs, handleChannelPacket par d st MsgName.NACK = some (s1, outs) ∧
        removedPackets outs = [] ∧
        s1.buffer.map PacketMsg.withoutChannel = st.buffer.map PacketMsg.withoutChannel ∧
        s1.buffer.tail = st.buffer.tail ∧
        (par.changeOfChannelAfterCollision = false → s1.buffer = st.buffer) ∧
        s1.backoffTime = st.backoffTime ∧ s1.maxBackoffTime = st.maxBackoffTime ∧
        ((∃ p, TransmitterOut.send p ∈ outs) ↔
          (st.buffer ≠ [] ∧ d.bernoulli < st.sendProbability)) ∧
        (∀ p, TransmitterOut.send p ∈ outs →
          s1.buffer.head? = some p ∧
          outs.filter TransmitterOut.isSend = [TransmitterOut.send p])) := by
  refine ⟨fun s hr => ⟨backoffTime_zero_of_disabled par s hr hb,
    maxBackoffTime_two_of_disabled par s hr hb⟩, ?_, ?_⟩
  · intro d st
    rw [(nack_eq_prompt_of_disabled par d st hb).1, (nack_eq_prompt_of_disabled par d st hb).2]
  · intro d st
    obtain ⟨h1, h2, h3, h4⟩ := bernoulliAttempt_buffer par d st
    obtain ⟨f1, f2, _⟩ := bernoulliAttempt_frame par d st
    obtain ⟨g1, g2⟩ := bernoulliAttempt_sends par d st
    exact ⟨_, _, (nack_eq_prompt_of_disabled par d st hb).1, h4, h1, h2, h3, f2, f1, g1, g2⟩

/-- Counterexample to claim C20 as stated. The station of
`demoParAtAttemptNoBackoff` (back-off disabled, assign-at-attempt policy) holds the
packet that arrived at time 1000 with sub-channel 0. It handles a NACK by drawing
sub-channel 1 for the buffered head before sending its copy: the buffer after
the NACK differs from the buffer before. -/
theorem C20_counterexample :
    demoParAtAttemptNoBackoff.isBackoff = false ∧
    (Transmitter.run demoParAtAttemptNoBackoff
        ( Transmitter.initialize demoParAtAttemptNoBackoff 0 demoDrawsHigh).1
        demoArrivalHigh).map Prod.fst = some demoStateAtAttempt ∧
    (handleChannelPacket demoParAtAttemptNoBackoff demoDrawsHigh demoStateAtAttempt
        MsgName.NACK).map (fun r => r.1.buffer)
      = some [{ creationTime := 1000, idTransmitter := 7, idChannel := 1, idGate := 0 }] ∧
    [({ creationTime := 1000, idTransmitter := 7, idChannel := 1, idGate := 0 } : PacketMsg)]
      ≠ demoStateAtAttempt.buffer := by
  decide

/-- Witness for claim C20 as amended, at the station of `demoParNoBackoff` holding
one packet: the NACK is answered by a new attempt of the same packet at once. -/
theorem C20_witness :
    demoParNoBackoff.isBackoff = false ∧
    handleChannelPacket demoParNoBackoff demoDraws demoState MsgName.NACK
      = some (demoState,
          [TransmitterOut.drawUniform 3 0,
           TransmitterOut.send
            { creationTime := 1000, idTransmitter := 7, idChannel := 0, idGate := 0 }]) ∧
    handleChannelPacket demoParNoBackoff demoDraws demoState MsgName.NACK
      = handleChannelPacket demoParNoBackoff demoDraws demoState MsgName.TRIGGER :=
  ⟨rfl, by decide, (C20_backoff_disabled demoParNoBackoff rfl).2.1 demoDraws demoState⟩

/-! ## The composed network: lemmas -/

/-- The Bernoulli block keeps the counter and the sub-channel count, sends at
most one packet, which is then the head of the buffer it leaves, leaves the
buffer as it is under the assign-at-arrival policy, and under the
assign-at-attempt policy sends the value of `intuniform(0, numChannels - 1, 2)`
as sub-channel index. -/
theorem bernoulliAttempt_summary (par : TransmitterPar) (d : Draws) (st : Transmitter) :
    (bernoulliAttempt par d st).1.backoffTime = st.backoffTime ∧
    (bernoulliAttempt par d st).1.numChannels = st.numChannels ∧
    (sentPackets (bernoulliAttempt par d st).2 = [] ∨
      ∃ p t, sentPackets (bernoulliAttempt par d st).2 = [p] ∧
        (bernoulliAttempt par d st).1.buffer = p :: t) ∧
    (par.changeOfChannelAfterCollision = false →
      (bernoulliAttempt par d st).1.buffer = st.buffer) ∧
    (par.changeOfChannelAfterCollision = true →
      ∀ p ∈ sentPackets (bernoulliAttempt par d st).2,
        p.idChannel = d.channel 0 (st.numChannels - 1)) := by
  unfold bernoulliAttempt
  cases hb : st.buffer with
  | nil => simp [sentPackets, hb]
  | cons h t =>
    by_cases hu : d.bernoulli < st.sendProbability <;>
      cases hc : par.changeOfChannelAfterCollision <;>
      simp [hu, hb, sentPackets]

/-- What a feedback message does to a station, as far as the composed system
goes: the sub-channel count is kept; at most one packet is sent, and then the
station is left not counting down with that packet at the head of its buffer;
under the assign-at-arrival policy no packet enters the buffer; under the
assign-at-attempt policy the packet sent carries the value of
`intuniform(0, numChannels - 1, 2)`. -/
theorem feedback_summary (par : TransmitterPar) (d : Draws) (st s1 : Transmitter)
    (name : MsgName) (outs : List TransmitterOut)
    (h : handleChannelPacket par d st name = some (s1, outs)) :
    s1.numChannels = st.numChannels ∧
    (sentPackets outs = [] ∨
      ∃ p t, sentPackets outs = [p] ∧ s1.buffer = p :: t ∧
        ¬ (s1.backoffTime > 0 ∧ par.isBackoff = true)) ∧
    (par.changeOfChannelAfterCollision = false → ∀ p ∈ s1.buffer, p ∈ st.buffer) ∧
    (par.changeOfChannelAfterCollision = true →
      ∀ p ∈ sentPackets outs, p.idChannel = d.channel 0 (st.numChannels - 1)) := by
  unfold handleChannelPacket at h
  by_cases c1 : st.backoffTime > 0 ∧ par.isBackoff = true
  · rw [if_pos c1] at h
    simp only [Option.some.injEq, Prod.mk.injEq] at h
    obtain ⟨rfl, rfl⟩ := h
    exact ⟨rfl, Or.inl rfl, fun _ p hp => hp, fun _ p hp => by cases hp⟩
  · rw [if_neg c1] at h
    by_cases c2 : name = MsgName.NACK ∧ par.isBackoff = true
    · rw [if_pos c2] at h
      simp only [Option.some.injEq, Prod.mk.injEq] at h
      obtain ⟨rfl, rfl⟩ := h
      exact ⟨rfl, Or.inl rfl, fun _ p hp => hp, fun _ p hp => by cases hp⟩
    · rw [if_neg c2] at h
      by_cases c3 : name = MsgName.ACK
      · rw [if_pos c3] at h
        cases hb : st.buffer with
        | nil => simp [hb] at h
        | cons p0 t0 =>
          simp only [hb, Option.some.injEq, Prod.mk.injEq] at h
          obtain ⟨rfl, rfl⟩ := h
          obtain ⟨b1, b2, b3, b4, b5⟩ := bernoulliAttempt_summary par d
            { st with buffer := t0, maxBackoffTime := 2 }
          refine ⟨b2, ?_, ?_, ?_⟩
          · rcases b3 with b3 | ⟨p, t, hp, hbuf⟩
            · exact Or.inl (by simpa [sentPackets] using b3)
            · refine Or.inr ⟨p, t, by simpa [sentPackets] using hp, hbuf, ?_⟩
              rw [b1]; exact c1
          · intro hc p hp
            rw [b4 hc] at hp
            exact List.mem_cons_of_mem _ hp
          · intro hc p hp
            exact b5 hc p (by simpa [sentPackets] using hp)
      · rw [if_neg c3] at h
        simp only [Option.some.injEq] at h
        obtain ⟨b1, b2, b3, b4, b5⟩ := bernoulliAttempt_summary par d st
        rw [h] at b1 b2 b3 b4 b5
        refine ⟨b2, ?_, ?_, b5⟩
        · rcases b3 with b3 | ⟨p, t, hp, hbuf⟩
          · exact Or.inl b3
          · exact Or.inr ⟨p, t, hp, hbuf, by rw [b1]; exact c1⟩
        · intro hc p hp
          rw [b4 hc] at hp
          exact hp

/-- Attempts that arrive on gate `gate` are appended, stamped with that gate, to
the in-slot attempt set. -/
theorem run_packets (cpar : ChannelPar) (now : Int) (gate : Int) :
    ∀ (ps : List PacketMsg) (ch : Channel),
      Channel.run cpar ch (ps.map (fun p => (now, ChannelMsg.packet p gate)))
        = some ({ ch with packetsOfSlot_ :=
                    ch.packetsOfSlot_ ++ ps.map (fun p => { p with idGate := gate }) }, []) := by
  intro ps
  induction ps with
  | nil => intro ch; simp [Channel.run]
  | cons p rest ih =>
    intro ch
    simp [Channel.run, Channel.handleMessage, ih]

/-- Writing a vector entry does not change the other entries. -/
theorem vecGet?_set_ne {α : Type} (v : List α) (i g : Int) (a : α) (hg : 0 ≤ g)
    (hne : i ≠ g) : vecGet? (v.set g.toNat a) i = vecGet? v i := by
  unfold vecGet?
  by_cases hi : 0 ≤ i
  · rw [if_pos hi, if_pos hi]
    have : g.toNat ≠ i.toNat := by omega
    rw [List.getElem?_set_ne this]
  · rw [if_neg hi, if_neg hi]

/-- Reading a vector entry just written. -/
theorem vecGet?_set_self {α : Type} (v : List α) (g : Int) (a b : α)
    (h : vecGet? v g = some b) : vecGet? (v.set g.toNat a) g = some a := by
  unfold vecGet? at h ⊢
  by_cases hg : 0 ≤ g
  · rw [if_pos hg] at h ⊢
    have hlt : g.toNat < v.length := by
      by_contra hc
      rw [List.getElem?_eq_none (by omega)] at h
      cases h
    rw [List.getElem?_set_self hlt]
  · rw [if_neg hg] at h; cases h

/-- A vector entry that can be read has an index inside the vector. -/
theorem vecGet?_range {α : Type} (v : List α) (g : Int) (b : α)
    (h : vecGet? v g = some b) : 0 ≤ g ∧ g < (v.length : Int) ∧ v[g.toNat]? = some b := by
  unfold vecGet? at h
  by_cases hg : 0 ≤ g
  · rw [if_pos hg] at h
    have hlt : g.toNat < v.length := by
      by_contra hc
      rw [List.getElem?_eq_none (by omega)] at h
      cases h
    exact ⟨hg, by omega, h⟩
  · rw [if_neg hg] at h; cases h


/-! ### The feedback messages of a resolution -/

/-- The feedback messages of two action lists in a row. -/
theorem feedbackOf_append (a b : List ChannelOut) :
    feedbackOf (a ++ b) = feedbackOf a ++ feedbackOf b := by
  induction a with
  | nil => rfl
  | cons x rest ih => cases x <;> simp [feedbackOf, ih]

/-- Collision observations are no feedback messages. -/
theorem feedbackOf_collisions (k : Nat) (v : Int) :
    feedbackOf (List.replicate k (ChannelOut.emitCollision v)) = [] := by
  induction k with
  | zero => rfl
  | succ k ih => simp [List.replicate_succ, feedbackOf, ih]

/-- The feedback messages of the reply blocks: one per attempt, a NACK if it
collided and an ACK otherwise, on the gate of the attempt. -/
theorem feedbackOf_blocks (now : Int) (f : PacketMsg → Bool) (pkts : List PacketMsg) :
    feedbackOf (pkts.flatMap (fun p => replyBlock now (f p) p))
      = pkts.map (fun p => (if f p then MsgName.NACK else MsgName.ACK, p.idGate)) := by
  induction pkts with
  | nil => rfl
  | cons p rest ih =>
    simp only [List.flatMap_cons, feedbackOf_append, ih, List.map_cons]
    cases f p <;> simp [replyBlock, feedbackOf]

/-- The feedback messages of a list of PROMPTs. -/
theorem feedbackOf_triggers (l : List Nat) :
    feedbackOf (l.map (fun (g : Nat) => ChannelOut.send_tx MsgName.TRIGGER (g : Int)))
      = l.map (fun (g : Nat) => (MsgName.TRIGGER, (g : Int))) := by
  induction l with
  | nil => rfl
  | cons g rest ih => simp [feedbackOf, ih]

/-- The feedback messages of a slot resolution: one per attempt, in arrival
order, then the PROMPTs to the gates without an attempt. -/
theorem feedbackOf_resolution (par : ChannelPar) (now : Int) (N : Nat) (pkts : List PacketMsg) :
    feedbackOf (List.replicate (collidedChannels N pkts) (ChannelOut.emitCollision 1)
        ++ (pkts.flatMap (fun p => replyBlock now (collides pkts p) p)
          ++ ChannelOut.emitThroughput (throughputOf N pkts)
          :: (silentGates par.numTransmitters pkts).map
              (fun (g : Nat) => ChannelOut.send_tx MsgName.TRIGGER (g : Int)))
        ++ [ChannelOut.scheduleAt (now + par.timeSlotSize)])
      = pkts.map (fun p => (if collides pkts p then MsgName.NACK else MsgName.ACK, p.idGate))
        ++ (silentGates par.numTransmitters pkts).map
            (fun (g : Nat) => (MsgName.TRIGGER, (g : Int))) := by
  rw [feedbackOf_append, feedbackOf_append, feedbackOf_collisions, feedbackOf_append,
    feedbackOf_blocks]
  simp [feedbackOf, feedbackOf_triggers]

/-! ### The invariant of the composed system -/

/-- A station that changes keeps what the system knows of it, if its parameters,
its counter and the head of its buffer stay. -/
theorem holds_set (net net1 : Network) (g0 : Int) (s0 s1 : Station)
    (hget : vecGet? net.stations g0 = some s0)
    (hst : net1.stations = net.stations.set g0.toNat s1)
    (hpar : s1.par = s0.par) (hcnt : s1.st.backoffTime = s0.st.backoffTime)
    (hbuf : ∀ h t, s0.st.buffer = h :: t → ∃ t1, s1.st.buffer = h :: t1)
    (g : Int) (q : PacketMsg) (hq : net.Holds g q) : net1.Holds g q := by
  obtain ⟨s, h, t, hs, hb, hqe, hr⟩ := hq
  by_cases hg : g = g0
  · subst hg
    rw [hget] at hs
    simp only [Option.some.injEq] at hs
    subst hs
    obtain ⟨t1, ht1⟩ := hbuf h t hb
    refine ⟨s1, h, t1, ?_, ht1, hqe, ?_⟩
    · rw [hst]; exact vecGet?_set_self _ _ _ _ hget
    · unfold Station.Ready at hr ⊢
      rw [hpar, hcnt]; exact hr
  · refine ⟨s, h, t, ?_, hb, hqe, hr⟩
    rw [hst, vecGet?_set_ne _ _ _ _ (vecGet?_range _ _ _ hget).1 hg]
    exact hs

/-- A station that changes leaves what the system knows of the other stations. -/
theorem holds_set_ne (net net1 : Network) (g0 : Int) (s1 : Station) (h0 : 0 ≤ g0)
    (hst : net1.stations = net.stations.set g0.toNat s1)
    (g : Int) (q : PacketMsg) (hg : g ≠ g0) (hq : net.Holds g q) : net1.Holds g q := by
  obtain ⟨s, h, t, hs, hb, hqe, hr⟩ := hq
  refine ⟨s, h, t, ?_, hb, hqe, hr⟩
  rw [hst, vecGet?_set_ne _ _ _ _ h0 hg]
  exact hs

/-- The invariant holds when the system starts. -/
theorem linked_start (cpar : ChannelPar) (pars : List TransmitterPar) (now : Int)
    (inits : List (TransmitterPar × Draws)) (net : Network)
    (hp : inits.map Prod.fst = pars) (hsz : pars.length = cpar.numTransmitters)
    (h : Network.start cpar now inits = Except.ok net) : net.Linked cpar pars := by
  unfold Network.start Channel.initialize at h
  by_cases h0 : cpar.numChannels = 0
  · simp [h0] at h
  · simp only [h0, if_false, Except.ok.injEq] at h
    subst h
    exact
      { flags := by simp
        pars_eq := by simpa [List.map_map, Function.comp_def] using hp
        size := hsz
        held := by intro q hq; cases hq
        gates := List.nodup_nil
        flying := List.nodup_nil
        apart := by intro q hq; cases hq
        wired := by intro x hx; cases hx
        acked := by intro g hg; cases hg }

/-- An arrival keeps the invariant. -/
theorem linked_arrival (cpar : ChannelPar) (pars : List TransmitterPar) (now : Int)
    (d : Draws) (net net1 : Network) (i : Nat) (pkt : PacketMsg)
    (hl : net.Linked cpar pars) (h : Network.arrival now d net i pkt = some net1) :
    net1.Linked cpar pars := by
  simp only [Network.arrival, Transmitter.handleMessage, Option.bind_eq_bind,
    Option.bind_eq_some, Option.pure_def, Option.some.injEq] at h
  obtain ⟨s, hs, ⟨st1, o1⟩, hstep, hnet⟩ := h
  simp only [Option.some.injEq, Prod.mk.injEq] at hstep
  obtain ⟨hst1, _⟩ := hstep
  have hget : vecGet? net.stations (i : Int) = some s := by
    rw [vecGet?_natCast]; exact hs
  have hstations : net1.stations = net.stations.set ((i : Int)).toNat { s with st := st1 } := by
    rw [← hnet]; simp
  have hch : net1.channel = net.channel := by rw [← hnet]
  have hin : net1.inflight = net.inflight := by rw [← hnet]
  have hlo : net1.lastOuts = net.lastOuts := by rw [← hnet]
  have hkeep : ∀ g q, net.Holds g q → net1.Holds g q := by
    intro g q hq
    refine holds_set net net1 (i : Int) s { s with st := st1 } hget hstations rfl ?_ ?_ g q hq
    · rw [← hst1]; exact (handleArrivedPacket_frame s.par now d s.st pkt).2
    · intro h t hb
      obtain ⟨p, hp, _⟩ := handleArrivedPacket_buffer s.par now d s.st pkt
      refine ⟨t ++ [p], ?_⟩
      show st1.buffer = h :: (t ++ [p])
      rw [← hst1, hp, hb]; rfl
  exact
    { flags := by rw [hch]; exact hl.flags
      pars_eq := by
        rw [hstations, ← hl.pars_eq]
        apply List.ext_getElem?
        intro n
        simp only [List.getElem?_map, List.getElem?_set, Int.toNat_ofNat]
        by_cases hn : i = n
        · subst hn
          by_cases hlt : i < net.stations.length
          · simp [hlt, hs]
          · simp [hlt, List.getElem?_eq_none (Nat.le_of_not_lt hlt)]
        · simp [hn]
      size := hl.size
      held := by rw [hch]; exact fun q hq => hkeep _ _ (hl.held q hq)
      gates := by rw [hch]; exact hl.gates
      flying := by rw [hin]; exact hl.flying
      apart := by rw [hch, hin]; exact hl.apart
      wired := by
        rw [hin]
        intro x hx
        obtain ⟨sx, hsx⟩ := hl.wired x hx
        by_cases hxg : x.2 = (i : Int)
        · exact ⟨_, by rw [hstations, hxg]; exact vecGet?_set_self _ _ _ _ hget⟩
        · exact ⟨sx, by
            rw [hstations, vecGet?_set_ne _ _ _ _ (Int.ofNat_nonneg i) hxg]; exact hsx⟩
      acked := by
        rw [hin, hlo]
        intro g hg
        obtain ⟨q, hq, hrx⟩ := hl.acked g hg
        exact ⟨q, hkeep g q hq, hrx⟩ }


/-- The map of the stations to their parameters does not change when a station
is replaced by one with the same parameters. -/
theorem map_par_set (stations : List Station) (g : Int) (s s1 : Station)
    (hget : vecGet? stations g = some s) (hpar : s1.par = s.par) :
    (stations.set g.toNat s1).map Station.par = stations.map Station.par := by
  obtain ⟨_, _, hs⟩ := vecGet?_range _ _ _ hget
  apply List.ext_getElem?
  intro n
  simp only [List.getElem?_map, List.getElem?_set]
  by_cases hn : g.toNat = n
  · subst hn
    by_cases hlt : g.toNat < stations.length
    · simp [hlt, hs, hpar]
    · simp [hlt, List.getElem?_eq_none (Nat.le_of_not_lt hlt)]
  · simp [hn]

/-- A slot resolution keeps the invariant. -/
theorem linked_resolve (cpar : ChannelPar) (pars : List TransmitterPar) (now : Int)
    (net net1 : Network) (hl : net.Linked cpar pars)
    (h : Network.resolve cpar now net = some net1) : net1.Linked cpar pars := by
  simp only [Network.resolve, Option.bind_eq_bind, Option.bind_eq_some, Option.pure_def,
    Option.some.injEq] at h
  obtain ⟨⟨ch1, outs⟩, hres, hnet⟩ := h
  have hch : net.channel = Channel.mk (List.replicate net.channel.isCollided_.length false)
      net.channel.packetsOfSlot_ := by
    have hfl := hl.flags
    revert hfl
    generalize net.channel = ch
    intro hfl
    cases ch with
    | mk fl pk =>
      simp only at hfl ⊢
      rw [← hfl]
  rw [hch] at hres
  have hrange := (resolve_isSome_iff cpar now net.channel.isCollided_.length
    net.channel.packetsOfSlot_).mp (by rw [hres]; rfl)
  have hspec := resolve_spec cpar now net.channel.isCollided_.length
    net.channel.packetsOfSlot_ hrange.1 hrange.2
  rw [hres] at hspec
  simp only [Option.some.injEq, Prod.mk.injEq] at hspec
  obtain ⟨hc1, houts⟩ := hspec
  have hfb := feedbackOf_resolution cpar now net.channel.isCollided_.length
    net.channel.packetsOfSlot_
  rw [← houts] at hfb
  have hstations : net1.stations = net.stations := by rw [← hnet]
  have hchan : net1.channel = ch1 := by rw [← hnet]
  have hin : net1.inflight = feedbackOf outs := by rw [← hnet]
  have hlo : net1.lastOuts = outs := by rw [← hnet]
  have hkeep : ∀ g q, net.Holds g q → net1.Holds g q := by
    intro g q ⟨s, hd, t, hs, hb, hq, hr⟩
    exact ⟨s, hd, t, by rw [hstations]; exact hs, hb, hq, hr⟩
  have hsize : net.stations.length = cpar.numTransmitters := by
    rw [← hl.size, ← hl.pars_eq, List.length_map]
  exact
    { flags := by rw [hchan, hc1]; simp
      pars_eq := by rw [hstations]; exact hl.pars_eq
      size := hl.size
      held := by rw [hchan, hc1]; intro q hq; cases hq
      gates := by rw [hchan, hc1]; exact List.nodup_nil
      flying := by
        rw [hin, hfb, List.map_append, List.map_map, List.map_map]
        rw [List.nodup_append]
        refine ⟨hl.gates, ?_, ?_⟩
        · exact (silentGates_nodup _ _).map (fun a b hab => by simpa using hab)
        · intro x hx1 hx2
          obtain ⟨p, hp, hpx⟩ := List.mem_map.mp hx1
          obtain ⟨g, hg, hgx⟩ := List.mem_map.mp hx2
          simp only [Function.comp_apply] at hpx hgx
          exact ((mem_silentGates _ _ _).mp hg).2 ⟨p, hp, by rw [hpx, ← hgx]⟩
      apart := by rw [hchan, hc1]; intro q hq; cases hq
      wired := by
        rw [hin, hfb, hstations]
        intro x hx
        rcases List.mem_append.mp hx with hx | hx
        · obtain ⟨p, hp, hpx⟩ := List.mem_map.mp hx
          obtain ⟨s, _, _, hs, _⟩ := hl.held p hp
          exact ⟨s, by rw [← hpx]; exact hs⟩
        · obtain ⟨g, hg, hgx⟩ := List.mem_map.mp hx
          have hlt : g < net.stations.length := by
            rw [hsize]; exact ((mem_silentGates _ _ _).mp hg).1
          refine ⟨net.stations.get ⟨g, hlt⟩, ?_⟩
          rw [← hgx]
          show vecGet? net.stations (g : Int) = _
          rw [vecGet?_natCast]
          exact List.getElem?_eq_getElem hlt
      acked := by
        rw [hin, hfb, hlo]
        intro g hg
        rcases List.mem_append.mp hg with hg | hg
        · obtain ⟨p, hp, hpx⟩ := List.mem_map.mp hg
          simp only [Prod.mk.injEq] at hpx
          obtain ⟨hname, hgate⟩ := hpx
          have hcol : collides net.channel.packetsOfSlot_ p = false := by
            by_contra hc
            simp only [Bool.not_eq_false] at hc
            rw [hc] at hname
            cases hname
          refine ⟨p, ?_, ?_⟩
          · rw [← hgate]; exact hkeep _ _ (hl.held p hp)
          · rw [houts]
            apply List.mem_append_left
            apply List.mem_append_right
            apply List.mem_append_left
            apply List.mem_flatMap.mpr
            refine ⟨p, hp, ?_⟩
            rw [hcol, ← hgate]
            simp [replyBlock]
        · obtain ⟨x, _, hx⟩ := List.mem_map.mp hg
          cases hx }


/-- Handling a feedback message keeps the invariant. -/
theorem linked_deliver (cpar : ChannelPar) (pars : List TransmitterPar) (now : Int)
    (d : Draws) (net net1 : Network) (name : MsgName) (gate : Int)
    (rest : List (MsgName × Int)) (hl : net.Linked cpar pars)
    (hfly : net.inflight = (name, gate) :: rest)
    (h : Network.deliver cpar now d net name gate rest = some net1) :
    net1.Linked cpar pars := by
  simp only [Network.deliver, Transmitter.handleMessage, Option.bind_eq_bind,
    Option.bind_eq_some, Option.pure_def, Option.some.injEq] at h
  obtain ⟨s, hs, ⟨st1, outs⟩, hstep, ⟨ch1, o1⟩, hrun, hnet⟩ := h
  rw [run_packets] at hrun
  simp only [Option.some.injEq, Prod.mk.injEq] at hrun
  obtain ⟨hch1, _⟩ := hrun
  obtain ⟨_, hsent, _, _⟩ := feedback_summary s.par d s.st st1 name outs hstep
  have h0 : 0 ≤ gate := (vecGet?_range _ _ _ hs).1
  have hstations : net1.stations = net.stations.set gate.toNat { s with st := st1 } := by
    rw [← hnet]
  have hchan : net1.channel = ch1 := by rw [← hnet]
  have hin : net1.inflight = rest := by rw [← hnet]
  have hlo : net1.lastOuts = net.lastOuts := by rw [← hnet]
  have hflying := hl.flying
  rw [hfly, List.map_cons, List.nodup_cons] at hflying
  have hapart := hl.apart
  rw [hfly] at hapart
  have hother : ∀ g q, g ≠ gate → net.Holds g q → net1.Holds g q :=
    fun g q hg hq => holds_set_ne net net1 gate _ h0 hstations g q hg hq
  have hold : ∀ q ∈ net.channel.packetsOfSlot_, q.idGate ≠ gate := by
    intro q hq hqg
    exact hapart q hq (by rw [hqg]; simp)
  have hnew : ∀ q ∈ (sentPackets outs).map (fun p => ({ p with idGate := gate } : PacketMsg)),
      q.idGate = gate ∧ net1.Holds gate q := by
    intro q hq
    obtain ⟨p, hp, hpq⟩ := List.mem_map.mp hq
    rcases hsent with hnone | ⟨p1, t, hone, hbuf, hready⟩
    · rw [hnone] at hp; cases hp
    · rw [hone, List.mem_singleton] at hp
      subst hp
      refine ⟨by rw [← hpq], { s with st := st1 }, p, t, ?_, hbuf, hpq.symm, hready⟩
      rw [hstations]; exact vecGet?_set_self _ _ _ _ hs
  have hpk : net1.channel.packetsOfSlot_ = net.channel.packetsOfSlot_
      ++ (sentPackets outs).map (fun p => ({ p with idGate := gate } : PacketMsg)) := by
    rw [hchan, ← hch1]
  exact
    { flags := by rw [hchan, ← hch1]; exact hl.flags
      pars_eq := by
        rw [hstations, map_par_set net.stations gate s { s with st := st1 } hs rfl]
        exact hl.pars_eq
      size := hl.size
      held := by
        rw [hpk]
        intro q hq
        rcases List.mem_append.mp hq with hq | hq
        · exact hother _ _ (hold q hq) (hl.held q hq)
        · obtain ⟨hg, hh⟩ := hnew q hq
          rw [hg]; exact hh
      gates := by
        rw [hpk, List.map_append, List.nodup_append]
        refine ⟨hl.gates, ?_, ?_⟩
        · rcases hsent with hnone | ⟨p1, t, hone, _⟩
          · rw [hnone]; exact List.nodup_nil
          · rw [hone]; simp
        · intro x hx1 hx2
          obtain ⟨q1, hq1, hqx1⟩ := List.mem_map.mp hx1
          obtain ⟨q2, hq2, hqx2⟩ := List.mem_map.mp hx2
          exact hold q1 hq1 (by rw [hqx1, ← hqx2]; exact (hnew q2 hq2).1)
      flying := by rw [hin]; exact hflying.2
      apart := by
        rw [hpk, hin]
        intro q hq
        rcases List.mem_append.mp hq with hq | hq
        · intro hmem
          exact hapart q hq (List.mem_cons_of_mem _ hmem)
        · rw [(hnew q hq).1]; exact hflying.1
      wired := by
        rw [hin]
        intro x hx
        obtain ⟨sx, hsx⟩ := hl.wired x (by rw [hfly]; exact List.mem_cons_of_mem _ hx)
        by_cases hxg : x.2 = gate
        · exact ⟨_, by rw [hstations, hxg]; exact vecGet?_set_self _ _ _ _ hs⟩
        · exact ⟨sx, by rw [hstations, vecGet?_set_ne _ _ _ _ h0 hxg]; exact hsx⟩
      acked := by
        rw [hin, hlo]
        intro g hg
        obtain ⟨q, hq, hrx⟩ := hl.acked g (by rw [hfly]; exact List.mem_cons_of_mem _ hg)
        have hne : g ≠ gate := by
          intro hgg
          apply hflying.1
          rw [← hgg]
          exact List.mem_map.mpr ⟨(MsgName.ACK, g), hg, rfl⟩
        exact ⟨q, hother g q hne hq, hrx⟩ }

/-- Every reachable state of the composed system satisfies the invariant. -/
theorem linked_of_reachable (cpar : ChannelPar) (pars : List TransmitterPar)
    (ok : Draws → Prop) (net : Network) (hr : NetReachable cpar pars ok net) :
    net.Linked cpar pars := by
  induction hr with
  | start now inits net hp hsz h => exact linked_start cpar pars now inits net hp hsz h
  | resolve net net1 now _ _ h ih => exact linked_resolve cpar pars now net net1 ih h
  | deliver net net1 now d name gate rest _ _ hfly h ih =>
    exact linked_deliver cpar pars now d net net1 name gate rest ih hfly h
  | arrival net net1 now d i pkt _ _ h ih =>
    exact linked_arrival cpar pars now d net net1 i pkt ih h


/-! ### Sub-channel indices in the composed system -/

/-- An arrival keeps the sub-channel count of the station, and under the
assign-at-arrival policy the packet it appends carries the value of
`intuniform(0, numChannels - 1, 2)`. -/
theorem handleArrivedPacket_channel (par : TransmitterPar) (now : Int) (d : Draws)
    (st : Transmitter) (msg : PacketMsg) :
    (handleArrivedPacket par now d st msg).1.numChannels = st.numChannels ∧
    (par.changeOfChannelAfterCollision = false →
      ∀ p ∈ (handleArrivedPacket par now d st msg).1.buffer,
        p ∈ st.buffer ∨ p.idChannel = d.channel 0 (st.numChannels - 1)) := by
  constructor
  · unfold handleArrivedPacket
    cases hc : par.changeOfChannelAfterCollision <;> simp
  · intro hc p hp
    simp only [handleArrivedPacket, hc, Bool.false_eq_true, if_false] at hp
    rcases List.mem_append.mp hp with hp | hp
    · exact Or.inl hp
    · rw [List.mem_singleton] at hp
      rw [hp]; exact Or.inr rfl

/-- The range invariant holds when the system starts. -/
theorem ranged_start (cpar : ChannelPar) (pars : List TransmitterPar) (now : Int)
    (inits : List (TransmitterPar × Draws)) (net : Network)
    (hN : 1 ≤ cpar.numChannels) (hpars : ∀ p ∈ pars, p.numChannels = cpar.numChannels)
    (hp : inits.map Prod.fst = pars)
    (h : Network.start cpar now inits = Except.ok net) : net.Ranged cpar := by
  unfold Network.start Channel.initialize at h
  have h0 : cpar.numChannels ≠ 0 := by omega
  simp only [h0, if_false, Except.ok.injEq] at h
  subst h
  refine { count := ?_, buffered := ?_, attempts := ?_, flagCount := ?_ }
  · intro s hs
    obtain ⟨x, hx, rfl⟩ := List.mem_map.mp hs
    exact hpars x.1 (by rw [← hp]; exact List.mem_map.mpr ⟨x, hx, rfl⟩)
  · intro s hs _ p hpb
    obtain ⟨x, _, rfl⟩ := List.mem_map.mp hs
    cases hpb
  · intro q hq; cases hq
  · simp only [List.length_replicate]
    omega

/-- An arrival keeps the range invariant. -/
theorem ranged_arrival (cpar : ChannelPar) (now : Int) (d : Draws) (net net1 : Network)
    (i : Nat) (pkt : PacketMsg) (hN : 1 ≤ cpar.numChannels) (hd : d.ChannelInRange)
    (hl : net.Ranged cpar) (h : Network.arrival now d net i pkt = some net1) :
    net1.Ranged cpar := by
  simp only [Network.arrival, Transmitter.handleMessage, Option.bind_eq_bind,
    Option.bind_eq_some, Option.pure_def, Option.some.injEq] at h
  obtain ⟨s, hs, ⟨st1, o1⟩, hstep, hnet⟩ := h
  simp only [Option.some.injEq, Prod.mk.injEq] at hstep
  obtain ⟨hst1, _⟩ := hstep
  have hmem : s ∈ net.stations := List.getElem?_mem hs
  obtain ⟨a1, a2⟩ := handleArrivedPacket_channel s.par now d s.st pkt
  rw [hst1] at a1 a2
  have hcases : ∀ x ∈ net1.stations, x = { s with st := st1 } ∨ x ∈ net.stations := by
    intro x hx
    rw [← hnet] at hx
    exact List.mem_or_eq_of_mem_set hx |>.symm
  refine { count := ?_, buffered := ?_, attempts := ?_, flagCount := ?_ }
  · intro x hx
    rcases hcases x hx with rfl | hx
    · show st1.numChannels = _
      rw [a1]; exact hl.count s hmem
    · exact hl.count x hx
  · intro x hx hc p hp
    rcases hcases x hx with rfl | hx
    · rcases a2 hc p hp with hin | heq
      · exact hl.buffered s hmem hc p hin
      · have hr := hd 0 (s.st.numChannels - 1) (by rw [hl.count s hmem]; omega)
        rw [heq, hl.count s hmem] at *
        omega
    · exact hl.buffered x hx hc p hp
  · rw [← hnet]; exact hl.attempts
  · rw [← hnet]; exact hl.flagCount

/-- A slot resolution keeps the range invariant. -/
theorem ranged_resolve (cpar : ChannelPar) (now : Int) (net net1 : Network)
    (hl : net.Ranged cpar) (h : Network.resolve cpar now net = some net1) :
    net1.Ranged cpar := by
  simp only [Network.resolve, Option.bind_eq_bind, Option.bind_eq_some, Option.pure_def,
    Option.some.injEq] at h
  obtain ⟨⟨ch1, outs⟩, hres, hnet⟩ := h
  have hc := resolve_clears cpar now net.channel ch1 outs hres
  refine { count := ?_, buffered := ?_, attempts := ?_, flagCount := ?_ }
  · rw [← hnet]; exact hl.count
  · rw [← hnet]; exact hl.buffered
  · rw [← hnet]
    show ∀ q ∈ ch1.packetsOfSlot_, _
    rw [hc]
    intro q hq; cases hq
  · rw [← hnet]
    show ((ch1.isCollided_.length : Nat) : Int) = _
    rw [hc]
    simp only [List.length_replicate]
    exact hl.flagCount

/-- Handling a feedback message keeps the range invariant. -/
theorem ranged_deliver (cpar : ChannelPar) (now : Int) (d : Draws) (net net1 : Network)
    (name : MsgName) (gate : Int) (rest : List (MsgName × Int))
    (hN : 1 ≤ cpar.numChannels) (hd : d.ChannelInRange)
    (hl : net.Ranged cpar)
    (h : Network.deliver cpar now d net name gate rest = some net1) :
    net1.Ranged cpar := by
  simp only [Network.deliver, Transmitter.handleMessage, Option.bind_eq_bind,
    Option.bind_eq_some, Option.pure_def, Option.some.injEq] at h
  obtain ⟨s, hs, ⟨st1, outs⟩, hstep, ⟨ch1, o1⟩, hrun, hnet⟩ := h
  rw [run_packets] at hrun
  simp only [Option.some.injEq, Prod.mk.injEq] at hrun
  obtain ⟨hch1, _⟩ := hrun
  obtain ⟨f1, f2, f3, f4⟩ := feedback_summary s.par d s.st st1 name outs hstep
  have hmem : s ∈ net.stations := List.getElem?_mem (vecGet?_range _ _ _ hs).2.2
  have hcases : ∀ x ∈ net1.stations, x = { s with st := st1 } ∨ x ∈ net.stations := by
    intro x hx
    rw [← hnet] at hx
    exact List.mem_or_eq_of_mem_set hx |>.symm
  refine { count := ?_, buffered := ?_, attempts := ?_, flagCount := ?_ }
  · intro x hx
    rcases hcases x hx with rfl | hx
    · show st1.numChannels = _
      rw [f1]; exact hl.count s hmem
    · exact hl.count x hx
  · intro x hx hc p hp
    rcases hcases x hx with rfl | hx
    · exact hl.buffered s hmem hc p (f3 hc p hp)
    · exact hl.buffered x hx hc p hp
  · rw [← hnet]
    show ∀ q ∈ ch1.packetsOfSlot_, _
    rw [← hch1]
    intro q hq
    rcases List.mem_append.mp hq with hq | hq
    · exact hl.attempts q hq
    · obtain ⟨p, hp, rfl⟩ := List.mem_map.mp hq
      show 0 ≤ p.idChannel ∧ p.idChannel < cpar.numChannels
      cases hc : s.par.changeOfChannelAfterCollision
      · rcases f2 with hnone | ⟨p1, t, hone, hbuf, _⟩
        · rw [hnone] at hp; cases hp
        · rw [hone, List.mem_singleton] at hp
          subst hp
          exact hl.buffered s hmem hc p (f3 hc p (by rw [hbuf]; exact List.mem_cons_self _ _))
      · have hr := hd 0 (s.st.numChannels - 1) (by rw [hl.count s hmem]; omega)
        rw [f4 hc p hp, hl.count s hmem] at *
        omega
  · rw [← hnet]
    show ((ch1.isCollided_.length : Nat) : Int) = _
    rw [← hch1]; exact hl.flagCount

/-- Every reachable state of the composed system, with stations configured with
the sub-channel count of the Channel and `intuniform` keeping its contract,
satisfies the range invariant. -/
theorem ranged_of_reachable (cpar : ChannelPar) (pars : List TransmitterPar)
    (hN : 1 ≤ cpar.numChannels) (hpars : ∀ p ∈ pars, p.numChannels = cpar.numChannels)
    (net : Network) (hr : NetReachable cpar pars Draws.ChannelInRange net) :
    net.Ranged cpar := by
  induction hr with
  | start now inits net hp _ h => exact ranged_start cpar pars now inits net hN hpars hp h
  | resolve net net1 now _ _ h ih => exact ranged_resolve cpar now net net1 ih h
  | deliver net net1 now d name gate rest _ hd _ h ih =>
    exact ranged_deliver cpar now d net net1 name gate rest hN hd ih h
  | arrival net net1 now d i pkt _ hd h ih =>
    exact ranged_arrival cpar now d net net1 i pkt hN hd ih h


/-! ### The composed system: the claims -/

/-- The example system reaches `demoNetAttempts`: two packets arrive, the first
slot boundary prompts the three stations, and two of them attempt. -/
theorem demoNetAttempts_reachable :
    NetReachable demoChannelPar demoStations Draws.ChannelInRange demoNetAttempts := by
  have hlow : demoDraws.ChannelInRange := fun a b h => ⟨le_refl _, h⟩
  have hhigh : demoDrawsHigh.ChannelInRange := fun a b h => ⟨h, le_refl _⟩
  have h0 : NetReachable demoChannelPar demoStations Draws.ChannelInRange demoNetStart :=
    NetReachable.start 0 (demoStations.map (fun p => (p, demoDraws))) demoNetStart
      (by decide) (by decide) rfl
  have h1 := NetReachable.arrival demoNetStart demoNet1 3 demoDraws 0
    { PacketMsg.fresh with creationTime := 3 } h0 hlow (by decide)
  have h2 := NetReachable.arrival demoNet1 demoNet2 4 demoDrawsHigh 1
    { PacketMsg.fresh with creationTime := 4 } h1 hhigh (by decide)
  have h3 := NetReachable.resolve demoNet2 demoNet3 10 h2 (by decide) (by decide)
  have h4 := NetReachable.deliver demoNet3 demoNet4 10 demoDraws MsgName.TRIGGER 0
    [(MsgName.TRIGGER, 1), (MsgName.TRIGGER, 2)] h3 hlow (by decide) (by decide)
  have h5 := NetReachable.deliver demoNet4 demoNet5 10 demoDrawsHigh MsgName.TRIGGER 1
    [(MsgName.TRIGGER, 2)] h4 hhigh (by decide) (by decide)
  exact NetReachable.deliver demoNet5 demoNetAttempts 10 demoDraws MsgName.TRIGGER 2 [] h5 hlow
    (by decide) (by decide)

/-- The example system reaches `demoNetAcked`: the second slot boundary
acknowledges the two attempts. -/
theorem demoNetAcked_reachable :
    NetReachable demoChannelPar demoStations Draws.ChannelInRange demoNetAcked :=
  NetReachable.resolve demoNetAttempts demoNetAcked 20 demoNetAttempts_reachable (by decide)
    (by decide)

/-- Claim C11. In every reachable state of the composed system, a station with
an ACK in flight to it is not counting down and its buffer is not empty: the
head `p` is the packet whose copy, stamped with the gate of the station, the
Channel forwarded in the last resolution, and handling the ACK returns and
removes exactly `p`. Hence every feedback message in flight is handled without
reading an empty buffer. -/
theorem C11_ack_finds_head (cpar : ChannelPar) (pars : List TransmitterPar)
    (ok : Draws → Prop) (net : Network) (hr : NetReachable cpar pars ok net) :
    (∀ g, (MsgName.ACK, g) ∈ net.inflight →
      ∃ s p t, vecGet? net.stations g = some s ∧ s.st.buffer = p :: t ∧
        ¬ (s.st.backoffTime > 0 ∧ s.par.isBackoff = true) ∧
        ChannelOut.send_rx { p with idGate := g } g ∈ net.lastOuts ∧
        ∀ d : Draws, ∃ s1 outs,
          handleChannelPacket s.par d s.st MsgName.ACK = some (s1, outs) ∧
          removedPackets outs = [p]) ∧
    (∀ (name : MsgName) (gate : Int) (rest : List (MsgName × Int)) (now : Int) (d : Draws),
      net.inflight = (name, gate) :: rest →
      ∃ net1, Network.deliver cpar now d net name gate rest = some net1) := by
  have hl := linked_of_reachable cpar pars ok net hr
  have hack : ∀ g, (MsgName.ACK, g) ∈ net.inflight →
      ∃ s p t, vecGet? net.stations g = some s ∧ s.st.buffer = p :: t ∧
        ¬ (s.st.backoffTime > 0 ∧ s.par.isBackoff = true) ∧
        ChannelOut.send_rx { p with idGate := g } g ∈ net.lastOuts := by
    intro g hg
    obtain ⟨q, ⟨s, p, t, hs, hb, hq, hready⟩, hrx⟩ := hl.acked g hg
    exact ⟨s, p, t, hs, hb, hready, by rw [← hq]; exact hrx⟩
  constructor
  · intro g hg
    obtain ⟨s, p, t, hs, hb, hready, hrx⟩ := hack g hg
    refine ⟨s, p, t, hs, hb, hready, hrx, ?_⟩
    intro d
    have c2 : ¬ (MsgName.ACK = MsgName.NACK ∧ s.par.isBackoff = true) := by simp
    refine ⟨(bernoulliAttempt s.par d { s.st with buffer := t, maxBackoffTime := 2 }).1,
      TransmitterOut.deletePkt p ::
        (bernoulliAttempt s.par d { s.st with buffer := t, maxBackoffTime := 2 }).2, ?_, ?_⟩
    · unfold handleChannelPacket
      rw [if_neg hready, if_neg c2, if_pos rfl, hb]
    · simp only [removedPackets, (bernoulliAttempt_buffer s.par d _).2.2.2]
  · intro name gate rest now d hfly
    obtain ⟨s, hs⟩ := hl.wired (name, gate) (by rw [hfly]; exact List.mem_cons_self _ _)
    simp only at hs
    have hsome : handleChannelPacket s.par d s.st name ≠ none := by
      intro hnone
      obtain ⟨hname, hempty, _⟩ := (handleChannelPacket_eq_none_iff s.par d s.st name).mp hnone
      subst hname
      obtain ⟨s1, p, t, hs1, hb, _⟩ := hack gate (by rw [hfly]; exact List.mem_cons_self _ _)
      rw [hs] at hs1
      simp only [Option.some.injEq] at hs1
      subst hs1
      rw [hb] at hempty
      cases hempty
    obtain ⟨⟨st1, outs⟩, hstep⟩ := Option.ne_none_iff_exists'.mp hsome
    refine ⟨{ net with
        channel := { net.channel with
          packetsOfSlot_ := net.channel.packetsOfSlot_
            ++ (sentPackets outs).map (fun p => { p with idGate := gate }) },
        stations := net.stations.set gate.toNat { s with st := st1 },
        inflight := rest }, ?_⟩
    simp only [Network.deliver, Transmitter.handleMessage, hs, hstep, run_packets,
      Option.bind_eq_bind, Option.some_bind, Option.pure_def]

/-- Witness for claim C11, at `demoNetAcked`: the ACK in flight to gate 1 finds
the packet of time 4 at the head of the buffer of that station. -/
theorem C11_witness :
    NetReachable demoChannelPar demoStations Draws.ChannelInRange demoNetAcked ∧
    (MsgName.ACK, 1) ∈ demoNetAcked.inflight ∧
    ∃ s p t, vecGet? demoNetAcked.stations 1 = some s ∧ s.st.buffer = p :: t ∧
      ¬ (s.st.backoffTime > 0 ∧ s.par.isBackoff = true) ∧
      ChannelOut.send_rx { p with idGate := 1 } 1 ∈ demoNetAcked.lastOuts ∧
      ∀ d : Draws, ∃ s1 outs,
        handleChannelPacket s.par d s.st MsgName.ACK = some (s1, outs) ∧
        removedPackets outs = [p] :=
  ⟨demoNetAcked_reachable, by decide,
    (C11_ack_finds_head demoChannelPar demoStations Draws.ChannelInRange demoNetAcked
      demoNetAcked_reachable).1 1 (by decide)⟩

/-- Claim C19. Let the Channel have at least one sub-channel, let every station
be configured with the sub-channel count of the Channel, and let `intuniform`
keep its contract. Then in every reachable state of the composed system every
attempt the Channel holds carries a sub-channel index in `[0, numChannels - 1]`,
inside the vectors `n_collisions` and `isCollided_`, and a gate index below
`numTransmitters`, inside the vector `triggeredTx`; so `findCollisions` and the
whole slot resolution return; and whatever feedback a station handles, the
attempt it offers carries a sub-channel index in `[0, numChannels - 1]`, under
either assignment policy. -/
theorem C19_indices_in_range (cpar : ChannelPar) (pars : List TransmitterPar) (net : Network)
    (hN : 1 ≤ cpar.numChannels) (hpars : ∀ p ∈ pars, p.numChannels = cpar.numChannels)
    (hr : NetReachable cpar pars Draws.ChannelInRange net) :
    ((net.channel.isCollided_.length : Nat) : Int) = cpar.numChannels ∧
    (∀ q ∈ net.channel.packetsOfSlot_, 0 ≤ q.idChannel ∧ q.idChannel ≤ cpar.numChannels - 1) ∧
    ChannelsInRange net.channel.isCollided_.length net.channel.packetsOfSlot_ ∧
    GatesInRange cpar.numTransmitters net.channel.packetsOfSlot_ ∧
    (findCollisions net.channel).isSome ∧
    (∀ now : Int, ∃ net1, Network.resolve cpar now net = some net1) ∧
    (∀ s ∈ net.stations, ∀ (d : Draws) (name : MsgName) (s1 : Transmitter)
      (outs : List TransmitterOut), d.ChannelInRange →
      handleChannelPacket s.par d s.st name = some (s1, outs) →
      ∀ p ∈ sentPackets outs, 0 ≤ p.idChannel ∧ p.idChannel ≤ s.par.numChannels - 1) := by
  have hl := linked_of_reachable cpar pars Draws.ChannelInRange net hr
  have hg := ranged_of_reachable cpar pars hN hpars net hr
  have hsize : net.stations.length = cpar.numTransmitters := by
    rw [← hl.size, ← hl.pars_eq, List.length_map]
  have hch : ChannelsInRange net.channel.isCollided_.length net.channel.packetsOfSlot_ := by
    intro q hq
    have := hg.attempts q hq
    have hc := hg.flagCount
    omega
  have hgt : GatesInRange cpar.numTransmitters net.channel.packetsOfSlot_ := by
    intro q hq
    obtain ⟨s, _, _, hs, _⟩ := hl.held q hq
    have := vecGet?_range _ _ _ hs
    omega
  have hsplit : net.channel = Channel.mk
      (List.replicate net.channel.isCollided_.length false) net.channel.packetsOfSlot_ := by
    have hfl := hl.flags
    revert hfl
    generalize net.channel = ch
    intro hfl
    cases ch with
    | mk fl pk =>
      simp only at hfl ⊢
      rw [← hfl]
  have hres : ∀ now : Int,
      (Channel.handleMessage cpar now net.channel ChannelMsg.timeSlotTrigger).isSome := by
    intro now
    rw [hsplit]
    exact (resolve_isSome_iff cpar now _ _).mpr ⟨hch, hgt⟩
  refine ⟨hg.flagCount, ?_, hch, hgt, ?_, ?_, ?_⟩
  · intro q hq
    have := hg.attempts q hq
    omega
  · rw [hsplit, findCollisions_spec _ _ hch]; rfl
  · intro now
    obtain ⟨⟨ch1, outs⟩, hsome⟩ := Option.isSome_iff_exists.mp (hres now)
    exact ⟨{ net with channel := ch1, inflight := feedbackOf outs, lastOuts := outs },
      by simp only [Network.resolve, hsome, Option.bind_eq_bind, Option.some_bind,
        Option.pure_def]⟩
  · intro s hs d name s1 outs hd hstep p hp
    obtain ⟨_, f2, f3, f4⟩ := feedback_summary s.par d s.st s1 name outs hstep
    have hcount : s.st.numChannels = cpar.numChannels := hg.count s hs
    have hpar : s.par.numChannels = cpar.numChannels :=
      hpars s.par (by rw [← hl.pars_eq]; exact List.mem_map.mpr ⟨s, hs, rfl⟩)
    rw [hpar]
    cases hc : s.par.changeOfChannelAfterCollision
    · rcases f2 with hnone | ⟨p1, t, hone, hbuf, _⟩
      · rw [hnone] at hp; cases hp
      · rw [hone, List.mem_singleton] at hp
        subst hp
        have := hg.buffered s hs hc p (f3 hc p (by rw [hbuf]; exact List.mem_cons_self _ _))
        omega
    · have hrange := hd 0 (s.st.numChannels - 1) (by omega)
      rw [f4 hc p hp, hcount] at *
      omega

/-- Witness for claim C19, at `demoNetAttempts`: the Channel holds the attempts
of the stations on gates 0 and 1, on sub-channels 0 and 1. -/
theorem C19_witness :
    1 ≤ demoChannelPar.numChannels ∧
    (∀ p ∈ demoStations, p.numChannels = demoChannelPar.numChannels) ∧
    NetReachable demoChannelPar demoStations Draws.ChannelInRange demoNetAttempts ∧
    demoNetAttempts.channel.packetsOfSlot_ = [⟨3, 7, 0, 0⟩, ⟨4, 8, 1, 1⟩] ∧
    ChannelsInRange demoNetAttempts.channel.isCollided_.length
      demoNetAttempts.channel.packetsOfSlot_ ∧
    GatesInRange demoChannelPar.numTransmitters demoNetAttempts.channel.packetsOfSlot_ ∧
    (findCollisions demoNetAttempts.channel).isSome ∧
    ∀ now : Int, ∃ net1, Network.resolve demoChannelPar now demoNetAttempts = some net1 :=
  have h := C19_indices_in_range demoChannelPar demoStations demoNetAttempts (by decide)
    (by decide) demoNetAttempts_reachable
  ⟨by decide, by decide, demoNetAttempts_reachable, by decide, h.2.2.1, h.2.2.2.1,
    h.2.2.2.2.1, h.2.2.2.2.2.1⟩

end SlottedAloha
